import Mathlib

/-!
Verification development for the rcheevos `rhash` game-fingerprinting core
(`src/deps/rcheevos/src/rhash/hash.c`).

The C code is shallowly embedded: bytes are `Nat` (values < 256 by
convention), byte buffers are `List Nat`, the caller-supplied disc and file
hook tables are Lean functions, and MD5 is modelled by the exact byte
sequence fed to the digest plus an abstract digest function `digestFn`
(the MD5 primitive itself is an external service per the specification).

Every embedded function returns its value paired with an effect log `Eff`
recording: error-sink messages, the last write to the caller-supplied
33-byte hash output (`wrote`), track-handle open/close events, file-handle
open/close counts, and the number of sector reads performed through the
disc hooks.  C loops whose termination depends on hook data are given
fuel; fuel exhaustion yields `none`, and every theorem below concludes
about `some` results.  Uninitialized C stack memory is modelled as zero
bytes; partial reads overwrite only a prefix of the previous buffer
contents (`updBuf`), as in C.
-/

/-- Byte buffers: lists of byte values. -/
abbrev Bytes := List Nat

/-- ASCII bytes of a Lean string literal. -/
def strB (s : String) : Bytes := s.data.map Char.toNat

/-- C `tolower` on a byte. -/
def tolowerB (c : Nat) : Nat := if 65 ≤ c ∧ c ≤ 90 then c + 32 else c

/-- C `tolower` on a character (for path/extension handling). -/
def tolowerC (c : Char) : Char :=
  if 65 ≤ c.toNat ∧ c.toNat ≤ 90 then Char.ofNat (c.toNat + 32) else c

/-- C `isspace` on a byte (space, \t, \n, \v, \f, \r). -/
def isSpaceB (c : Nat) : Bool :=
  c = 32 ∨ c = 9 ∨ c = 10 ∨ c = 11 ∨ c = 12 ∨ c = 13

/-- Case-insensitive equality of two byte strings of equal length
(`strcasecmp` on NUL-free data). -/
def caseEqB : Bytes → Bytes → Bool
  | [], [] => true
  | a :: as, b :: bs => (tolowerB a == tolowerB b) && caseEqB as bs
  | _, _ => false

/-- `strncasecmp(s1, s2, |s2|) == 0` for a NUL-free `s2`; bytes of `s1`
missing past its end are read as 0 (the embedding's value for memory the
C code would read out of bounds). -/
def strncaseEqB : Bytes → Bytes → Bool
  | _, [] => true
  | s1, c :: cs => (tolowerB (s1.headD 0) == tolowerB c) && strncaseEqB (s1.drop 1) cs

/-- Little-endian 24-bit value at offset `i` (e.g. `b[i] | b[i+1]<<8 | b[i+2]<<16`). -/
def le24 (b : Bytes) (i : Nat) : Nat :=
  b.getD i 0 + 256 * b.getD (i + 1) 0 + 65536 * b.getD (i + 2) 0

/-- Little-endian 32-bit value at offset `i`. -/
def le32 (b : Bytes) (i : Nat) : Nat :=
  b.getD i 0 + 256 * b.getD (i + 1) 0 + 65536 * b.getD (i + 2) 0 +
    16777216 * b.getD (i + 3) 0

/-- Big-endian 24-bit value from three explicit bytes
(`b2 * 65536 + b1 * 256 + b0` patterns in the 3DO/PC-Engine recipes are
written out in place instead). -/
def be16 (b : Bytes) (i : Nat) : Nat := 256 * b.getD i 0 + b.getD (i + 1) 0

/-- A C `read` into an existing buffer overwrites a prefix and leaves the
rest of the previous contents in place. -/
def updBuf (old new_ : Bytes) : Bytes := new_ ++ old.drop new_.length

/-- Lowercase hex digit. -/
def hexChar (n : Nat) : Char :=
  if n < 10 then Char.ofNat (48 + n) else Char.ofNat (87 + n % 16)

/-- Two lowercase hex digits of one byte (`%02x`). -/
def byteHex (b : Nat) : List Char := [hexChar (b / 16 % 16), hexChar (b % 16)]

/-- The 32-character rendering written by `rc_hash_finalize`. -/
def hexRender (digest : Bytes) : String := String.mk ((digest.map byteHex).flatten)

/-- The effect log of one call into the embedded core. -/
structure Eff where
  /-- messages sent to the error sink, in order -/
  errors : List String
  /-- last write into the caller-supplied hash output, if any -/
  wrote : Option String
  /-- track handles returned (non-NULL) by the open-track hook -/
  cdOpens : List Nat
  /-- handles passed to the close-track hook -/
  cdCloses : List Nat
  /-- number of successful file opens -/
  fileOpens : Nat
  /-- number of file closes -/
  fileCloses : Nat
  /-- number of sector reads performed through the read-sector hook -/
  hookReads : Nat
deriving DecidableEq, Repr

/-- The empty effect log. -/
def Eff.one : Eff := ⟨[], none, [], [], 0, 0, 0⟩

/-- Sequencing of effect logs: lists and counters accumulate, a later
hash-output write supersedes an earlier one. -/
def Eff.seq (a b : Eff) : Eff :=
  ⟨a.errors ++ b.errors,
   match b.wrote with | none => a.wrote | some w => some w,
   a.cdOpens ++ b.cdOpens, a.cdCloses ++ b.cdCloses,
   a.fileOpens + b.fileOpens, a.fileCloses + b.fileCloses,
   a.hookReads + b.hookReads⟩

/-- Effect of one error-sink message (`rc_hash_error` body). -/
def errEff (msg : String) : Eff := { Eff.one with errors := [msg] }

/-- The caller-supplied disc hook table (`struct rc_hash_cdreader`); each
field may be individually absent, as in C.  `close_track` carries no data
in the model, so only its presence is recorded. -/
structure CdHooks where
  open_track : Option (String → Nat → Nat)
  read_sector : Option (Nat → Nat → Nat → Bytes)
  absolute_sector_to_track_sector : Option (Nat → Nat → Nat)
  close_track : Bool

/-- The process environment: the default file reader (a map from path to
file contents), the optional disc hook table, and the external MD5 digest
function. -/
structure HashEnv where
  fs : String → Option Bytes
  cdreader : Option CdHooks
  digestFn : Bytes → Bytes

/-- Modelled from the spec: the special track selectors FIRST_DATA, LAST
and LARGEST are defined in the missing header `rc_hash.h`; here they are
the distinct out-of-band values the header reserves at the top of the
32-bit track range. -/
def RC_HASH_CDTRACK_FIRST_DATA : Nat := 4294967295

/-- Modelled from the spec: see `RC_HASH_CDTRACK_FIRST_DATA`. -/
def RC_HASH_CDTRACK_LAST : Nat := 4294967294

/-- Modelled from the spec: see `RC_HASH_CDTRACK_FIRST_DATA`. -/
def RC_HASH_CDTRACK_LARGEST : Nat := 4294967293

/-- `rc_hash_error`: report to the error sink, return 0. -/
def rc_hash_error (msg : String) : Nat × Eff := (0, errEff msg)

/-- `rc_cd_open_track`: invoke the hook when installed (recording a
non-NULL handle), else report the missing hook and return NULL (0). -/
def rc_cd_open_track (env : HashEnv) (path : String) (track : Nat) : Nat × Eff :=
  match env.cdreader with
  | some cd =>
    match cd.open_track with
    | some f =>
      let h := f path track
      (h, { Eff.one with cdOpens := if h ≠ 0 then [h] else [] })
    | none => (0, errEff "no hook registered for cdreader_open_track")
  | none => (0, errEff "no hook registered for cdreader_open_track")

/-- `rc_cd_read_sector`: invoke the hook when installed; the hook fills at
most `requested` bytes.  Without a hook, report and return 0 bytes. -/
def rc_cd_read_sector (env : HashEnv) (h sector requested : Nat) : Bytes × Eff :=
  match env.cdreader with
  | some cd =>
    match cd.read_sector with
    | some f => ((f h sector requested).take requested, { Eff.one with hookReads := 1 })
    | none => ([], errEff "no hook registered for cdreader_read_sector")
  | none => ([], errEff "no hook registered for cdreader_read_sector")

/-- `rc_cd_absolute_sector_to_track_sector`: hook result reduced to
uint32; without a hook, report and return the sector unchanged. -/
def rc_cd_absolute_sector_to_track_sector (env : HashEnv) (h sector : Nat) : Nat × Eff :=
  match env.cdreader with
  | some cd =>
    match cd.absolute_sector_to_track_sector with
    | some f => (f h sector % 4294967296, Eff.one)
    | none => (sector, errEff "no hook registered for cdreader_absolute_sector_to_track_sector")
  | none => (sector, errEff "no hook registered for cdreader_absolute_sector_to_track_sector")

/-- `rc_cd_close_track`: invoke the hook when installed, else report. -/
def rc_cd_close_track (env : HashEnv) (h : Nat) : Eff :=
  match env.cdreader with
  | some cd =>
    if cd.close_track then { Eff.one with cdCloses := [h] }
    else errEff "no hook registered for cdreader_close_track"
  | none => errEff "no hook registered for cdreader_close_track"

/-- An open file handle of the default file reader (a `FILE*`): the file
contents and the current position. -/
structure FileH where
  content : Bytes
  pos : Nat
deriving DecidableEq, Repr

/-- Seek origins used by the core (`SEEK_SET`, `SEEK_END`). -/
inductive Whence | set | endOfFile
deriving DecidableEq, Repr

/-- `rc_file_open` with the default reader: NULL when the path does not
resolve. -/
def rc_file_open (env : HashEnv) (path : String) : Option FileH × Eff :=
  match env.fs path with
  | some c => (some ⟨c, 0⟩, { Eff.one with fileOpens := 1 })
  | none => (none, Eff.one)

/-- `rc_file_seek` (offsets used by the core are non-negative). -/
def rc_file_seek (fh : FileH) (offset : Nat) (w : Whence) : FileH :=
  match w with
  | .set => { fh with pos := offset }
  | .endOfFile => { fh with pos := fh.content.length + offset }

/-- `rc_file_tell`. -/
def rc_file_tell (fh : FileH) : Nat := fh.pos

/-- `rc_file_read`: returns the bytes read (at most `requested`, fewer at
end of file) and advances the position. -/
def rc_file_read (fh : FileH) (requested : Nat) : Bytes × FileH :=
  let bytes := (fh.content.drop fh.pos).take requested
  (bytes, { fh with pos := fh.pos + bytes.length })

/-- `rc_file_close`. -/
def rc_file_close (_ : FileH) : Eff := { Eff.one with fileCloses := 1 }

/-- `rc_path_get_filename`: the tail after the last '/' or '\\'. -/
def rc_path_get_filename (path : String) : String :=
  String.mk ((path.data.reverse.takeWhile (fun c => c ≠ '/' ∧ c ≠ '\\')).reverse)

/-- `rc_path_get_extension`: the tail after the last '.', or the empty
string when the path has no '.'. -/
def rc_path_get_extension (path : String) : String :=
  let tail := path.data.reverse.takeWhile (fun c => c ≠ '.')
  if tail.length = path.data.length then "" else String.mk tail.reverse

/-- `rc_path_compare_extension`: the character before the candidate
extension must be '.', then the extension matches byte-for-byte or
lowercased (the C reads `ptr[-1]`; positions it would read out of bounds
make the comparison fail). -/
def rc_path_compare_extension (path ext : String) : Bool :=
  let pl := path.data.length
  let el := ext.data.length
  if pl ≤ el then false
  else if path.data.getD (pl - el - 1) (Char.ofNat 0) ≠ '.' then false
  else
    let suffix := path.data.drop (pl - el)
    (suffix == ext.data) || (suffix.map tolowerC == ext.data)

/-- `rc_hash_path_is_absolute`. -/
def rc_hash_path_is_absolute (path : String) : Bool :=
  let d := path.data
  if d.length = 0 then false
  else if d.headD (Char.ofNat 0) = '/' ∨ d.headD (Char.ofNat 0) = '\\' then true
  else if d.getD 1 (Char.ofNat 0) = ':' ∧ d.getD 2 (Char.ofNat 0) = '\\' then true
  else (List.range d.length).any fun i =>
    (d.getD i (Char.ofNat 0) == ':') && (d.getD (i + 1) (Char.ofNat 0) == '/')

/-- MD5 accumulator state: the exact byte sequence appended so far (the
MD5 compression itself is external, see `HashEnv.digestFn`). -/
def md5_init : Bytes := []

/-- `md5_append`. -/
def md5_append (md5 b : Bytes) : Bytes := md5 ++ b

/-- `rc_hash_finalize`: render the 16-byte digest as 32 lowercase hex
characters into the caller-supplied output and return success. -/
def rc_hash_finalize (env : HashEnv) (md5 : Bytes) : Nat × Eff :=
  (1, { Eff.one with wrote := some (hexRender (env.digestFn md5)) })

/-- `MAX_BUFFER_SIZE`: the 64 MiB cap. -/
def MAX_BUFFER_SIZE : Nat := 64 * 1024 * 1024

/-- `rc_hash_buffer`: cap the length at 64 MiB, digest, finalize. -/
def rc_hash_buffer (env : HashEnv) (buffer : Bytes) : Nat × Eff :=
  let buffer_size := if buffer.length > MAX_BUFFER_SIZE then MAX_BUFFER_SIZE else buffer.length
  let md5 := md5_append md5_init (buffer.take buffer_size)
  rc_hash_finalize env md5

/-- Index of the last backslash in an in-disc path (`strrchr(path, '\\')`). -/
def lastBackslash (path : Bytes) : Option Nat :=
  (path.reverse.findIdx? (fun c => c == 92)).map (fun i => path.length - 1 - i)

/-- The directory-record scan of `rc_cd_find_file_sector`: starting from
record offset `p`, stop on a zero record-length byte or past the 2048-byte
sector, match when the byte after the name's length is ';' or NUL and the
name compares case-insensitively; the fuel (2048 at top level) dominates
the loop bound, as each record advances the offset by at least one. -/
def findInDir (name : Bytes) (dir : Bytes) : Nat → Nat → Option Nat
  | 0, _ => none
  | fuel + 1, p =>
    if p ≥ 2048 then none
    else
      let reclen := dir.getD p 0
      if reclen = 0 then none
      else if (dir.getD (p + 33 + name.length) 0 = 59 ∨ dir.getD (p + 33 + name.length) 0 = 0)
              ∧ strncaseEqB (dir.drop (p + 33)) name then
        some p
      else findInDir name dir fuel (p + reclen)

/-- `rc_cd_find_file_sector`: resolve a parent directory recursively at the
last backslash (the fuel bounds the recursion depth; the recipes use at
most two segments), at the leaf read the PVD at sector 16 and take the
root-directory LBA from offset 156+2, translate, read one 2048-byte
directory sector and scan it.  Returns the matched record's extent sector
(0 on a miss) and, when `wantSize` (a non-NULL size out-pointer), the
extent length written on a match. -/
def rc_cd_find_file_sector (env : HashEnv) (track : Nat) :
    Nat → Bytes → Bool → (Nat × Option Nat) × Eff
  | 0, _, _ => ((0, none), Eff.one)
  | fuel + 1, path, wantSize =>
    if track = 0 then ((0, none), Eff.one)
    else
      match lastBackslash path with
      | some idx =>
        let ((psec, _), e1) := rc_cd_find_file_sector env track fuel (path.take idx) false
        if psec = 0 then ((0, none), e1)
        else
          let name := path.drop (idx + 1)
          let buffer0 := updBuf (List.replicate 2048 0) (path.take idx ++ [0])
          let (tsec, e2) := rc_cd_absolute_sector_to_track_sector env track psec
          let (dirBytes, e3) := rc_cd_read_sector env track tsec 2048
          let e := (e1.seq e2).seq e3
          if dirBytes.length = 0 then ((0, none), e)
          else
            let bufferD := updBuf buffer0 dirBytes
            match findInDir name bufferD 2048 0 with
            | some p =>
              ((le24 bufferD (p + 2),
                if wantSize then some (le32 bufferD (p + 10)) else none), e)
            | none => ((0, none), e)
      | none =>
        let (pvdBytes, e1) := rc_cd_read_sector env track 16 256
        if pvdBytes.length = 0 then ((0, none), e1)
        else
          let buffer0 := updBuf (List.replicate 2048 0) pvdBytes
          let sector0 := le24 buffer0 158
          let (tsec, e2) := rc_cd_absolute_sector_to_track_sector env track sector0
          let (dirBytes, e3) := rc_cd_read_sector env track tsec 2048
          let e := (e1.seq e2).seq e3
          if dirBytes.length = 0 then ((0, none), e)
          else
            let bufferD := updBuf buffer0 dirBytes
            match findInDir path bufferD 2048 0 with
            | some p =>
              ((le24 bufferD (p + 2),
                if wantSize then some (le32 bufferD (p + 10)) else none), e)
            | none => ((0, none), e)

/-- The do/while loop of `rc_hash_cd_file`: append the chunk just read,
decrement the 32-bit `size` (with unsigned wraparound, as in C), stop at
zero or when a read returns no bytes. -/
def rc_hash_cd_file_loop (env : HashEnv) (track : Nat) :
    Nat → Bytes → Nat → Nat → Bytes → Option Bytes × Eff
  | 0, _, _, _, _ => (none, Eff.one)
  | fuel + 1, md5, sector, size, chunk =>
    let md5 := md5_append md5 chunk
    let size := (size + 4294967296 - chunk.length) % 4294967296
    if size = 0 then (some md5, Eff.one)
    else
      let sector := sector + 1
      let (num_read, e1) :=
        if size ≥ 2048 then rc_cd_read_sector env track sector 2048
        else rc_cd_read_sector env track sector size
      if num_read.length > 0 then
        let (r, e2) := rc_hash_cd_file_loop env track fuel md5 sector size num_read
        (r, e1.seq e2)
      else (some md5, e1)

/-- `rc_hash_cd_file`: fail (without touching the digest) when the first
sector read is short, else cap `size` at 64 MiB and stream sectors into
the digest.  Returns the C result together with the updated digest. -/
def rc_hash_cd_file (env : HashEnv) (md5 : Bytes) (track sector : Nat)
    (_name : Option String) (size : Nat) (description : String) :
    Option (Nat × Bytes) × Eff :=
  let (num_read, e1) := rc_cd_read_sector env track sector 2048
  if num_read.length < 2048 then
    let (r, e2) := rc_hash_error ("Could not read " ++ description)
    (some (r, md5), e1.seq e2)
  else
    let size := if size > MAX_BUFFER_SIZE then MAX_BUFFER_SIZE else size
    let (res, e2) := rc_hash_cd_file_loop env track (size + 2) md5 sector size num_read
    match res with
    | none => (none, e1.seq e2)
    | some md5 => (some (1, md5), e1.seq e2)

/-- Modelled from the spec: console identifiers are an externally defined
enumeration (`rc_consoles.h`, not part of this repository); the core only
matches against them, so distinct numerals suffice. -/
def RC_CONSOLE_MEGA_DRIVE : Nat := 1
def RC_CONSOLE_NINTENDO_64 : Nat := 2
def RC_CONSOLE_SUPER_NINTENDO : Nat := 3
def RC_CONSOLE_GAMEBOY : Nat := 4
def RC_CONSOLE_GAMEBOY_ADVANCE : Nat := 5
def RC_CONSOLE_GAMEBOY_COLOR : Nat := 6
def RC_CONSOLE_NINTENDO : Nat := 7
def RC_CONSOLE_PC_ENGINE : Nat := 8
def RC_CONSOLE_SEGA_CD : Nat := 9
def RC_CONSOLE_SEGA_32X : Nat := 10
def RC_CONSOLE_MASTER_SYSTEM : Nat := 11
def RC_CONSOLE_PLAYSTATION : Nat := 12
def RC_CONSOLE_ATARI_LYNX : Nat := 13
def RC_CONSOLE_NEOGEO_POCKET : Nat := 14
def RC_CONSOLE_GAME_GEAR : Nat := 15
def RC_CONSOLE_ATARI_JAGUAR : Nat := 17
def RC_CONSOLE_NINTENDO_DS : Nat := 18
def RC_CONSOLE_WONDERSWAN : Nat := 19
def RC_CONSOLE_COLECOVISION : Nat := 20
def RC_CONSOLE_INTELLIVISION : Nat := 21
def RC_CONSOLE_VECTREX : Nat := 22
def RC_CONSOLE_PC8800 : Nat := 23
def RC_CONSOLE_ATARI_2600 : Nat := 25
def RC_CONSOLE_ARCADE : Nat := 27
def RC_CONSOLE_VIRTUAL_BOY : Nat := 28
def RC_CONSOLE_MSX : Nat := 29
def RC_CONSOLE_APPLE_II : Nat := 38
def RC_CONSOLE_SATURN : Nat := 39
def RC_CONSOLE_DREAMCAST : Nat := 40
def RC_CONSOLE_PLAYSTATION_2 : Nat := 41
def RC_CONSOLE_ORIC : Nat := 32
def RC_CONSOLE_SG1000 : Nat := 33
def RC_CONSOLE_ATARI_7800 : Nat := 51
def RC_CONSOLE_POKEMON_MINI : Nat := 24
def RC_CONSOLE_PCFX : Nat := 49
def RC_CONSOLE_MAGNAVOX_ODYSSEY2 : Nat := 31
def RC_CONSOLE_3DO : Nat := 43
def RC_CONSOLE_SUPERVISION : Nat := 63
def RC_CONSOLE_SHARPX1 : Nat := 64
def RC_CONSOLE_TIC80 : Nat := 65
def RC_CONSOLE_THOMSONTO8 : Nat := 66

/-- `rc_hash_7800`: drop the 128-byte header when bytes 1..9 read
"ATARI7800" (for buffers shorter than the header the C size arithmetic is
undefined; the list `drop` is total). -/
def rc_hash_7800 (env : HashEnv) (buffer : Bytes) : Nat × Eff :=
  if (buffer.drop 1).take 9 = strB "ATARI7800" then
    rc_hash_buffer env (buffer.drop 128)
  else rc_hash_buffer env buffer

/-- `rc_hash_lynx`: drop the 64-byte header on the "LYNX\0" signature. -/
def rc_hash_lynx (env : HashEnv) (buffer : Bytes) : Nat × Eff :=
  if buffer.getD 0 0 = 76 ∧ buffer.getD 1 0 = 89 ∧ buffer.getD 2 0 = 78 ∧
     buffer.getD 3 0 = 88 ∧ buffer.getD 4 0 = 0 then
    rc_hash_buffer env (buffer.drop 64)
  else rc_hash_buffer env buffer

/-- `rc_hash_nes`: drop the 16-byte header on "NES\x1A" or "FDS\x1A". -/
def rc_hash_nes (env : HashEnv) (buffer : Bytes) : Nat × Eff :=
  if buffer.getD 0 0 = 78 ∧ buffer.getD 1 0 = 69 ∧ buffer.getD 2 0 = 83 ∧
     buffer.getD 3 0 = 26 then
    rc_hash_buffer env (buffer.drop 16)
  else if buffer.getD 0 0 = 70 ∧ buffer.getD 1 0 = 68 ∧ buffer.getD 2 0 = 83 ∧
     buffer.getD 3 0 = 26 then
    rc_hash_buffer env (buffer.drop 16)
  else rc_hash_buffer env buffer

/-- `rc_hash_pce` (buffer variant): drop 512 bytes when the size is 512
beyond a multiple of 128 KiB (`calc_size` is computed on the size
truncated to uint32, as in C). -/
def rc_hash_pce (env : HashEnv) (buffer : Bytes) : Nat × Eff :=
  let calc_size := buffer.length % 4294967296 / 131072 * 131072
  if buffer.length - calc_size = 512 then
    rc_hash_buffer env (buffer.drop 512)
  else rc_hash_buffer env buffer

/-- `rc_hash_snes`: drop 512 bytes when the size is 512 beyond a multiple
of 8 KiB (`calc_size` is computed on the size truncated to uint32). -/
def rc_hash_snes (env : HashEnv) (buffer : Bytes) : Nat × Eff :=
  let calc_size := buffer.length % 4294967296 / 8192 * 8192
  if buffer.length - calc_size = 512 then
    rc_hash_buffer env (buffer.drop 512)
  else rc_hash_buffer env buffer

/-- The console-id cases of `rc_hash_generate_from_buffer` that hash the
buffer unchanged. -/
def plainBufferConsoles : List Nat :=
  [RC_CONSOLE_APPLE_II, RC_CONSOLE_ATARI_2600, RC_CONSOLE_ATARI_JAGUAR,
   RC_CONSOLE_COLECOVISION, RC_CONSOLE_GAMEBOY, RC_CONSOLE_GAMEBOY_ADVANCE,
   RC_CONSOLE_GAMEBOY_COLOR, RC_CONSOLE_GAME_GEAR, RC_CONSOLE_INTELLIVISION,
   RC_CONSOLE_MAGNAVOX_ODYSSEY2, RC_CONSOLE_MASTER_SYSTEM, RC_CONSOLE_MEGA_DRIVE,
   RC_CONSOLE_MSX, RC_CONSOLE_NEOGEO_POCKET, RC_CONSOLE_NINTENDO_64,
   RC_CONSOLE_ORIC, RC_CONSOLE_PC8800, RC_CONSOLE_POKEMON_MINI,
   RC_CONSOLE_SEGA_32X, RC_CONSOLE_SG1000, RC_CONSOLE_SUPERVISION,
   RC_CONSOLE_TIC80, RC_CONSOLE_VECTREX, RC_CONSOLE_VIRTUAL_BOY,
   RC_CONSOLE_WONDERSWAN]

/-- `rc_hash_generate_from_buffer`. -/
def rc_hash_generate_from_buffer (env : HashEnv) (console_id : Nat) (buffer : Bytes) : Nat × Eff :=
  if plainBufferConsoles.contains console_id then rc_hash_buffer env buffer
  else if console_id = RC_CONSOLE_ATARI_7800 then rc_hash_7800 env buffer
  else if console_id = RC_CONSOLE_ATARI_LYNX then rc_hash_lynx env buffer
  else if console_id = RC_CONSOLE_NINTENDO then rc_hash_nes env buffer
  else if console_id = RC_CONSOLE_PC_ENGINE then rc_hash_pce env buffer
  else if console_id = RC_CONSOLE_SUPER_NINTENDO then rc_hash_snes env buffer
  else rc_hash_error ("Unsupported console for buffer hash: " ++ toString console_id)

/-- `rc_hash_sega_cd`: open track 1, read 512 bytes of sector 0, close,
require the Sega CD or Saturn signature, hash exactly those 512 bytes. -/
def rc_hash_sega_cd (env : HashEnv) (path : String) : Option Nat × Eff :=
  let (track, e) := rc_cd_open_track env path 1
  if track = 0 then
    let (r, e2) := rc_hash_error "Could not open track"
    (some r, e.seq e2)
  else
    let (b, e2) := rc_cd_read_sector env track 0 512
    let buffer := updBuf (List.replicate 512 0) b
    let e := (e.seq e2).seq (rc_cd_close_track env track)
    if buffer.take 16 ≠ strB "SEGADISCSYSTEM  " ∧ buffer.take 16 ≠ strB "SEGA SEGASATURN " then
      let (r, e3) := rc_hash_error "Not a Sega CD"
      (some r, e.seq e3)
    else
      let (r, e3) := rc_hash_buffer env buffer
      (some r, e.seq e3)

/-- The `while (num_sectors > 0)` loop shared by the PC-Engine and PC-FX
recipes: read a sector into the 2048-byte working buffer and append the
whole buffer (as C does, regardless of how many bytes the read returned). -/
def rc_hash_pce_sectors (env : HashEnv) (track : Nat) :
    Nat → Nat → Bytes → Bytes → (Bytes × Bytes) × Eff
  | 0, _, buf, md5 => ((md5, buf), Eff.one)
  | num_sectors + 1, sector, buf, md5 =>
    let (b, e1) := rc_cd_read_sector env track sector 2048
    let buf := updBuf buf b
    let md5 := md5_append md5 (buf.take 2048)
    let (r, e2) := rc_hash_pce_sectors env track num_sectors (sector + 1) buf md5
    (r, e1.seq e2)

/-- The BOOT.BIN streaming loop of `rc_hash_pce_track` (`while (size >
sizeof(buffer))`, then a final partial read); fuelled by `size`. -/
def rc_hash_pce_bootbin (env : HashEnv) (track : Nat) :
    Nat → Nat → Nat → Bytes → Bytes → Option (Bytes × Bytes) × Eff
  | 0, _, _, _, _ => (none, Eff.one)
  | fuel + 1, sector, size, buf, md5 =>
    if size > 2048 then
      let (b, e1) := rc_cd_read_sector env track sector 2048
      let buf := updBuf buf b
      let md5 := md5_append md5 (buf.take 2048)
      let (r, e2) := rc_hash_pce_bootbin env track fuel (sector + 1) (size - 2048) buf md5
      (r, e1.seq e2)
    else if size > 0 then
      let (b, e1) := rc_cd_read_sector env track sector size
      let buf := updBuf buf b
      let md5 := md5_append md5 (buf.take size)
      (some (md5, buf), e1)
    else (some (md5, buf), Eff.one)

/-- `rc_hash_pce_track`: on the "PC Engine CD-ROM SYSTEM" header block,
hash the 22-byte title then `buffer[3]` sectors from the 24-bit BE sector
in `buffer[0..2]`; otherwise locate BOOT.BIN via the ISO locator and hash
exactly its extent; else fail. -/
def rc_hash_pce_track (env : HashEnv) (track : Nat) : Option Nat × Eff :=
  let (b, e) := rc_cd_read_sector env track 1 128
  if b.length < 128 then
    let (r, e2) := rc_hash_error "Not a PC Engine CD"
    (some r, e.seq e2)
  else
    let buffer := updBuf (List.replicate 2048 0) b
    if (buffer.drop 32).take 23 = strB "PC Engine CD-ROM SYSTEM" then
      let md5 := md5_append md5_init ((buffer.drop 106).take 22)
      let sector := 65536 * buffer.getD 0 0 + 256 * buffer.getD 1 0 + buffer.getD 2 0
      let num_sectors := buffer.getD 3 0
      let ((md5, _), e2) := rc_hash_pce_sectors env track num_sectors sector buffer md5
      let (r, e3) := rc_hash_finalize env md5
      (some r, (e.seq e2).seq e3)
    else
      let ((sector, szOpt), e2) := rc_cd_find_file_sector env track 16 (strB "BOOT.BIN") true
      let size := szOpt.getD 0
      let e := e.seq e2
      if sector ≠ 0 ∧ size < MAX_BUFFER_SIZE then
        let (res, e3) := rc_hash_pce_bootbin env track (size + 2) sector size buffer md5_init
        match res with
        | none => (none, e.seq e3)
        | some (md5, _) =>
          let (r, e4) := rc_hash_finalize env md5
          (some r, (e.seq e3).seq e4)
      else
        let (r, e3) := rc_hash_error "Not a PC Engine CD"
        (some r, e.seq e3)

/-- `rc_hash_pce_cd`: open the FIRST_DATA track, run the track recipe,
close. -/
def rc_hash_pce_cd (env : HashEnv) (path : String) : Option Nat × Eff :=
  let (track, e) := rc_cd_open_track env path RC_HASH_CDTRACK_FIRST_DATA
  if track = 0 then
    let (r, e2) := rc_hash_error "Could not open track"
    (some r, e.seq e2)
  else
    let (result, e2) := rc_hash_pce_track env track
    let e := (e.seq e2).seq (rc_cd_close_track env track)
    (result, e)

/-- The PC-FX program-sector loop (same shape as the PC-Engine one). -/
def rc_hash_pcfx_sectors (env : HashEnv) (track : Nat) :
    Nat → Nat → Bytes → Bytes → (Bytes × Bytes) × Eff
  | 0, _, buf, md5 => ((md5, buf), Eff.one)
  | num_sectors + 1, sector, buf, md5 =>
    let (b, e1) := rc_cd_read_sector env track sector 2048
    let buf := updBuf buf b
    let md5 := md5_append md5 (buf.take 2048)
    let (r, e2) := rc_hash_pcfx_sectors env track num_sectors (sector + 1) buf md5
    (r, e1.seq e2)

/-- The body of `rc_hash_pcfx_cd` after the track to inspect has been
chosen: on the header marker hash 128 bytes of sector 1 then the program
sectors; on a PC-Engine header fall back to the PCE track recipe; else
fail.  `e` carries the effects accumulated so far. -/
def rc_hash_pcfx_body (env : HashEnv) (track : Nat) (buffer : Bytes) (e : Eff) :
    Option Nat × Eff :=
  if buffer.take 15 = strB "PC-FX:Hu_CD-ROM" then
    let (b, e1) := rc_cd_read_sector env track 1 128
    let buffer := updBuf buffer b
    let md5 := md5_append md5_init (buffer.take 128)
    let sector := 65536 * buffer.getD 34 0 + 256 * buffer.getD 33 0 + buffer.getD 32 0
    let num_sectors := 65536 * buffer.getD 38 0 + 256 * buffer.getD 37 0 + buffer.getD 36 0
    let ((md5, _), e2) := rc_hash_pcfx_sectors env track num_sectors sector buffer md5
    let e := ((e.seq e1).seq e2).seq (rc_cd_close_track env track)
    let (r, e3) := rc_hash_finalize env md5
    (some r, e.seq e3)
  else
    let (b, e1) := rc_cd_read_sector env track 1 128
    let buffer := updBuf buffer b
    if (buffer.drop 32).take 23 = strB "PC Engine CD-ROM SYSTEM" then
      let (result, e2) := rc_hash_pce_track env track
      let e := ((e.seq e1).seq e2).seq (rc_cd_close_track env track)
      match result with
      | none => (none, e)
      | some r =>
        if r ≠ 0 then (some r, e)
        else
          let (r2, e3) := rc_hash_error "Not a PC-FX CD"
          (some r2, e.seq e3)
    else
      let e := (e.seq e1).seq (rc_cd_close_track env track)
      let (r2, e3) := rc_hash_error "Not a PC-FX CD"
      (some r2, e.seq e3)

/-- `rc_hash_pcfx_cd`: open the LARGEST data track; when the marker is
absent in its sector 0, close it and retry on track 2. -/
def rc_hash_pcfx_cd (env : HashEnv) (path : String) : Option Nat × Eff :=
  let (track1, e) := rc_cd_open_track env path RC_HASH_CDTRACK_LARGEST
  if track1 = 0 then
    let (r, e2) := rc_hash_error "Could not open track"
    (some r, e.seq e2)
  else
    let (b1, e2) := rc_cd_read_sector env track1 0 32
    let buffer1 := updBuf (List.replicate 2048 0) b1
    if buffer1.take 15 ≠ strB "PC-FX:Hu_CD-ROM" then
      let e := (e.seq e2).seq (rc_cd_close_track env track1)
      let (track2, e3) := rc_cd_open_track env path 2
      if track2 = 0 then
        let (r, e4) := rc_hash_error "Could not open track"
        (some r, (e.seq e3).seq e4)
      else
        let (b2, e4) := rc_cd_read_sector env track2 0 32
        let buffer2 := updBuf buffer1 b2
        rc_hash_pcfx_body env track2 buffer2 ((e.seq e3).seq e4)
    else
      rc_hash_pcfx_body env track1 buffer1 (e.seq e2)

/-- The Opera filesystem identifier required at offset 0 of sector 0. -/
def operafs_identifier : Bytes := [1, 90, 90, 90, 90, 90, 1]

/-- The inner entry scan of the 3DO directory walk (`while (offset <
stop)`); on a "LaunchMe" file entry returns its block size, real block
location (already multiplied) and size.  Each step advances the offset by
at least 0x48, so fuel `stop + 1` never runs out before `offset ≥ stop`. -/
def rc_hash_3do_scan (buffer : Bytes) : Nat → Nat → Nat → Option (Nat × Nat × Nat)
  | 0, _, _ => none
  | fuel + 1, offset, stop =>
    if offset < stop then
      if buffer.getD (offset + 0x03) 0 = 2 ∧
         caseEqB ((buffer.drop (offset + 0x20)).takeWhile (fun c => c != 0)) (strB "LaunchMe") then
        let bs := 65536 * buffer.getD (offset + 0x0D) 0 + 256 * buffer.getD (offset + 0x0E) 0 +
          buffer.getD (offset + 0x0F) 0
        let blraw := 65536 * buffer.getD (offset + 0x45) 0 + 256 * buffer.getD (offset + 0x46) 0 +
          buffer.getD (offset + 0x47) 0
        let sz := 65536 * buffer.getD (offset + 0x11) 0 + 256 * buffer.getD (offset + 0x12) 0 +
          buffer.getD (offset + 0x13) 0
        some (bs, blraw * bs, sz)
      else
        rc_hash_3do_scan buffer fuel (offset + 0x48 + buffer.getD (offset + 0x43) 0 * 4) stop
    else none

/-- Fuel for the 3DO directory-block chain, whose termination depends
entirely on hook data (the C loop can cycle); 65536 blocks dominates any
real Opera root directory. -/
def threeDOWalkFuel : Nat := 65536

/-- The outer directory-block loop of `rc_hash_3do`: scan each block for
the "LaunchMe" entry; a found entry with nonzero size ends the walk; a
found entry with zero size, or no entry, continues through the 16-bit BE
next-block field at offset 2 (0xFFFF terminates with size 0), with the
current `block_size`/`block_location` replaced by the entry's when one was
found, exactly as the C locals are overwritten. -/
def rc_hash_3do_walk (env : HashEnv) (track : Nat) :
    Nat → Nat → Nat → Nat → Bytes → Option ((Nat × Nat) × Bytes) × Eff
  | 0, _, _, _, _ => (none, Eff.one)
  | fuel + 1, block_size, block_location, sector, buf =>
    let (b, e1) := rc_cd_read_sector env track sector 2048
    let buf := updBuf buf b
    let offset0 := 256 * buf.getD 0x12 0 + buf.getD 0x13 0
    let stop := 65536 * buf.getD 0x0D 0 + 256 * buf.getD 0x0E 0 + buf.getD 0x0F 0
    match rc_hash_3do_scan buf (stop + 1) offset0 stop with
    | some (bs, bl, sz) =>
      if sz ≠ 0 then (some ((bl, sz), buf), e1)
      else
        let offset := 256 * buf.getD 0x02 0 + buf.getD 0x03 0
        if offset = 0xFFFF then (some ((bl, 0), buf), e1)
        else
          let offset := offset * bs
          let sector := (bl + offset) / 2048
          let (r, e2) := rc_hash_3do_walk env track fuel bs bl sector buf
          (r, e1.seq e2)
    | none =>
      let offset := 256 * buf.getD 0x02 0 + buf.getD 0x03 0
      if offset = 0xFFFF then (some ((block_location, 0), buf), e1)
      else
        let offset := offset * block_size
        let sector := (block_location + offset) / 2048
        let (r, e2) := rc_hash_3do_walk env track fuel block_size block_location sector buf
        (r, e1.seq e2)

/-- The 3DO content-hashing loop (`while (size > 2048)` plus the final
partial sector); fuelled by `size`. -/
def rc_hash_3do_content (env : HashEnv) (track : Nat) :
    Nat → Nat → Nat → Bytes → Bytes → (Option Bytes × Bytes) × Eff
  | 0, _, _, buf, _ => ((none, buf), Eff.one)
  | fuel + 1, sector, size, buf, md5 =>
    if size > 2048 then
      let (b, e1) := rc_cd_read_sector env track sector 2048
      let buf := updBuf buf b
      let md5 := md5_append md5 (buf.take 2048)
      let (r, e2) := rc_hash_3do_content env track fuel (sector + 1) (size - 2048) buf md5
      (r, e1.seq e2)
    else
      let (b, e1) := rc_cd_read_sector env track sector size
      let buf := updBuf buf b
      let md5 := md5_append md5 (buf.take size)
      ((some md5, buf), e1)

/-- `rc_hash_3do`: open track 1, require the Opera identifier in the first
132 bytes of sector 0, hash those 132 bytes, walk the root directory for
"LaunchMe" and hash exactly its size. -/
def rc_hash_3do_after_walk (env : HashEnv) (track : Nat) (md5 : Bytes) (e : Eff)
    (wres : Option ((Nat × Nat) × Bytes)) : Option Nat × Eff :=
  match wres with
  | none => (none, e)
  | some ((bl, size), buf) =>
    if size = 0 then
      let e := e.seq (rc_cd_close_track env track)
      let (r, e4) := rc_hash_error "Could not find LaunchMe"
      (some r, e.seq e4)
    else
      let sector := bl / 2048
      let ((cres, _), e4) := rc_hash_3do_content env track (size + 2) sector size buf md5
      let e := e.seq e4
      match cres with
      | none => (none, e)
      | some md5 =>
        let e := e.seq (rc_cd_close_track env track)
        let (r, e5) := rc_hash_finalize env md5
        (some r, e.seq e5)

def rc_hash_3do_do_walk (env : HashEnv) (track block_size block_location sector : Nat)
    (buffer md5 : Bytes) (e : Eff) : Option Nat × Eff :=
  let (wres, e3) := rc_hash_3do_walk env track threeDOWalkFuel block_size block_location
    sector buffer
  rc_hash_3do_after_walk env track md5 (e.seq e3) wres

def rc_hash_3do (env : HashEnv) (path : String) : Option Nat × Eff :=
  let (track, e) := rc_cd_open_track env path 1
  if track = 0 then
    let (r, e2) := rc_hash_error "Could not open track"
    (some r, e.seq e2)
  else
    let (b, e2) := rc_cd_read_sector env track 0 132
    let buffer := updBuf (List.replicate 2048 0) b
    let e := e.seq e2
    if buffer.take 7 = operafs_identifier then
      let md5 := md5_append md5_init (buffer.take 132)
      let block_size := 65536 * buffer.getD 0x4D 0 + 256 * buffer.getD 0x4E 0 + buffer.getD 0x4F 0
      let block_location0 := 65536 * buffer.getD 0x65 0 + 256 * buffer.getD 0x66 0 +
        buffer.getD 0x67 0
      let block_location := block_location0 * block_size
      let sector := block_location / 2048
      rc_hash_3do_do_walk env track block_size block_location sector buffer md5 e
    else
      let e := e.seq (rc_cd_close_track env track)
      let (r, e3) := rc_hash_error "Not a 3DO CD"
      (some r, e.seq e3)

/-- `rc_hash_dreamcast`: open track 3, require "SEGA SEGAKATANA " in the
first 256 bytes of sector 0 and hash them, extract the boot filename at
offset 96 (up to the first whitespace, at most 16 bytes), locate it via
the ISO locator, then hash its contents out of the LAST track — retrying
on track 3 when the translated sector reinterprets as a negative int32 —
and finalize (note: the finalize runs even when `rc_hash_cd_file`
failed). -/
def rc_hash_dreamcast (env : HashEnv) (path : String) : Option Nat × Eff :=
  let (track, e) := rc_cd_open_track env path 3
  if track = 0 then
    let (r, e2) := rc_hash_error "Could not open track"
    (some r, e.seq e2)
  else
    let (b, e2) := rc_cd_read_sector env track 0 256
    let buffer := updBuf (List.replicate 256 0) b
    let e := e.seq e2
    if buffer.take 16 ≠ strB "SEGA SEGAKATANA " then
      let e := e.seq (rc_cd_close_track env track)
      let (r, e3) := rc_hash_error "Not a Dreamcast CD"
      (some r, e.seq e3)
    else
      let md5 := md5_append md5_init (buffer.take 256)
      let i := (((buffer.drop 96).take 16).takeWhile (fun c => !(isSpaceB c))).length
      if i = 0 then
        let e := e.seq (rc_cd_close_track env track)
        let (r, e3) := rc_hash_error "Boot executable not specified on IP.BIN"
        (some r, e.seq e3)
      else
        let exe_file := (buffer.drop 96).take i
        let ((sector, szOpt), e3) := rc_cd_find_file_sector env track 16 exe_file true
        let size := szOpt.getD 0
        let e := (e.seq e3).seq (rc_cd_close_track env track)
        if sector = 0 then
          let (r, e4) := rc_hash_error "Could not locate boot executable"
          (some r, e.seq e4)
        else
          let (last1, e4) := rc_cd_open_track env path RC_HASH_CDTRACK_LAST
          let (ts1, e5) := rc_cd_absolute_sector_to_track_sector env last1 sector
          let e := (e.seq e4).seq e5
          if ts1 ≥ 2147483648 then
            let e := e.seq (rc_cd_close_track env last1)
            let (last2, e6) := rc_cd_open_track env path 3
            let (ts2, e7) := rc_cd_absolute_sector_to_track_sector env last2 sector
            let (cres, e8) := rc_hash_cd_file env md5 last2 ts2 none size "boot executable"
            let e := ((e.seq e6).seq e7).seq e8
            match cres with
            | none => (none, e)
            | some (result, md5) =>
              let e := e.seq (rc_cd_close_track env last2)
              let (_, e9) := rc_hash_finalize env md5
              (some result, e.seq e9)
          else
            let (cres, e6) := rc_hash_cd_file env md5 last1 ts1 none size "boot executable"
            let e := e.seq e6
            match cres with
            | none => (none, e)
            | some (result, md5) =>
              let e := e.seq (rc_cd_close_track env last1)
              let (_, e7) := rc_hash_finalize env md5
              (some result, e.seq e7)

/-- The SYSTEM.CNF line scan of `rc_hash_find_playstation_executable`:
find a line starting with the boot key, skip whitespace around '=', strip
the optional cdrom prefix and leading backslash, and return the
executable name up to the first whitespace or ';'.  The C for-loop stops
at the NUL terminator (the end of the list, or an embedded 0 byte); each
step consumes at least one byte, so fuel 2049 covers the 2047-byte
buffer. -/
def psxScanBoot (bootKey cdromPref : Bytes) : Nat → Bytes → Option Bytes
  | 0, _ => none
  | fuel + 1, ptr =>
    match ptr with
    | [] => none
    | c :: _ =>
      if c = 0 then none
      else if bootKey.isPrefixOf ptr then
        let p2 := (ptr.drop bootKey.length).dropWhile (fun c2 => isSpaceB c2)
        if p2.headD 0 = 61 then
          let p3 := (p2.drop 1).dropWhile (fun c2 => isSpaceB c2)
          let p4 := if cdromPref.isPrefixOf p3 then p3.drop cdromPref.length else p3
          let p5 := if p4.headD 0 = 92 then p4.drop 1 else p4
          some (p5.takeWhile (fun c2 => !(isSpaceB c2) && c2 != 59))
        else
          let rest := p2.dropWhile (fun c2 => c2 != 0 && c2 != 10)
          match rest with
          | [] => none
          | c2 :: tl => if c2 = 0 then none else psxScanBoot bootKey cdromPref fuel tl
      else
        let rest := ptr.dropWhile (fun c2 => c2 != 0 && c2 != 10)
        match rest with
        | [] => none
        | c2 :: tl => if c2 = 0 then none else psxScanBoot bootKey cdromPref fuel tl

/-- `rc_hash_find_playstation_executable`: locate SYSTEM.CNF, read up to
2047 bytes of its first sector, scan for the boot line and locate the
named executable.  Returns (sector, exe name, extent size if written).
When no boot line matches, the C function returns the SYSTEM.CNF sector
with the caller's name and size untouched, a quirk preserved here. -/
def rc_hash_find_playstation_executable (env : HashEnv) (track : Nat)
    (bootKey cdromPref : Bytes) (exe_name_size : Nat) :
    (Nat × Bytes × Option Nat) × Eff :=
  let ((cnfSector, _), e1) := rc_cd_find_file_sector env track 16 (strB "SYSTEM.CNF") false
  if cnfSector = 0 then ((0, [], none), e1)
  else
    let (content, e2) := rc_cd_read_sector env track cnfSector 2047
    match psxScanBoot bootKey cdromPref 2049 content with
    | some nameRaw =>
      let exe_name := nameRaw.take (exe_name_size - 1)
      let ((sector, szOpt), e3) := rc_cd_find_file_sector env track 16 exe_name true
      ((sector, exe_name, szOpt), (e1.seq e2).seq e3)
    | none => ((cnfSector, [], none), e1.seq e2)

/-- `rc_hash_psx`: open track 1, find the primary executable via the BOOT
line of SYSTEM.CNF (falling back to PSX.EXE), seed the digest with the
executable name, and hash the executable.  The C compares only the first
7 bytes of the "PS-X EXE" marker (`memcmp(buffer, "PS-X EXE", 7)`); when
they match, the hashed size is the little-endian 32-bit value at offset
28 of the first sector plus 2048, else the ISO-reported extent size.
The finalize runs even when `rc_hash_cd_file` failed. -/
def rc_hash_psx (env : HashEnv) (path : String) : Option Nat × Eff :=
  let (track, e) := rc_cd_open_track env path 1
  if track = 0 then
    let (r, e2) := rc_hash_error "Could not open track"
    (some r, e.seq e2)
  else
    let ((sector0, exeName0, szOpt0), e2) :=
      rc_hash_find_playstation_executable env track (strB "BOOT") (strB "cdrom:") 64
    let e := e.seq e2
    let (sector, exe_name, szOpt, e) :=
      if sector0 = 0 then
        let ((s2, sz2), e3) := rc_cd_find_file_sector env track 16 (strB "PSX.EXE") true
        ((s2, if s2 ≠ 0 then strB "PSX.EXE" else exeName0,
          if sz2.isSome then sz2 else szOpt0, e.seq e3) : Nat × Bytes × Option Nat × Eff)
      else (sector0, exeName0, szOpt0, e)
    if sector = 0 then
      let (_, e3) := rc_hash_error "Could not locate primary executable"
      let e := (e.seq e3).seq (rc_cd_close_track env track)
      (some 0, e)
    else
      let (b, e3) := rc_cd_read_sector env track sector 32
      let e := e.seq e3
      if b.length < 32 then
        let (_, e4) := rc_hash_error "Could not read primary executable"
        let e := (e.seq e4).seq (rc_cd_close_track env track)
        (some 0, e)
      else
        let buffer := updBuf (List.replicate 32 0) b
        let size :=
          if buffer.take 7 = strB "PS-X EX" then (le32 buffer 28 + 2048) % 4294967296
          else szOpt.getD 0
        let md5 := md5_append md5_init exe_name
        let (cres, e4) := rc_hash_cd_file env md5 track sector none size "primary executable"
        let e := e.seq e4
        match cres with
        | none => (none, e)
        | some (result, md5) =>
          let (_, e5) := rc_hash_finalize env md5
          let e := (e.seq e5).seq (rc_cd_close_track env track)
          (some result, e)

/-- `rc_hash_ps2`: as PSX but with the BOOT2 key, the cdrom0: prefix and a
4-byte ELF probe that never adjusts the hashed size. -/
def rc_hash_ps2 (env : HashEnv) (path : String) : Option Nat × Eff :=
  let (track, e) := rc_cd_open_track env path 1
  if track = 0 then
    let (r, e2) := rc_hash_error "Could not open track"
    (some r, e.seq e2)
  else
    let ((sector, exe_name, szOpt), e2) :=
      rc_hash_find_playstation_executable env track (strB "BOOT2") (strB "cdrom0:") 64
    let e := e.seq e2
    if sector = 0 then
      let (_, e3) := rc_hash_error "Could not locate primary executable"
      let e := (e.seq e3).seq (rc_cd_close_track env track)
      (some 0, e)
    else
      let (b, e3) := rc_cd_read_sector env track sector 4
      let e := e.seq e3
      if b.length < 4 then
        let (_, e4) := rc_hash_error "Could not read primary executable"
        let e := (e.seq e4).seq (rc_cd_close_track env track)
        (some 0, e)
      else
        let size := szOpt.getD 0
        let md5 := md5_append md5_init exe_name
        let (cres, e4) := rc_hash_cd_file env md5 track sector none size "primary executable"
        let e := e.seq e4
        match cres with
        | none => (none, e)
        | some (result, md5) =>
          let (_, e5) := rc_hash_finalize env md5
          let e := (e.seq e5).seq (rc_cd_close_track env track)
          (some result, e)

/-- The streaming loop of `rc_hash_whole_file`: read 64-KiB chunks into
the working buffer and append `buffer_size` (resp. the final `remaining`)
bytes of it; fuelled by `remaining` (one unit per 65536 bytes, so the fuel
never runs out when it starts at `remaining + 1`). -/
def rc_hash_whole_file_loop (fh : FileH) (workbuf md5 : Bytes) :
    Nat → Nat → Option (Bytes × FileH) × Unit
  | 0, _ => (none, ())
  | fuel + 1, remaining =>
    if remaining ≥ 65536 then
      let (b, fh) := rc_file_read fh 65536
      let workbuf := updBuf workbuf b
      let md5 := md5_append md5 (workbuf.take 65536)
      rc_hash_whole_file_loop fh workbuf md5 fuel (remaining - 65536)
    else if remaining > 0 then
      let (b, fh) := rc_file_read fh remaining
      let workbuf := updBuf workbuf b
      let md5 := md5_append md5 (workbuf.take remaining)
      (some (md5, fh), ())
    else (some (md5, fh), ())

/-- `rc_hash_whole_file`: open, measure with a seek to the end, stream
min(size, 64 MiB) bytes from the start into the digest, close (the 64-KiB
working-buffer allocation is assumed to succeed in the model). -/
def rc_hash_whole_file (env : HashEnv) (path : String) : Option Nat × Eff :=
  let (fhOpt, e) := rc_file_open env path
  match fhOpt with
  | none =>
    let (r, e2) := rc_hash_error "Could not open file"
    (some r, e.seq e2)
  | some fh =>
    let fh := rc_file_seek fh 0 .endOfFile
    let size := rc_file_tell fh
    let remaining := if size > MAX_BUFFER_SIZE then MAX_BUFFER_SIZE else size
    let fh := rc_file_seek fh 0 .set
    let (res, _) := rc_hash_whole_file_loop fh (List.replicate 65536 0) md5_init
      (remaining + 1) remaining
    match res with
    | none => (none, e.seq (rc_file_close fh))
    | some (md5, fh) =>
      let (r, e2) := rc_hash_finalize env md5
      let e := (e.seq e2).seq (rc_file_close fh)
      (some r, e)

/-- `rc_hash_buffered_file`: open, measure, read min(size, 64 MiB) bytes
into one allocation and dispatch to the buffer recipes, close. -/
def rc_hash_buffered_file (env : HashEnv) (console_id : Nat) (path : String) :
    Option Nat × Eff :=
  let (fhOpt, e) := rc_file_open env path
  match fhOpt with
  | none =>
    let (r, e2) := rc_hash_error "Could not open file"
    (some r, e.seq e2)
  | some fh =>
    let fh := rc_file_seek fh 0 .endOfFile
    let size := rc_file_tell fh
    let size := if size > MAX_BUFFER_SIZE then MAX_BUFFER_SIZE else size
    let fh := rc_file_seek fh 0 .set
    let (buffer, fh) := rc_file_read fh size
    let (r, e2) := rc_hash_generate_from_buffer env console_id buffer
    let e := (e.seq e2).seq (rc_file_close fh)
    (some r, e)

/-- The parent-folder names that `rc_hash_arcade` prepends. -/
def arcadeFolders : List String :=
  ["nes", "fds", "sms", "msx", "ngp", "pce", "sgx", "tg16", "coleco", "sg1000",
   "gamegear", "megadriv", "spectrum"]

/-- `rc_hash_arcade`: hash the filename without its extension; when the
immediate parent folder is one of the recognised subsystem names, prepend
"folder_".  (The C dispatches on the folder-name length before the
memcmp; membership in the fixed list is equivalent.) -/
def rc_hash_arcade (env : HashEnv) (path : String) : Nat × Eff :=
  let filename := rc_path_get_filename path
  let ext := rc_path_get_extension filename
  let filename_length := filename.data.length - ext.data.length - 1
  let fnameBytes := (strB filename).take filename_length
  let offset := path.data.length - filename.data.length
  if offset > 1 then
    let folder := rc_path_get_filename (String.mk (path.data.take (offset - 1)))
    if arcadeFolders.contains folder ∧
       folder.data.length + filename_length + 1 < 128 then
      rc_hash_buffer env (strB folder ++ [95] ++ fnameBytes)
    else
      rc_hash_buffer env fnameBytes
  else
    rc_hash_buffer env fnameBytes

/-- `rc_hash_nintendo_ds`: read the 512-byte header (skipping a SuperCard
header when present), extract the ARM9/ARM7 offsets and sizes and the
icon offset, require ARM9+ARM7 ≤ 16 MiB, then digest the first 0x160
header bytes, the ARM9 and ARM7 code, and exactly 0xA00 icon bytes
zero-padded at end of file.  The header-read-failure and size-sanity
failure paths return without closing the file handle, exactly as the C
does. -/
def rc_hash_nintendo_ds (env : HashEnv) (path : String) : Option Nat × Eff :=
  let (fhOpt, e) := rc_file_open env path
  match fhOpt with
  | none =>
    let (r, e2) := rc_hash_error "Could not open file"
    (some r, e.seq e2)
  | some fh =>
    let fh := rc_file_seek fh 0 .set
    let (h0, fh) := rc_file_read fh 512
    if h0.length ≠ 512 then
      let (r, e2) := rc_hash_error "Failed to read header"
      (some r, e.seq e2)
    else
      let (offset, header, fh) :=
        if h0.getD 0 0 = 0x2E ∧ h0.getD 1 0 = 0 ∧ h0.getD 2 0 = 0 ∧ h0.getD 3 0 = 0xEA ∧
           h0.getD 0xB0 0 = 0x44 ∧ h0.getD 0xB1 0 = 0x46 ∧ h0.getD 0xB2 0 = 0x96 ∧
           h0.getD 0xB3 0 = 0 then
          let fh := rc_file_seek fh 512 .set
          let (h1, fh) := rc_file_read fh 512
          ((512, updBuf h0 h1, fh) : Nat × Bytes × FileH)
        else (0, h0, fh)
      let arm9_addr := le32 header 0x20
      let arm9_size := le32 header 0x2C
      let arm7_addr := le32 header 0x30
      let arm7_size := le32 header 0x3C
      let icon_addr := le32 header 0x68
      if arm9_size + arm7_size > 16 * 1024 * 1024 then
        let (r, e2) := rc_hash_error ("arm9 code size (" ++ toString arm9_size ++
          ") + arm7 code size (" ++ toString arm7_size ++ ") exceeds 16MB")
        (some r, e.seq e2)
      else
        let hash_size := max 0xA00 (max arm9_size arm7_size)
        let md5 := md5_append md5_init (header.take 0x160)
        let buf0 := List.replicate hash_size 0
        let fh := rc_file_seek fh (arm9_addr + offset) .set
        let (b9, fh) := rc_file_read fh arm9_size
        let buf1 := updBuf buf0 b9
        let md5 := md5_append md5 (buf1.take arm9_size)
        let fh := rc_file_seek fh (arm7_addr + offset) .set
        let (b7, fh) := rc_file_read fh arm7_size
        let buf2 := updBuf buf1 b7
        let md5 := md5_append md5 (buf2.take arm7_size)
        let fh := rc_file_seek fh (icon_addr + offset) .set
        let (bi, fh) := rc_file_read fh 0xA00
        let buf3 :=
          if bi.length < 0xA00 then bi ++ List.replicate (0xA00 - bi.length) 0 ++ buf2.drop 0xA00
          else updBuf buf2 bi
        let md5 := md5_append md5 (buf3.take 0xA00)
        let e := e.seq (rc_file_close fh)
        let (r, e2) := rc_hash_finalize env md5
        (some r, e.seq e2)

/-- The comment/blank-skip loop of the playlist parser: while the current
position starts with '#', '\r' or '\n', advance past the next newline
(the content list is NUL-free; its end is the C NUL terminator). -/
def playlistSkip : Nat → Bytes → Bytes
  | 0, l => l
  | fuel + 1, l =>
    match l with
    | [] => []
    | c :: _ =>
      if c = 35 ∨ c = 13 ∨ c = 10 then
        let rest := l.dropWhile (fun c2 => c2 != 10)
        match rest with
        | [] => []
        | _ :: tl => playlistSkip fuel tl
      else l

/-- The line-extraction loop of `rc_hash_get_first_item_from_playlist`:
skip comments and blanks, take the line up to the newline, strip trailing
whitespace; an empty result continues after the newline, and the end of
the buffer yields none. -/
def playlistFirstLine : Nat → Bytes → Option Bytes
  | 0, _ => none
  | fuel + 1, l =>
    let l := playlistSkip (l.length + 1) l
    let line := l.takeWhile (fun c => c != 10)
    let next := l.drop line.length
    let token := (line.reverse.dropWhile (fun c => isSpaceB c)).reverse
    if token.length ≠ 0 then some token
    else
      match next with
      | [] => none
      | _ :: tl => playlistFirstLine fuel tl

/-- `rc_hash_get_first_item_from_playlist`: read up to 1023 bytes (the C
buffer is 1024 bytes with a NUL terminator appended; an embedded NUL also
ends the scan), extract the first non-blank non-comment line, and resolve
it against the playlist's directory unless it is absolute. -/
def rc_hash_get_first_item_from_playlist (env : HashEnv) (path : String) :
    Option String × Eff :=
  let (fhOpt, e) := rc_file_open env path
  match fhOpt with
  | none =>
    let (_, e2) := rc_hash_error "Could not open playlist"
    (none, e.seq e2)
  | some fh =>
    let (bytes, fh) := rc_file_read fh 1023
    let e := e.seq (rc_file_close fh)
    let content := bytes.takeWhile (fun c => c != 0)
    match playlistFirstLine (content.length + 1) content with
    | none => (none, e)
    | some token =>
      let tokenS := String.mk (token.map Char.ofNat)
      if rc_hash_path_is_absolute tokenS then (some tokenS, e)
      else
        let path_len := path.data.length - (rc_path_get_filename path).data.length
        (some (String.mk (path.data.take path_len) ++ tokenS), e)

/-- `rc_hash_generate_from_playlist` with the recursive call into the
dispatcher abstracted as `k` (so the dispatcher below can recurse on its
fuel structurally). -/
def rc_hash_generate_from_playlist_with (env : HashEnv)
    (k : String → Option Nat × Eff) (path : String) : Option Nat × Eff :=
  let (dp, e) := rc_hash_get_first_item_from_playlist env path
  match dp with
  | none =>
    let (r, e2) := rc_hash_error "Failed to get first item from playlist"
    (some r, e.seq e2)
  | some disc_path =>
    let (r, e2) := k disc_path
    (r, e.seq e2)

/-- The console-id cases of `rc_hash_generate_from_file` that stream the
whole file without buffering or playlist support. -/
def wholeFileConsoles : List Nat :=
  [RC_CONSOLE_APPLE_II, RC_CONSOLE_ATARI_2600, RC_CONSOLE_ATARI_JAGUAR,
   RC_CONSOLE_COLECOVISION, RC_CONSOLE_GAMEBOY, RC_CONSOLE_GAMEBOY_ADVANCE,
   RC_CONSOLE_GAMEBOY_COLOR, RC_CONSOLE_GAME_GEAR, RC_CONSOLE_INTELLIVISION,
   RC_CONSOLE_MAGNAVOX_ODYSSEY2, RC_CONSOLE_MASTER_SYSTEM, RC_CONSOLE_MEGA_DRIVE,
   RC_CONSOLE_NEOGEO_POCKET, RC_CONSOLE_NINTENDO_64, RC_CONSOLE_ORIC,
   RC_CONSOLE_POKEMON_MINI, RC_CONSOLE_SEGA_32X, RC_CONSOLE_SG1000,
   RC_CONSOLE_SUPERVISION, RC_CONSOLE_TIC80, RC_CONSOLE_VECTREX,
   RC_CONSOLE_VIRTUAL_BOY, RC_CONSOLE_WONDERSWAN]

/-- `rc_hash_generate_from_file`: the dispatcher switch; the fuel bounds
the playlist-recursion depth (an m3u chain can be cyclic in C). -/
def rc_hash_generate_from_file (env : HashEnv) : Nat → Nat → String → Option Nat × Eff
  | 0, _, _ => (none, Eff.one)
  | fuel + 1, console_id, path =>
    if wholeFileConsoles.contains console_id then
      rc_hash_whole_file env path
    else if console_id = RC_CONSOLE_MSX ∨ console_id = RC_CONSOLE_PC8800 then
      if rc_path_compare_extension path "m3u" then
        rc_hash_generate_from_playlist_with env
          (fun p => rc_hash_generate_from_file env fuel console_id p) path
      else rc_hash_whole_file env path
    else if console_id = RC_CONSOLE_ATARI_7800 ∨ console_id = RC_CONSOLE_ATARI_LYNX ∨
        console_id = RC_CONSOLE_NINTENDO ∨ console_id = RC_CONSOLE_SUPER_NINTENDO then
      rc_hash_buffered_file env console_id path
    else if console_id = RC_CONSOLE_3DO then
      if rc_path_compare_extension path "m3u" then
        rc_hash_generate_from_playlist_with env
          (fun p => rc_hash_generate_from_file env fuel console_id p) path
      else rc_hash_3do env path
    else if console_id = RC_CONSOLE_ARCADE then
      let (r, e) := rc_hash_arcade env path
      (some r, e)
    else if console_id = RC_CONSOLE_NINTENDO_DS then
      rc_hash_nintendo_ds env path
    else if console_id = RC_CONSOLE_PC_ENGINE then
      if rc_path_compare_extension path "cue" || rc_path_compare_extension path "chd" then
        rc_hash_pce_cd env path
      else if rc_path_compare_extension path "m3u" then
        rc_hash_generate_from_playlist_with env
          (fun p => rc_hash_generate_from_file env fuel console_id p) path
      else rc_hash_buffered_file env console_id path
    else if console_id = RC_CONSOLE_PCFX then
      if rc_path_compare_extension path "m3u" then
        rc_hash_generate_from_playlist_with env
          (fun p => rc_hash_generate_from_file env fuel console_id p) path
      else rc_hash_pcfx_cd env path
    else if console_id = RC_CONSOLE_PLAYSTATION then
      if rc_path_compare_extension path "m3u" then
        rc_hash_generate_from_playlist_with env
          (fun p => rc_hash_generate_from_file env fuel console_id p) path
      else rc_hash_psx env path
    else if console_id = RC_CONSOLE_PLAYSTATION_2 then
      if rc_path_compare_extension path "m3u" then
        rc_hash_generate_from_playlist_with env
          (fun p => rc_hash_generate_from_file env fuel console_id p) path
      else rc_hash_ps2 env path
    else if console_id = RC_CONSOLE_DREAMCAST then
      if rc_path_compare_extension path "m3u" then
        rc_hash_generate_from_playlist_with env
          (fun p => rc_hash_generate_from_file env fuel console_id p) path
      else rc_hash_dreamcast env path
    else if console_id = RC_CONSOLE_SEGA_CD ∨ console_id = RC_CONSOLE_SATURN then
      if rc_path_compare_extension path "m3u" then
        rc_hash_generate_from_playlist_with env
          (fun p => rc_hash_generate_from_file env fuel console_id p) path
      else rc_hash_sega_cd env path
    else
      let (r, e) := rc_hash_error ("Unsupported console for file hash: " ++ toString console_id)
      (some r, e)

/-- `rc_hash_generate_from_playlist`. -/
def rc_hash_generate_from_playlist (env : HashEnv) (fuel : Nat) (console_id : Nat)
    (path : String) : Option Nat × Eff :=
  rc_hash_generate_from_playlist_with env
    (fun p => rc_hash_generate_from_file env fuel console_id p) path

/-- The iterator state (`struct rc_hash_iterator`; the candidate array is
modelled as the list of entries before its 0 sentinel). -/
structure HashIterator where
  path : Option String
  buffer : Option Bytes
  consoles : List Nat
deriving DecidableEq, Repr

/-- `rc_hash_iterator_append_console`: append unless already present. -/
def rc_hash_iterator_append_console (cs : List Nat) (c : Nat) : List Nat :=
  if cs.contains c then cs else cs ++ [c]

/-- `rc_hash_initialize_dsk_iterator`, embedded as
`rc_hash_init_dsk_iterator`: pick the primary console by the
file or buffer size, then append MSX and Apple II as fallbacks. -/
def rc_hash_init_dsk_iterator (env : HashEnv) (path : String) (bufferSize : Nat) :
    List Nat × Eff :=
  let (size, e) :=
    if bufferSize = 0 then
      match rc_file_open env path with
      | (some fh, e1) =>
        let fh := rc_file_seek fh 0 .endOfFile
        let size := rc_file_tell fh
        ((size, e1.seq (rc_file_close fh)) : Nat × Eff)
      | (none, e1) => (0, e1)
    else (bufferSize, Eff.one)
  let cs0 : List Nat :=
    if size = 512 * 9 * 80 then [RC_CONSOLE_MSX]
    else if size = 512 * 9 * 80 * 2 then [RC_CONSOLE_MSX]
    else if size = 512 * 9 * 40 then [RC_CONSOLE_MSX]
    else if size = 256 * 16 * 35 then [RC_CONSOLE_APPLE_II]
    else if size = 256 * 13 * 35 then [RC_CONSOLE_APPLE_II]
    else []
  (rc_hash_iterator_append_console
    (rc_hash_iterator_append_console cs0 RC_CONSOLE_MSX) RC_CONSOLE_APPLE_II, e)

/-- The body of `rc_hash_initialize_iterator` (embedded as
`rc_hash_init_iterator`, below): the extension switch.  `pathOwned` is the iterator's owned path (set by an
m3u hop), `need_path0` the running `need_path` flag; the fuel bounds the
m3u redirection chain.  A failed m3u resolution returns early with the
candidate list still empty, skipping the Game Boy default. -/
def rc_hash_init_iterator_loop (env : HashEnv) :
    Nat → String → Option Bytes → Option String → Bool → Option HashIterator × Eff
  | 0, _, _, _, _ => (none, Eff.one)
  | fuel + 1, path, buffer, pathOwned, need_path0 =>
    let bufferSize := (buffer.map List.length).getD 0
    let ext := rc_path_get_extension path
    let c0 := tolowerC (ext.data.headD (Char.ofNat 0))
    if c0 = 'm' ∧ rc_path_compare_extension path "m3u" then
      let (dp, e) := rc_hash_get_first_item_from_playlist env path
      match dp with
      | none => (some ⟨pathOwned, buffer, []⟩, e)
      | some disc_path =>
        let (r, e2) := rc_hash_init_iterator_loop env fuel disc_path none
          (some disc_path) need_path0
        (r, e.seq e2)
    else
      let (cs, need_path, e) : List Nat × Bool × Eff :=
        if c0 = '2' then
          (if rc_path_compare_extension path "2d" then [RC_CONSOLE_SHARPX1] else [],
           need_path0, Eff.one)
        else if c0 = '7' then
          if rc_path_compare_extension path "7z" then ([RC_CONSOLE_ARCADE], true, Eff.one)
          else ([], need_path0, Eff.one)
        else if c0 = 'a' then
          (if rc_path_compare_extension path "a78" then [RC_CONSOLE_ATARI_7800] else [],
           need_path0, Eff.one)
        else if c0 = 'b' then
          if rc_path_compare_extension path "bin" then
            if bufferSize = 0 then
              match rc_file_open env path with
              | (some fh, e1) =>
                let fh := rc_file_seek fh 0 .endOfFile
                let size := rc_file_tell fh
                let e1 := e1.seq (rc_file_close fh)
                if size > 32 * 1024 * 1024 then
                  ([RC_CONSOLE_3DO, RC_CONSOLE_PLAYSTATION, RC_CONSOLE_PLAYSTATION_2,
                    RC_CONSOLE_SEGA_CD, RC_CONSOLE_MEGA_DRIVE], need_path0, e1)
                else ([RC_CONSOLE_MEGA_DRIVE], need_path0, e1)
              | (none, e1) => ([RC_CONSOLE_MEGA_DRIVE], need_path0, e1)
            else ([RC_CONSOLE_MEGA_DRIVE], need_path0, Eff.one)
          else if rc_path_compare_extension path "bs" then
            ([RC_CONSOLE_SUPER_NINTENDO], need_path0, Eff.one)
          else ([], need_path0, Eff.one)
        else if c0 = 'c' then
          if rc_path_compare_extension path "cue" then
            ([RC_CONSOLE_PLAYSTATION, RC_CONSOLE_PLAYSTATION_2, RC_CONSOLE_PC_ENGINE,
              RC_CONSOLE_3DO, RC_CONSOLE_PCFX, RC_CONSOLE_SEGA_CD], true, Eff.one)
          else if rc_path_compare_extension path "chd" then
            ([RC_CONSOLE_PLAYSTATION, RC_CONSOLE_PLAYSTATION_2, RC_CONSOLE_DREAMCAST,
              RC_CONSOLE_PC_ENGINE, RC_CONSOLE_3DO, RC_CONSOLE_PCFX, RC_CONSOLE_SEGA_CD],
             true, Eff.one)
          else if rc_path_compare_extension path "col" then
            ([RC_CONSOLE_COLECOVISION], need_path0, Eff.one)
          else if rc_path_compare_extension path "cas" then
            ([RC_CONSOLE_MSX], need_path0, Eff.one)
          else ([], need_path0, Eff.one)
        else if c0 = 'd' then
          if rc_path_compare_extension path "dsk" then
            let (cs, e1) := rc_hash_init_dsk_iterator env path bufferSize
            (cs, need_path0, e1)
          else if rc_path_compare_extension path "d88" then
            ([RC_CONSOLE_PC8800, RC_CONSOLE_SHARPX1], need_path0, Eff.one)
          else ([], need_path0, Eff.one)
        else if c0 = 'f' then
          if rc_path_compare_extension path "fig" then
            ([RC_CONSOLE_SUPER_NINTENDO], need_path0, Eff.one)
          else if rc_path_compare_extension path "fds" then
            ([RC_CONSOLE_NINTENDO], need_path0, Eff.one)
          else if rc_path_compare_extension path "fd" then
            ([RC_CONSOLE_THOMSONTO8], need_path0, Eff.one)
          else ([], need_path0, Eff.one)
        else if c0 = 'g' then
          if rc_path_compare_extension path "gba" then
            ([RC_CONSOLE_GAMEBOY_ADVANCE], need_path0, Eff.one)
          else if rc_path_compare_extension path "gbc" then
            ([RC_CONSOLE_GAMEBOY_COLOR], need_path0, Eff.one)
          else if rc_path_compare_extension path "gb" then
            ([RC_CONSOLE_GAMEBOY], need_path0, Eff.one)
          else if rc_path_compare_extension path "gg" then
            ([RC_CONSOLE_GAME_GEAR], need_path0, Eff.one)
          else if rc_path_compare_extension path "gdi" then
            ([RC_CONSOLE_DREAMCAST], need_path0, Eff.one)
          else ([], need_path0, Eff.one)
        else if c0 = 'i' then
          if rc_path_compare_extension path "iso" then
            ([RC_CONSOLE_PLAYSTATION_2, RC_CONSOLE_3DO, RC_CONSOLE_SEGA_CD], true, Eff.one)
          else ([], need_path0, Eff.one)
        else if c0 = 'j' then
          (if rc_path_compare_extension path "jag" then [RC_CONSOLE_ATARI_JAGUAR] else [],
           need_path0, Eff.one)
        else if c0 = 'k' then
          (if rc_path_compare_extension path "k7" then [RC_CONSOLE_THOMSONTO8] else [],
           need_path0, Eff.one)
        else if c0 = 'l' then
          (if rc_path_compare_extension path "lnx" then [RC_CONSOLE_ATARI_LYNX] else [],
           need_path0, Eff.one)
        else if c0 = 'm' then
          if rc_path_compare_extension path "md" then
            ([RC_CONSOLE_MEGA_DRIVE], need_path0, Eff.one)
          else if rc_path_compare_extension path "min" then
            ([RC_CONSOLE_POKEMON_MINI], need_path0, Eff.one)
          else if rc_path_compare_extension path "mx1" then
            ([RC_CONSOLE_MSX], need_path0, Eff.one)
          else if rc_path_compare_extension path "mx2" then
            ([RC_CONSOLE_MSX], need_path0, Eff.one)
          else if rc_path_compare_extension path "m5" then
            ([RC_CONSOLE_THOMSONTO8], need_path0, Eff.one)
          else if rc_path_compare_extension path "m7" then
            ([RC_CONSOLE_THOMSONTO8], need_path0, Eff.one)
          else ([], need_path0, Eff.one)
        else if c0 = 'n' then
          if rc_path_compare_extension path "nes" then
            ([RC_CONSOLE_NINTENDO], need_path0, Eff.one)
          else if rc_path_compare_extension path "nds" then
            ([RC_CONSOLE_NINTENDO_DS], need_path0, Eff.one)
          else if rc_path_compare_extension path "n64" ||
              rc_path_compare_extension path "ndd" then
            ([RC_CONSOLE_NINTENDO_64], need_path0, Eff.one)
          else if rc_path_compare_extension path "ngc" then
            ([RC_CONSOLE_NEOGEO_POCKET], need_path0, Eff.one)
          else ([], need_path0, Eff.one)
        else if c0 = 'p' then
          (if rc_path_compare_extension path "pce" then [RC_CONSOLE_PC_ENGINE] else [],
           need_path0, Eff.one)
        else if c0 = 'r' then
          if rc_path_compare_extension path "rom" then
            ([RC_CONSOLE_MSX, RC_CONSOLE_THOMSONTO8], need_path0, Eff.one)
          else if rc_path_compare_extension path "ri" then
            ([RC_CONSOLE_MSX], need_path0, Eff.one)
          else ([], need_path0, Eff.one)
        else if c0 = 's' then
          if rc_path_compare_extension path "smc" || rc_path_compare_extension path "sfc" ||
              rc_path_compare_extension path "swc" then
            ([RC_CONSOLE_SUPER_NINTENDO], need_path0, Eff.one)
          else if rc_path_compare_extension path "sg" then
            ([RC_CONSOLE_SG1000], need_path0, Eff.one)
          else if rc_path_compare_extension path "sgx" then
            ([RC_CONSOLE_PC_ENGINE], need_path0, Eff.one)
          else if rc_path_compare_extension path "sv" then
            ([RC_CONSOLE_SUPERVISION], need_path0, Eff.one)
          else if rc_path_compare_extension path "sap" then
            ([RC_CONSOLE_THOMSONTO8], need_path0, Eff.one)
          else ([], need_path0, Eff.one)
        else if c0 = 't' then
          if rc_path_compare_extension path "tap" then
            ([RC_CONSOLE_ORIC], need_path0, Eff.one)
          else if rc_path_compare_extension path "tic" then
            ([RC_CONSOLE_TIC80], need_path0, Eff.one)
          else ([], need_path0, Eff.one)
        else if c0 = 'v' then
          (if rc_path_compare_extension path "vb" then [RC_CONSOLE_VIRTUAL_BOY] else [],
           need_path0, Eff.one)
        else if c0 = 'w' then
          if rc_path_compare_extension path "wsc" then
            ([RC_CONSOLE_WONDERSWAN], need_path0, Eff.one)
          else if rc_path_compare_extension path "woz" then
            ([RC_CONSOLE_APPLE_II], need_path0, Eff.one)
          else ([], need_path0, Eff.one)
        else if c0 = 'z' then
          if rc_path_compare_extension path "zip" then ([RC_CONSOLE_ARCADE], true, Eff.one)
          else ([], need_path0, Eff.one)
        else ([], need_path0, Eff.one)
      let pathFinal :=
        match pathOwned with
        | some p => some p
        | none => if need_path then some path else none
      let cs := if cs = [] then [RC_CONSOLE_GAMEBOY] else cs
      (some ⟨pathFinal, buffer, cs⟩, e)

/-- `rc_hash_initialize_iterator`, embedded as `rc_hash_init_iterator`. -/
def rc_hash_init_iterator (env : HashEnv) (fuel : Nat) (path : String)
    (buffer : Option Bytes) : Option HashIterator × Eff :=
  rc_hash_init_iterator_loop env fuel path buffer none buffer.isNone

/-- The candidate loop of `rc_hash_iterate`: dispatch each console in
order with the preloaded buffer or the stored path, stop at the first
success; on exhaustion write an empty string into the output and return
failure. -/
def rc_hash_iterate_loop (env : HashEnv) (fuel : Nat) (buffer : Option Bytes)
    (path : Option String) : List Nat → Option Nat × Eff
  | [] => (some 0, { Eff.one with wrote := some "" })
  | c :: rest =>
    let (r, e) :=
      match buffer with
      | some b =>
        let (r0, e0) := rc_hash_generate_from_buffer env c b
        ((some r0, e0) : Option Nat × Eff)
      | none => rc_hash_generate_from_file env fuel c (path.getD "")
    match r with
    | none => (none, e)
    | some r0 =>
      if r0 ≠ 0 then (some r0, e)
      else
        let (r2, e2) := rc_hash_iterate_loop env fuel buffer path rest
        (r2, e.seq e2)

/-- `rc_hash_iterate` on a freshly initialized iterator. -/
def rc_hash_iterate (env : HashEnv) (fuel : Nat) (it : HashIterator) : Option Nat × Eff :=
  rc_hash_iterate_loop env fuel it.buffer it.path it.consoles

/-- The record's stored name trimmed at the first ';' (version suffix) or
NUL/end, as the specification describes the match target. -/
def trimNameAt (dir : Bytes) (p : Nat) : Bytes :=
  (dir.drop (p + 33)).takeWhile (fun b => b != 59 && b != 0)

/-- The specification's match condition: the given name equals the
record's trimmed name case-insensitively. -/
def specMatchAt (name dir : Bytes) (p : Nat) : Bool := caseEqB name (trimNameAt dir p)

/-- The directory scan as the specification words it: walk the record
chain, stop at a zero record-length byte or the end of the sector, match
per `specMatchAt`. -/
def specFindInDir (name dir : Bytes) : Nat → Nat → Option Nat
  | 0, _ => none
  | fuel + 1, p =>
    if p ≥ 2048 then none
    else
      let reclen := dir.getD p 0
      if reclen = 0 then none
      else if specMatchAt name dir p then some p
      else specFindInDir name dir fuel (p + reclen)

/-- Trailing-whitespace strip. -/
def rtrimB (l : Bytes) : Bytes := (l.reverse.dropWhile (fun c => isSpaceB c)).reverse

/-- The playlist entry as the specification words it: the first line that
does not begin with '#' and is non-blank after stripping trailing
whitespace, stripped; fuelled by the content length. -/
def specFirstItem : Nat → Bytes → Option Bytes
  | 0, _ => none
  | fuel + 1, content =>
    let line := content.takeWhile (fun c => c != 10)
    if line.headD 0 = 35 ∨ (rtrimB line).length = 0 then
      if content.length ≤ line.length then none
      else specFirstItem fuel (content.drop (line.length + 1))
    else some (rtrimB line)

/-- The consoles whose file dispatch supports m3u playlists. -/
def playlistConsoles : List Nat :=
  [RC_CONSOLE_MSX, RC_CONSOLE_PC8800, RC_CONSOLE_3DO, RC_CONSOLE_PC_ENGINE,
   RC_CONSOLE_PCFX, RC_CONSOLE_PLAYSTATION, RC_CONSOLE_PLAYSTATION_2,
   RC_CONSOLE_DREAMCAST, RC_CONSOLE_SEGA_CD, RC_CONSOLE_SATURN]

/-- Lowercase hex digit test. -/
def isHexDigitB (c : Char) : Bool :=
  (48 ≤ c.toNat && c.toNat ≤ 57) || (97 ≤ c.toNat && c.toNat ≤ 102)

/-- "32 lowercase hex digits": the shape of a successful fingerprint (the
33rd byte, the terminator, is the end of the string in the model). -/
def isHex32 (s : String) : Bool := (s.length == 32) && s.data.all isHexDigitB

/-- A digest function (standing in for MD5 in counterexamples) whose
16-byte output encodes the message length in base 256. -/
def lenDigest (m : Bytes) : Bytes := (List.range 16).map (fun i => m.length / 256 ^ i % 256)

/-- Fixture helper: the byte list of length `n` tabulating `f`. -/
def natFun2list (n : Nat) (f : Nat → Nat) : Bytes := (List.range n).map f

/-- Fixture: one directory sector holding a single 48-byte record for
`name` with the given extent LBA and size. -/
def dirByte (name : Bytes) (extent size : Nat) (i : Nat) : Nat :=
  if i = 0 then 48
  else if i = 2 then extent % 256
  else if i = 3 then extent / 256 % 256
  else if i = 4 then extent / 65536 % 256
  else if i = 10 then size % 256
  else if i = 11 then size / 256 % 256
  else if i = 12 then size / 65536 % 256
  else if i = 13 then size / 16777216 % 256
  else if 33 ≤ i ∧ i < 33 + name.length then name.getD (i - 33) 0
  else if i = 33 + name.length then 59
  else if i = 34 + name.length then 49
  else 0

/-- Fixture: see `dirByte`. -/
def mkDirSector (name : Bytes) (extent size : Nat) : Bytes :=
  natFun2list 2048 (dirByte name extent size)

/-- Fixture: a Primary Volume Descriptor whose root-directory LBA (bytes
158..160) is `root`. -/
def pvdByte (root : Nat) (i : Nat) : Nat :=
  if i = 158 then root % 256
  else if i = 159 then root / 256 % 256
  else if i = 160 then root / 65536 % 256
  else 0

/-- Fixture: see `pvdByte`. -/
def mkPVD (root : Nat) : Bytes := natFun2list 256 (pvdByte root)

/-- Fixture for the PSX recipe: track 1 carries the PVD at sector 16, a
root directory at LBA 50 holding only PSX.EXE (extent 100, the given
extent size), and the executable sectors from 100 on all read as
`exeSector`. -/
def psxDisc (exeSector : Bytes) (extSize : Nat) : Nat → Nat → Nat → Bytes :=
  fun h sec _req =>
    if h = 1 then
      if sec = 16 then mkPVD 50
      else if sec = 50 then mkDirSector (strB "PSX.EXE") 100 extSize
      else if 100 ≤ sec then exeSector
      else []
    else []

/-- Fixture: the PSX environment over an arbitrary digest function. -/
def psxEnv (dg : Bytes → Bytes) (exeSector : Bytes) (extSize : Nat) : HashEnv :=
  { fs := fun _ => none,
    cdreader := some ⟨some (fun _ t => if t = 1 then 1 else 0),
                      some (psxDisc exeSector extSize),
                      some (fun _ s => s), true⟩,
    digestFn := dg }

/-- Fixture: first executable sector for the C3 counterexample — the
first 7 bytes match "PS-X EX" but the 8th is 'F', so the first 8 bytes
are not "PS-X EXE"; the header size field at offset 28 reads 2048. -/
def psxCexSector : Bytes :=
  natFun2list 2048 (fun i =>
    if i < 8 then (strB "PS-X EXF").getD i 0
    else if i = 29 then 8
    else if 28 ≤ i ∧ i ≤ 31 then 0
    else 7)

/-- Fixture: Dreamcast IP.BIN sector — valid signature, boot file
"A.BIN" at offset 96 followed by a space. -/
def dcIpBin : Bytes :=
  natFun2list 256 (fun i =>
    if i < 16 then (strB "SEGA SEGAKATANA ").getD i 0
    else if 96 ≤ i ∧ i < 101 then (strB "A.BIN").getD (i - 96) 0
    else 32)

/-- Fixture for the C1 counterexample: a Dreamcast disc whose metadata is
intact and whose boot executable is located, but reading the
executable's contents (track handle 2, the LAST track) returns no
bytes. -/
def dcEnv : HashEnv :=
  { fs := fun _ => none,
    cdreader := some
      ⟨some (fun _ t => if t = 3 then 1 else if t = RC_HASH_CDTRACK_LAST then 2 else 0),
       some (fun h sec _req =>
         if h = 1 then
           if sec = 0 then dcIpBin
           else if sec = 16 then mkPVD 50
           else if sec = 50 then mkDirSector (strB "A.BIN") 100 4096
           else []
         else []),
       some (fun _ s => s), true⟩,
    digestFn := lenDigest }

/-- Fixture for the C2 code-bug evaluation: a 3-byte file, so the
Nintendo DS header read returns fewer than 512 bytes. -/
def dsEnv : HashEnv :=
  { fs := fun p => if p = "game.nds" then some [1, 2, 3] else none,
    cdreader := none,
    digestFn := lenDigest }

/-- Fixture for C9: no disc hook table installed. -/
def noCdEnv : HashEnv :=
  { fs := fun _ => none, cdreader := none, digestFn := lenDigest }

/-- A well-formed external digest function: 16 bytes out (as MD5). -/
def digestWF (env : HashEnv) : Prop := ∀ m, (env.digestFn m).length = 16

/-- One candidate dispatch of the iterate loop (the body of
`rc_hash_iterate`'s do/while). -/
def iterDispatch (env : HashEnv) (fuel : Nat) (buffer : Option Bytes)
    (path : Option String) (c : Nat) : Option Nat × Eff :=
  match buffer with
  | some b =>
    let (r0, e0) := rc_hash_generate_from_buffer env c b
    (some r0, e0)
  | none => rc_hash_generate_from_file env fuel c (path.getD "")

/-- A candidate succeeds when its dispatch returns a nonzero result. -/
def iterSucc (env : HashEnv) (fuel : Nat) (buffer : Option Bytes)
    (path : Option String) (c : Nat) : Bool :=
  (iterDispatch env fuel buffer path c).1.getD 0 != 0

/-- Every carriage return is followed by another CR, a LF, or the end of
the content: the shape of CR use in real m3u files (CRLF line ends),
under which a line beginning with CR is necessarily blank. -/
def CRok (l : Bytes) : Prop :=
  ∀ i, l.getD i 0 = 13 → l.getD (i + 1) 0 = 13 ∨ l.getD (i + 1) 0 = 10 ∨ l.length ≤ i + 1

/-- Fixture: an executable first sector carrying the full "PS-X EXE"
marker and a header size field of 2048 (so 2048+2048 bytes are hashed). -/
def psxOkSector : Bytes :=
  natFun2list 2048 (fun i =>
    if i < 8 then (strB "PS-X EXE").getD i 0
    else if i = 29 then 8
    else if 28 ≤ i ∧ i ≤ 31 then 0
    else 3)

/-- Fixture: SNES buffer above the 64-MiB cap whose size mod 8192 is
512. -/
def snesBigBuf : Bytes := List.replicate (MAX_BUFFER_SIZE + 8704) 0

/-- Fixture: the copier-headered 8-KiB SNES buffer of the spec's seed
test. -/
def snesSmallBuf : Bytes := List.replicate 512 9 ++ List.replicate 8192 5

/-- Fixture: two files agreeing on their first 64 MiB, the second longer. -/
def capEnv : HashEnv :=
  { fs := fun p =>
      if p = "a.gb" then some (List.replicate MAX_BUFFER_SIZE 1)
      else if p = "b.gb" then some (List.replicate MAX_BUFFER_SIZE 1 ++ [2, 3, 4, 5, 6])
      else none,
    cdreader := none,
    digestFn := lenDigest }

/-- Fixture: a track-1 disc for the ISO-locator witness — PVD rooted at
LBA 50, one record "A.BIN" with extent 77 and size 123. -/
def c4Env : HashEnv :=
  { fs := fun _ => none,
    cdreader := some ⟨some (fun _ t => if t = 1 then 1 else 0),
                      some (fun h sec _req =>
                        if h = 1 then
                          if sec = 16 then mkPVD 50
                          else if sec = 50 then mkDirSector (strB "A.BIN") 77 123
                          else []
                        else []),
                      some (fun _ s => s), true⟩,
    digestFn := lenDigest }

/-- Fixture: a playlist next to its disc image. -/
def c5Env : HashEnv :=
  { fs := fun p =>
      if p = "/dir/game.m3u" then some (strB "# c\r\n  \r\ngame.cue\r\nother.cue\n")
      else if p = "/dir/game.cue" then some [1, 2, 3]
      else none,
    cdreader := none,
    digestFn := lenDigest }

/-- Spec-side (C1): a written fingerprint of exactly 32 lowercase hex
digits. -/
def specWroteHex (e : Eff) : Prop := ∃ s, e.wrote = some s ∧ isHex32 s = true

/-- Spec-side (C1): the output contract for the buffer recipes — success
writes a 32-hex fingerprint, failure leaves the output untouched. -/
def specContractBuf (p : Nat × Eff) : Prop :=
  (p.1 ≠ 0 → specWroteHex p.2) ∧ (p.1 = 0 → p.2.wrote = none)

/-- Spec-side (C1): the output contract for the fallible recipes. -/
def specContractDisc (p : Option Nat × Eff) : Prop :=
  (∀ k, p.1 = some k → k ≠ 0 → specWroteHex p.2)
  ∧ (p.1 = some 0 ∨ p.1 = none → p.2.wrote = none)

/-- Spec-side (C1, amended): as `specContractDisc`, but the recipe may
also write a fingerprint on a failure that reported `msg` (the
executable-content read failed after the digest was seeded). -/
def specContractDiscExc (msg : String) (p : Option Nat × Eff) : Prop :=
  (∀ k, p.1 = some k → k ≠ 0 → specWroteHex p.2)
  ∧ (p.1 = some 0 ∨ p.1 = none →
      p.2.wrote = none ∨ (msg ∈ p.2.errors ∧ specWroteHex p.2))

-- ===================== theorems =====================

theorem seq_wrote (a b : Eff) :
    (a.seq b).wrote = match b.wrote with | none => a.wrote | some w => some w := rfl

theorem seq_wrote_some (a b : Eff) (w : String) (h : b.wrote = some w) :
    (a.seq b).wrote = some w := by simp [Eff.seq, h]

theorem seq_wrote_none (a b : Eff) (h : b.wrote = none) :
    (a.seq b).wrote = a.wrote := by simp [Eff.seq, h]

theorem seq_errors (a b : Eff) : (a.seq b).errors = a.errors ++ b.errors := rfl

theorem seq_hookReads (a b : Eff) : (a.seq b).hookReads = a.hookReads + b.hookReads := rfl

theorem isHexDigitB_hexChar (m : Nat) (h : m < 16) : isHexDigitB (hexChar m) = true := by
  interval_cases m <;> decide

theorem byteHex_all (b : Nat) : (byteHex b).all isHexDigitB = true := by
  simp [byteHex, List.all_cons]
  exact ⟨isHexDigitB_hexChar _ (Nat.mod_lt _ (by norm_num)),
         isHexDigitB_hexChar _ (Nat.mod_lt _ (by norm_num))⟩

theorem hexRender_shape (d : Bytes) (h : d.length = 16) : isHex32 (hexRender d) = true := by
  have hlen : ∀ l : Bytes, ((l.map byteHex).flatten).length = 2 * l.length := by
    intro l
    induction l with
    | nil => rfl
    | cons a t ih => simp [byteHex] at ih ⊢; omega
  have hall : ∀ l : Bytes, ((l.map byteHex).flatten).all isHexDigitB = true := by
    intro l
    induction l with
    | nil => rfl
    | cons a t ih => simpa [List.all_append, byteHex_all] using ih
  simp [isHex32, hexRender, String.length, hlen d, h, hall d]

/-- C9: with the disc hook table uninstalled, every disc recipe (3DO,
PC-Engine CD, PC-FX, Dreamcast, PSX, PS2, Sega CD/Saturn) fails, never
reads a sector through a hook, and reports the specific missing disc
operation ("no hook registered for cdreader_open_track"). -/
theorem c9_missing_hooks (env : HashEnv) (path : String) (h : env.cdreader = none) :
    ((rc_hash_3do env path).1 = some 0 ∧
      "no hook registered for cdreader_open_track" ∈ (rc_hash_3do env path).2.errors ∧
      (rc_hash_3do env path).2.hookReads = 0) ∧
    ((rc_hash_pce_cd env path).1 = some 0 ∧
      "no hook registered for cdreader_open_track" ∈ (rc_hash_pce_cd env path).2.errors ∧
      (rc_hash_pce_cd env path).2.hookReads = 0) ∧
    ((rc_hash_pcfx_cd env path).1 = some 0 ∧
      "no hook registered for cdreader_open_track" ∈ (rc_hash_pcfx_cd env path).2.errors ∧
      (rc_hash_pcfx_cd env path).2.hookReads = 0) ∧
    ((rc_hash_dreamcast env path).1 = some 0 ∧
      "no hook registered for cdreader_open_track" ∈ (rc_hash_dreamcast env path).2.errors ∧
      (rc_hash_dreamcast env path).2.hookReads = 0) ∧
    ((rc_hash_psx env path).1 = some 0 ∧
      "no hook registered for cdreader_open_track" ∈ (rc_hash_psx env path).2.errors ∧
      (rc_hash_psx env path).2.hookReads = 0) ∧
    ((rc_hash_ps2 env path).1 = some 0 ∧
      "no hook registered for cdreader_open_track" ∈ (rc_hash_ps2 env path).2.errors ∧
      (rc_hash_ps2 env path).2.hookReads = 0) ∧
    ((rc_hash_sega_cd env path).1 = some 0 ∧
      "no hook registered for cdreader_open_track" ∈ (rc_hash_sega_cd env path).2.errors ∧
      (rc_hash_sega_cd env path).2.hookReads = 0) := by
  refine ⟨?_, ?_, ?_, ?_, ?_, ?_, ?_⟩ <;>
    simp [rc_hash_3do, rc_hash_pce_cd, rc_hash_pcfx_cd, rc_hash_dreamcast, rc_hash_psx,
      rc_hash_ps2, rc_hash_sega_cd, rc_cd_open_track, h, rc_hash_error, errEff,
      Eff.seq, Eff.one]

/-- C9 witness: evaluated on an environment with no hook table. -/
theorem c9_missing_hooks_witness :
    ((rc_hash_3do noCdEnv "game").1 = some 0 ∧
      "no hook registered for cdreader_open_track" ∈ (rc_hash_3do noCdEnv "game").2.errors ∧
      (rc_hash_3do noCdEnv "game").2.hookReads = 0) ∧
    ((rc_hash_pce_cd noCdEnv "game").1 = some 0 ∧
      "no hook registered for cdreader_open_track" ∈ (rc_hash_pce_cd noCdEnv "game").2.errors ∧
      (rc_hash_pce_cd noCdEnv "game").2.hookReads = 0) ∧
    ((rc_hash_pcfx_cd noCdEnv "game").1 = some 0 ∧
      "no hook registered for cdreader_open_track" ∈ (rc_hash_pcfx_cd noCdEnv "game").2.errors ∧
      (rc_hash_pcfx_cd noCdEnv "game").2.hookReads = 0) ∧
    ((rc_hash_dreamcast noCdEnv "game").1 = some 0 ∧
      "no hook registered for cdreader_open_track" ∈ (rc_hash_dreamcast noCdEnv "game").2.errors ∧
      (rc_hash_dreamcast noCdEnv "game").2.hookReads = 0) ∧
    ((rc_hash_psx noCdEnv "game").1 = some 0 ∧
      "no hook registered for cdreader_open_track" ∈ (rc_hash_psx noCdEnv "game").2.errors ∧
      (rc_hash_psx noCdEnv "game").2.hookReads = 0) ∧
    ((rc_hash_ps2 noCdEnv "game").1 = some 0 ∧
      "no hook registered for cdreader_open_track" ∈ (rc_hash_ps2 noCdEnv "game").2.errors ∧
      (rc_hash_ps2 noCdEnv "game").2.hookReads = 0) ∧
    ((rc_hash_sega_cd noCdEnv "game").1 = some 0 ∧
      "no hook registered for cdreader_open_track" ∈ (rc_hash_sega_cd noCdEnv "game").2.errors ∧
      (rc_hash_sega_cd noCdEnv "game").2.hookReads = 0) :=
  c9_missing_hooks noCdEnv "game" rfl

/-- C2 (code bug): the Nintendo DS recipe, on a file whose 512-byte
header read comes back short (here a 3-byte file), returns failure with
the file handle it opened still open — one open, zero closes — contrary
to the scoped-release claim.  (The sibling malloc-failure path in the
same function does close the handle, so the leak is a slip.) -/
theorem c2_ds_handle_leak :
    (rc_hash_nintendo_ds dsEnv "game.nds").1 = some 0 ∧
    (rc_hash_nintendo_ds dsEnv "game.nds").2.fileOpens = 1 ∧
    (rc_hash_nintendo_ds dsEnv "game.nds").2.fileCloses = 0 ∧
    (rc_hash_nintendo_ds dsEnv "game.nds").2.errors = ["Failed to read header"] := by
  decide

theorem charOfNat_toNat (n : Nat) (h : n < 55296) : (Char.ofNat n).toNat = n := by
  unfold Char.ofNat
  split
  · rfl
  · next hcon => exact absurd (Or.inl h) hcon

theorem charToNat_inj {a b : Char} (h : a.toNat = b.toNat) : a = b := by
  have := Char.ofNat_toNat a
  rw [h, Char.ofNat_toNat] at this
  exact this.symm

theorem m3u_ext_head (path : String) (h : rc_path_compare_extension path "m3u" = true) :
    tolowerC ((rc_path_get_extension path).data.headD (Char.ofNat 0)) = 'm' := by
  unfold rc_path_compare_extension at h
  rw [show ("m3u" : String).data = ['m', '3', 'u'] from rfl] at h
  simp only [List.length_cons, List.length_nil] at h
  norm_num at h
  obtain ⟨hlen, hdot, hsuf⟩ := h
  have hlen3 : 3 < path.data.length := hlen
  have h3 : (path.data.drop (path.data.length - 3)).length = 3 := by
    simp [List.length_drop]; omega
  obtain ⟨a, b, c, habc⟩ := List.length_eq_three.mp h3
  have hm : tolowerC a = 'm' ∧ b = '3' ∧ (c = 'u' ∨ c = 'U') := by
    rcases hsuf with h1 | h1
    · rw [show path.length = path.data.length from rfl, habc] at h1
      obtain ⟨ha, hb, hc⟩ : a = 'm' ∧ b = '3' ∧ c = 'u' := by simpa using h1
      exact ⟨by rw [ha]; decide, hb, Or.inl hc⟩
    · rw [show path.length = path.data.length from rfl, ← List.map_drop, habc] at h1
      obtain ⟨ha, hb, hc⟩ : tolowerC a = 'm' ∧ tolowerC b = '3' ∧ tolowerC c = 'u' := by
        simpa using h1
      refine ⟨ha, ?_, ?_⟩
      · revert hb; unfold tolowerC; split
        · next hr =>
          intro hb
          have hnum := congrArg Char.toNat hb
          rw [charOfNat_toNat _ (by omega)] at hnum
          have h51 : ('3' : Char).toNat = 51 := by decide
          omega
        · exact fun hb => hb
      · revert hc; unfold tolowerC; split
        · next hr =>
          intro hc
          have hnum := congrArg Char.toNat hc
          rw [charOfNat_toNat _ (by omega)] at hnum
          have h117 : ('u' : Char).toNat = 117 := by decide
          right
          exact charToNat_inj (by rw [show ('U' : Char).toNat = 85 from by decide]; omega)
        · exact fun hc => Or.inl hc
  obtain ⟨ha, hb, hc⟩ := hm
  have hane : a ≠ '.' := by
    intro hcontra; rw [hcontra] at ha; exact absurd ha (by decide)
  have hbne : b ≠ '.' := by rw [hb]; decide
  have hcne : c ≠ '.' := by rcases hc with h | h <;> (rw [h]; decide)
  have hdot2 : path.data[path.data.length - 4]? = some '.' := by
    rw [show path.length = path.data.length from rfl] at hdot
    have hidx : path.data.length - 3 - 1 = path.data.length - 4 := by omega
    rw [hidx] at hdot
    rw [List.getElem?_eq_getElem (by omega : path.data.length - 4 < path.data.length)] at hdot ⊢
    simp only [Option.getD_some] at hdot
    rw [hdot]
  have hsplit : path.data = path.data.take (path.data.length - 4) ++ '.' :: [a, b, c] := by
    have e2 : path.data.drop (path.data.length - 4) = '.' :: [a, b, c] := by
      have hlen4 : (path.data.drop (path.data.length - 4)).length = 4 := by
        simp [List.length_drop]; omega
      have hdd : path.data.drop (path.data.length - 4) ≠ [] := by
        intro hnil; rw [hnil] at hlen4; simp at hlen4
      have hhead : (path.data.drop (path.data.length - 4)).head? = some '.' := by
        rw [List.head?_drop]
        exact hdot2
      have htail : (path.data.drop (path.data.length - 4)).tail = [a, b, c] := by
        rw [← habc]
        have heq : path.data.drop (path.data.length - 3)
            = (path.data.drop (path.data.length - 4)).drop 1 := by
          rw [List.drop_drop]; congr 1; omega
        rw [heq, List.drop_one]
      rcases hx : path.data.drop (path.data.length - 4) with _ | ⟨y, ys⟩
      · exact absurd hx hdd
      · rw [hx] at hhead htail
        simp only [List.head?_cons, Option.some_inj] at hhead
        simp only [List.tail_cons] at htail
        rw [hhead, htail]
    calc path.data
        = path.data.take (path.data.length - 4) ++ path.data.drop (path.data.length - 4) :=
          (List.take_append_drop _ _).symm
      _ = path.data.take (path.data.length - 4) ++ '.' :: [a, b, c] := by rw [e2]
  unfold rc_path_get_extension
  rw [hsplit]
  have hrev : ((path.data.take (path.data.length - 4) ++ '.' :: [a, b, c]).reverse)
      = c :: b :: a :: '.' :: (path.data.take (path.data.length - 4)).reverse := by
    simp
  rw [hrev]
  rw [List.takeWhile_cons_of_pos (by simpa using hcne),
    List.takeWhile_cons_of_pos (by simpa using hbne),
    List.takeWhile_cons_of_pos (by simpa using hane),
    List.takeWhile_cons_of_neg (by simp)]
  have hlenne : ([c, b, a] : List Char).length ≠
      (path.data.take (path.data.length - 4) ++ '.' :: [a, b, c]).length := by
    simp only [List.length_cons, List.length_nil, List.length_append, List.length_take]
    omega
  rw [if_neg hlenne]
  simpa using ha

/-- C10: when the iterator is initialized on an m3u path whose first
playlist entry cannot be resolved, initialization returns early with an
empty candidate list (the Game Boy whole-file default is not applied),
so iterate writes an empty string and returns failure without invoking
any recipe (its effect log is exactly the empty-string write). -/
theorem c10_m3u_unresolvable (env : HashEnv) (path : String) (buffer : Option Bytes)
    (fuel : Nat)
    (hm3u : rc_path_compare_extension path "m3u" = true)
    (hfail : (rc_hash_get_first_item_from_playlist env path).1 = none) :
    (rc_hash_init_iterator env (fuel + 1) path buffer).1
      = some ⟨none, buffer, []⟩ ∧
    ∀ gfuel, rc_hash_iterate env gfuel ⟨none, buffer, []⟩
      = (some 0, { Eff.one with wrote := some "" }) := by
  constructor
  · have hx : rc_hash_get_first_item_from_playlist env path
        = (none, (rc_hash_get_first_item_from_playlist env path).2) := by
      rw [← hfail]
    unfold rc_hash_init_iterator rc_hash_init_iterator_loop
    rw [if_pos ⟨m3u_ext_head path hm3u, hm3u⟩]
    rw [hx]
  · intro gfuel
    rfl

/-- C10 witness. -/
theorem c10_m3u_unresolvable_witness :
    (rc_hash_init_iterator dsEnv 1 "a.m3u" none).1
      = some ⟨none, none, []⟩ ∧
    ∀ gfuel, rc_hash_iterate dsEnv gfuel ⟨none, none, []⟩
      = (some 0, { Eff.one with wrote := some "" }) :=
  c10_m3u_unresolvable dsEnv "a.m3u" none 0 (by decide) (by decide)

theorem iterate_loop_cons (env : HashEnv) (fuel : Nat) (buffer : Option Bytes)
    (path : Option String) (c : Nat) (rest : List Nat) :
    rc_hash_iterate_loop env fuel buffer path (c :: rest) =
      match (iterDispatch env fuel buffer path c).1 with
      | none => (none, (iterDispatch env fuel buffer path c).2)
      | some r0 =>
        if r0 ≠ 0 then (some r0, (iterDispatch env fuel buffer path c).2)
        else ((rc_hash_iterate_loop env fuel buffer path rest).1,
          (iterDispatch env fuel buffer path c).2.seq
            (rc_hash_iterate_loop env fuel buffer path rest).2) := by
  cases buffer <;> rfl

/-- C6: the iterate loop tries the candidates strictly in list order and
returns the first successful dispatch's result (a write by the winning
recipe is the final output); when no candidate succeeds, or the list is
empty, it writes an empty string and returns failure.  (The hypothesis
excludes fuel exhaustion of the embedded dispatcher, a model artifact.) -/
theorem c6_iterator_first_success (env : HashEnv) (fuel : Nat) (buffer : Option Bytes)
    (path : Option String) (cs : List Nat)
    (hall : ∀ c ∈ cs, (iterDispatch env fuel buffer path c).1 ≠ none) :
    ((∀ c, cs.find? (iterSucc env fuel buffer path) = some c →
        (rc_hash_iterate_loop env fuel buffer path cs).1
          = (iterDispatch env fuel buffer path c).1 ∧
        (iterDispatch env fuel buffer path c).1.getD 0 ≠ 0 ∧
        ∀ w, (iterDispatch env fuel buffer path c).2.wrote = some w →
          (rc_hash_iterate_loop env fuel buffer path cs).2.wrote = some w)
     ∧ (cs.find? (iterSucc env fuel buffer path) = none →
        (rc_hash_iterate_loop env fuel buffer path cs).1 = some 0 ∧
        (rc_hash_iterate_loop env fuel buffer path cs).2.wrote = some "")) := by
  induction cs with
  | nil =>
    constructor
    · intro c hc; simp [List.find?] at hc
    · intro _
      cases buffer <;> exact ⟨rfl, rfl⟩
  | cons c rest ih =>
    have hD := hall c (by simp)
    obtain ⟨r0, hr0⟩ : ∃ r0, (iterDispatch env fuel buffer path c).1 = some r0 := by
      cases hx : (iterDispatch env fuel buffer path c).1 with
      | none => exact absurd hx hD
      | some v => exact ⟨v, rfl⟩
    have hsucc : iterSucc env fuel buffer path c = (r0 != 0) := by
      simp [iterSucc, hr0]
    by_cases hz : r0 = 0
    · -- first candidate fails; recurse
      have hloop : rc_hash_iterate_loop env fuel buffer path (c :: rest)
          = ((rc_hash_iterate_loop env fuel buffer path rest).1,
             (iterDispatch env fuel buffer path c).2.seq
               (rc_hash_iterate_loop env fuel buffer path rest).2) := by
        rw [iterate_loop_cons, hr0, hz]; simp
      have hfind : (c :: rest).find? (iterSucc env fuel buffer path)
          = rest.find? (iterSucc env fuel buffer path) := by
        rw [List.find?_cons_of_neg]
        simp [hsucc, hz]
      obtain ⟨ih1, ih2⟩ := ih (fun x hx => hall x (by simp [hx]))
      constructor
      · intro c0 hc0
        rw [hfind] at hc0
        obtain ⟨e1, e2, e3⟩ := ih1 c0 hc0
        rw [hloop]
        exact ⟨e1, e2, fun w hw => seq_wrote_some _ _ w (e3 w hw)⟩
      · intro hnone
        rw [hfind] at hnone
        obtain ⟨e1, e2⟩ := ih2 hnone
        rw [hloop]
        exact ⟨e1, seq_wrote_some _ _ _ e2⟩
    · -- first candidate succeeds
      have hloop : rc_hash_iterate_loop env fuel buffer path (c :: rest)
          = (some r0, (iterDispatch env fuel buffer path c).2) := by
        rw [iterate_loop_cons, hr0]; simp [hz]
      have hfind : (c :: rest).find? (iterSucc env fuel buffer path) = some c := by
        rw [List.find?_cons_of_pos]
        simp [hsucc, hz]
      constructor
      · intro c0 hc0
        rw [hfind] at hc0
        injection hc0 with hc0
        subst hc0
        rw [hloop]
        refine ⟨hr0.symm, by simp [hr0, hz], fun w hw => hw⟩
      · intro hnone
        rw [hfind] at hnone
        exact absurd hnone (by simp)

/-- C6 witness: console 999 is unsupported (fails), Game Boy succeeds. -/
theorem c6_iterator_first_success_witness :
    ((∀ c, [999, RC_CONSOLE_GAMEBOY].find? (iterSucc noCdEnv 1 (some [1, 2, 3]) none)
        = some c →
        (rc_hash_iterate_loop noCdEnv 1 (some [1, 2, 3]) none [999, RC_CONSOLE_GAMEBOY]).1
          = (iterDispatch noCdEnv 1 (some [1, 2, 3]) none c).1 ∧
        (iterDispatch noCdEnv 1 (some [1, 2, 3]) none c).1.getD 0 ≠ 0 ∧
        ∀ w, (iterDispatch noCdEnv 1 (some [1, 2, 3]) none c).2.wrote = some w →
          (rc_hash_iterate_loop noCdEnv 1 (some [1, 2, 3]) none
            [999, RC_CONSOLE_GAMEBOY]).2.wrote = some w)
     ∧ ([999, RC_CONSOLE_GAMEBOY].find? (iterSucc noCdEnv 1 (some [1, 2, 3]) none) = none →
        (rc_hash_iterate_loop noCdEnv 1 (some [1, 2, 3]) none [999, RC_CONSOLE_GAMEBOY]).1
          = some 0 ∧
        (rc_hash_iterate_loop noCdEnv 1 (some [1, 2, 3]) none
          [999, RC_CONSOLE_GAMEBOY]).2.wrote = some "")) :=
  c6_iterator_first_success noCdEnv 1 (some [1, 2, 3]) none [999, RC_CONSOLE_GAMEBOY]
    (by decide)

theorem rc_hash_buffer_eq (env : HashEnv) (b : Bytes) :
    rc_hash_buffer env b = (1, { Eff.one with
      wrote := some (hexRender (env.digestFn (b.take MAX_BUFFER_SIZE))) }) := by
  unfold rc_hash_buffer md5_append md5_init rc_hash_finalize
  simp only [List.nil_append]
  split
  · rfl
  · next hle =>
    rw [List.take_of_length_le (by omega), List.take_of_length_le (by omega)]

/-- C7 (amended): for a buffer below 2^32 bytes, when its size mod 8192
is 512 the SNES recipe hashes the buffer with its first 512 bytes
removed, capped at 64 MiB; otherwise it hashes the buffer capped at
64 MiB.  The fingerprint is the rendered digest of exactly those bytes. -/
theorem c7_snes_strip (env : HashEnv) (buf : Bytes) (h32 : buf.length < 4294967296) :
    (buf.length % 8192 = 512 →
      rc_hash_snes env buf = (1, { Eff.one with wrote := some (hexRender (env.digestFn
        ((buf.drop 512).take MAX_BUFFER_SIZE))) })) ∧
    (buf.length % 8192 ≠ 512 →
      rc_hash_snes env buf = (1, { Eff.one with wrote := some (hexRender (env.digestFn
        (buf.take MAX_BUFFER_SIZE))) })) := by
  have hcalc : buf.length % 4294967296 = buf.length := Nat.mod_eq_of_lt h32
  have hmod : buf.length - buf.length % 4294967296 / 8192 * 8192 = buf.length % 8192 := by
    rw [hcalc]; omega
  constructor
  · intro hmod512
    simp only [rc_hash_snes]
    rw [hmod, if_pos hmod512]
    exact rc_hash_buffer_eq env _
  · intro hmodne
    simp only [rc_hash_snes]
    rw [hmod, if_neg hmodne]
    exact rc_hash_buffer_eq env _

/-- C7 counterexample: a buffer of 64 MiB + 8704 bytes has size mod 8192
equal to 512, but its fingerprint is not the digest of the buffer with
its first 512 bytes removed — the 64-MiB cap truncates first (the digest
function here encodes the message length, which differs). -/
theorem c7_snes_cap_cex :
    snesBigBuf.length % 8192 = 512 ∧
    (rc_hash_snes noCdEnv snesBigBuf).2.wrote
      ≠ some (hexRender (noCdEnv.digestFn (snesBigBuf.drop 512))) := by
  have hL : snesBigBuf.length = 67117568 := by
    show (List.replicate (MAX_BUFFER_SIZE + 8704) (0 : Nat)).length = 67117568
    rw [List.length_replicate]
    norm_num [MAX_BUFFER_SIZE]
  constructor
  · rw [hL]
  · have hmain := (c7_snes_strip noCdEnv snesBigBuf (by rw [hL]; norm_num)).1
      (by rw [hL])
    rw [hmain]
    have hdrop : snesBigBuf.drop 512 = List.replicate 67117056 0 := by
      show (List.replicate (MAX_BUFFER_SIZE + 8704) (0 : Nat)).drop 512 = _
      rw [List.drop_replicate]
      rfl
    have htake : (snesBigBuf.drop 512).take MAX_BUFFER_SIZE
        = List.replicate 67108864 0 := by
      rw [hdrop, List.take_replicate]
      rfl
    rw [htake, hdrop]
    have h1 : (noCdEnv.digestFn (List.replicate 67108864 0))
        = (List.range 16).map (fun i => 67108864 / 256 ^ i % 256) := by
      show lenDigest _ = _
      unfold lenDigest
      rw [List.length_replicate]
    have h2 : (noCdEnv.digestFn (List.replicate 67117056 0))
        = (List.range 16).map (fun i => 67117056 / 256 ^ i % 256) := by
      show lenDigest _ = _
      unfold lenDigest
      rw [List.length_replicate]
    rw [h1, h2]
    decide

/-- C7 witness (the spec's seed test 2): a copier-headered 8-KiB buffer
hashes to the digest of its last 8 KiB. -/
theorem c7_snes_strip_witness :
    snesSmallBuf.length % 8192 = 512 ∧
    rc_hash_snes noCdEnv snesSmallBuf = (1, { Eff.one with
      wrote := some (hexRender (noCdEnv.digestFn
        ((snesSmallBuf.drop 512).take MAX_BUFFER_SIZE))) }) := by
  have hL : snesSmallBuf.length = 8704 := by
    show (List.replicate 512 9 ++ List.replicate 8192 (5 : Nat)).length = 8704
    rw [List.length_append, List.length_replicate, List.length_replicate]
  refine ⟨by rw [hL], ?_⟩
  exact (c7_snes_strip noCdEnv snesSmallBuf (by rw [hL]; norm_num)).1 (by rw [hL])

theorem whole_loop_full (content : Bytes) :
    ∀ fuel remaining pos workbuf md5, pos + remaining ≤ content.length →
    remaining < fuel →
    ∃ fh2, (rc_hash_whole_file_loop ⟨content, pos⟩ workbuf md5 fuel remaining).1
      = some (md5 ++ (content.drop pos).take remaining, fh2) := by
  intro fuel
  induction fuel with
  | zero => intro remaining pos workbuf md5 _ hcon; omega
  | succ fuel ih =>
    intro remaining pos workbuf md5 hbound hfuel
    by_cases h64 : remaining ≥ 65536
    · have hread : (rc_file_read ⟨content, pos⟩ 65536)
          = ((content.drop pos).take 65536, ⟨content, pos + 65536⟩) := by
        unfold rc_file_read
        have hlen : ((content.drop pos).take 65536).length = 65536 := by
          simp [List.length_take, List.length_drop]
          omega
        simp [hlen]
      have hb : ((content.drop pos).take 65536).length = 65536 := by
        simp [List.length_take, List.length_drop]
        omega
      have hwb : (updBuf workbuf ((content.drop pos).take 65536)).take 65536
          = (content.drop pos).take 65536 := by
        unfold updBuf
        exact List.take_left' hb
      obtain ⟨fh2, hrec⟩ := ih (remaining - 65536) (pos + 65536)
        (updBuf workbuf ((content.drop pos).take 65536))
        (md5_append md5 ((updBuf workbuf ((content.drop pos).take 65536)).take 65536))
        (by omega) (by omega)
      refine ⟨fh2, ?_⟩
      have hlist : md5_append md5 ((updBuf workbuf ((content.drop pos).take 65536)).take 65536)
          ++ (content.drop (pos + 65536)).take (remaining - 65536)
          = md5 ++ (content.drop pos).take remaining := by
        rw [hwb]
        unfold md5_append
        rw [List.append_assoc]
        congr 1
        rw [← List.drop_drop]
        have hsum : remaining = 65536 + (remaining - 65536) := by omega
        conv_rhs => rw [hsum, List.take_add]
      conv_lhs =>
        unfold rc_hash_whole_file_loop
        rw [if_pos h64, hread]
      dsimp only
      rw [hrec, hlist]
    · by_cases h0 : remaining > 0
      · have hread : (rc_file_read ⟨content, pos⟩ remaining)
            = ((content.drop pos).take remaining, ⟨content, pos + remaining⟩) := by
          unfold rc_file_read
          have hlen : ((content.drop pos).take remaining).length = remaining := by
            simp [List.length_take, List.length_drop]
            omega
          simp [hlen]
        have hb : ((content.drop pos).take remaining).length = remaining := by
          simp [List.length_take, List.length_drop]
          omega
        refine ⟨⟨content, pos + remaining⟩, ?_⟩
        have hwb : (updBuf workbuf ((content.drop pos).take remaining)).take remaining
            = (content.drop pos).take remaining := by
          unfold updBuf
          exact List.take_left' hb
        unfold rc_hash_whole_file_loop
        rw [if_neg (by omega), if_pos h0, hread]
        dsimp only
        rw [hwb]
        rfl
      · have hz : remaining = 0 := by omega
        subst hz
        refine ⟨⟨content, pos⟩, ?_⟩
        unfold rc_hash_whole_file_loop
        rw [if_neg (by omega), if_neg (by omega)]
        simp

theorem whole_file_eval (env : HashEnv) (p : String) (c : Bytes)
    (h : env.fs p = some c) (hle : MAX_BUFFER_SIZE ≤ c.length) :
    rc_hash_whole_file env p
      = (some 1, ⟨[], some (hexRender (env.digestFn (c.take MAX_BUFFER_SIZE))),
          [], [], 1, 1, 0⟩) := by
  obtain ⟨fh2, hloop⟩ := whole_loop_full c (MAX_BUFFER_SIZE + 1) MAX_BUFFER_SIZE 0
    (List.replicate 65536 0) md5_init (by omega) (by omega)
  unfold rc_hash_whole_file
  rw [show rc_file_open env p = (some ⟨c, 0⟩, { Eff.one with fileOpens := 1 }) from by
    unfold rc_file_open; rw [h]]
  dsimp only
  simp only [rc_file_seek, rc_file_tell, Nat.add_zero]
  rw [show (if List.length c > MAX_BUFFER_SIZE then MAX_BUFFER_SIZE else List.length c)
      = MAX_BUFFER_SIZE from by split <;> omega]
  rw [hloop]
  simp [rc_hash_finalize, rc_file_close, Eff.seq, Eff.one, md5_init, List.drop_zero]

/-- C8: under a whole-file recipe, a file of at least 64 MiB hashes to
the digest of exactly its first 64 MiB, successfully; two files agreeing
on their first 64 MiB (e.g. one an extension of the other beyond the
cap) produce the same fingerprint. -/
theorem c8_cap_idempotence (env : HashEnv) (p1 p2 : String) (c1 c2 : Bytes)
    (h1 : env.fs p1 = some c1) (h2 : env.fs p2 = some c2)
    (hl1 : MAX_BUFFER_SIZE ≤ c1.length) (hl2 : MAX_BUFFER_SIZE ≤ c2.length)
    (hpre : c1.take MAX_BUFFER_SIZE = c2.take MAX_BUFFER_SIZE) :
    (rc_hash_whole_file env p1).1 = some 1 ∧
    (rc_hash_whole_file env p1).2.wrote
      = some (hexRender (env.digestFn (c1.take MAX_BUFFER_SIZE))) ∧
    (rc_hash_whole_file env p1).2.wrote = (rc_hash_whole_file env p2).2.wrote := by
  rw [whole_file_eval env p1 c1 h1 hl1, whole_file_eval env p2 c2 h2 hl2, hpre]
  exact ⟨rfl, rfl, rfl⟩

/-- C8 witness: appending five bytes beyond the 64-MiB prefix leaves the
fingerprint unchanged. -/
theorem c8_cap_idempotence_witness :
    (rc_hash_whole_file capEnv "a.gb").1 = some 1 ∧
    (rc_hash_whole_file capEnv "a.gb").2.wrote
      = some (hexRender (capEnv.digestFn
          ((List.replicate MAX_BUFFER_SIZE 1).take MAX_BUFFER_SIZE))) ∧
    (rc_hash_whole_file capEnv "a.gb").2.wrote
      = (rc_hash_whole_file capEnv "b.gb").2.wrote := by
  have hlen : (List.replicate MAX_BUFFER_SIZE (1 : Nat)).length = MAX_BUFFER_SIZE :=
    List.length_replicate _ _
  exact c8_cap_idempotence capEnv "a.gb" "b.gb" (List.replicate MAX_BUFFER_SIZE 1)
    (List.replicate MAX_BUFFER_SIZE 1 ++ [2, 3, 4, 5, 6]) rfl rfl
    (by rw [hlen]) (by rw [List.length_append, hlen]; omega)
    (by rw [List.take_left' hlen, List.take_replicate, Nat.min_self])

theorem tolowerB_eq_59 (c : Nat) : tolowerB c = 59 ↔ c = 59 := by
  unfold tolowerB; split <;> omega

theorem tolowerB_eq_zero (c : Nat) : tolowerB c = 0 ↔ c = 0 := by
  unfold tolowerB; split <;> omega

theorem getD_append_lt (l₁ l₂ : Bytes) (n d : Nat) (h : n < l₁.length) :
    (l₁ ++ l₂).getD n d = l₁.getD n d := by
  simp [List.getD_eq_getElem?_getD, List.getElem?_append, h]

theorem cond_equiv (name : Bytes) (hn : ∀ c ∈ name, c ≠ 59 ∧ c ≠ 0) :
    ∀ tail : Bytes,
      ((tail.getD name.length 0 = 59 ∨ tail.getD name.length 0 = 0)
          ∧ strncaseEqB tail name = true)
        ↔ caseEqB name (tail.takeWhile (fun b => b != 59 && b != 0)) = true := by
  induction name with
  | nil =>
    intro tail
    cases tail with
    | nil => simp [strncaseEqB, caseEqB, List.takeWhile]
    | cons t ts =>
      simp only [List.length_nil, List.getD_cons_zero, strncaseEqB, List.takeWhile]
      by_cases ht : (t != 59 && t != 0) = true
      · rw [ht]
        have ht' := ht
        simp only [bne_iff_ne, ne_eq, Bool.and_eq_true] at ht'
        simp [caseEqB, ht'.1, ht'.2]
      · rw [Bool.not_eq_true] at ht
        rw [ht]
        simp only [Bool.and_eq_false_iff, bne_eq_false_iff_eq] at ht
        simp [caseEqB]
        tauto
  | cons n ns ih =>
    intro tail
    obtain ⟨hn59, hn0⟩ := hn n (List.mem_cons_self _ _)
    have hns : ∀ c ∈ ns, c ≠ 59 ∧ c ≠ 0 := fun c hc => hn c (List.mem_cons_of_mem _ hc)
    cases tail with
    | nil =>
      simp only [strncaseEqB, List.headD_nil, List.drop_nil, List.takeWhile, caseEqB]
      constructor
      · rintro ⟨-, h⟩
        exfalso
        have : tolowerB 0 = tolowerB n := by
          have := (Bool.and_eq_true _ _).mp h
          exact beq_iff_eq.mp this.1
        rw [show tolowerB 0 = 0 from rfl] at this
        exact hn0 ((tolowerB_eq_zero n).mp this.symm)
      · intro h; exact absurd h (by simp)
    | cons t ts =>
      simp only [List.length_cons, List.getD_cons_succ, strncaseEqB, List.headD_cons,
        List.drop_one, List.tail_cons, List.takeWhile]
      by_cases ht : (t != 59 && t != 0) = true
      · rw [ht]
        simp only [caseEqB, Bool.and_eq_true, beq_iff_eq]
        constructor
        · rintro ⟨hstop, hhead, hrest⟩
          exact ⟨hhead.symm, (ih hns ts).mp ⟨hstop, hrest⟩⟩
        · rintro ⟨hhead, hrest⟩
          obtain ⟨hstop, hr⟩ := (ih hns ts).mpr hrest
          exact ⟨hstop, hhead.symm, hr⟩
      · rw [Bool.not_eq_true] at ht
        rw [ht]
        simp only [Bool.and_eq_false_iff, bne_eq_false_iff_eq] at ht
        simp only [caseEqB, Bool.and_eq_true, beq_iff_eq]
        constructor
        · rintro ⟨-, hhead, -⟩
          exfalso
          rcases ht with h59 | h0
          · subst h59
            exact hn59 ((tolowerB_eq_59 n).mp (by simpa [tolowerB] using hhead.symm))
          · subst h0
            exact hn0 ((tolowerB_eq_zero n).mp (by simpa [tolowerB] using hhead.symm))
        · intro h; exact absurd h (by simp [caseEqB])

theorem findInDir_eq_spec (name dir : Bytes) (hn : ∀ c ∈ name, c ≠ 59 ∧ c ≠ 0) :
    ∀ fuel p, findInDir name dir fuel p = specFindInDir name dir fuel p := by
  intro fuel
  induction fuel with
  | zero => intro p; rfl
  | succ fuel ih =>
    intro p
    unfold findInDir specFindInDir
    by_cases hp : p ≥ 2048
    · simp [hp]
    · simp only [hp, if_false]
      by_cases hr : dir.getD p 0 = 0
      · rw [if_pos hr, if_pos hr]
      · rw [if_neg hr, if_neg hr]
        have hgd : (dir.drop (p + 33)).getD name.length 0
            = dir.getD (p + 33 + name.length) 0 := by
          simp [List.getD_eq_getElem?_getD, List.getElem?_drop]
        have hcond := cond_equiv name hn (dir.drop (p + 33))
        rw [hgd] at hcond
        by_cases hm : specMatchAt name dir p = true
        · rw [if_pos (hcond.mpr hm), if_pos hm]
        · rw [if_neg (fun hc => hm (hcond.mp hc)), if_neg hm]
          exact ih (p + dir.getD p 0)

theorem lastBackslash_none (name : Bytes) (h : ∀ c ∈ name, c ≠ 92) :
    lastBackslash name = none := by
  unfold lastBackslash
  rw [show name.reverse.findIdx? (fun c => c == 92) = none from by
    rw [List.findIdx?_eq_none_iff]
    intro x hx
    simpa using h x (List.mem_reverse.mp hx)]
  rfl

/-- General evaluation of `rc_cd_find_file_sector` on a leaf name: read
the PVD, follow the root-directory LBA at bytes 158..160, scan the
directory sector per the specification-level scan. -/
theorem find_file_sector_eval (env : HashEnv) (track f tsec : Nat) (name pvd dir : Bytes)
    (wantSize : Bool)
    (ht : track ≠ 0)
    (hn : ∀ c ∈ name, c ≠ 59 ∧ c ≠ 0 ∧ c ≠ 92)
    (hpvd : (rc_cd_read_sector env track 16 256).1 = pvd)
    (hpl : pvd.length = 256)
    (htr : (rc_cd_absolute_sector_to_track_sector env track (le24 pvd 158)).1 = tsec)
    (hdir : (rc_cd_read_sector env track tsec 2048).1 = dir)
    (hdl : dir.length = 2048) :
    (rc_cd_find_file_sector env track (f + 1) name wantSize).1
      = match specFindInDir name dir 2048 0 with
        | some p => (le24 dir (p + 2), if wantSize then some (le32 dir (p + 10)) else none)
        | none => (0, none) := by
  have hbs : lastBackslash name = none :=
    lastBackslash_none name (fun c hc => (hn c hc).2.2)
  have hb0 : updBuf (List.replicate 2048 0) pvd = pvd ++ List.replicate 1792 0 := by
    unfold updBuf
    rw [hpl, List.drop_replicate]
  have h158 : le24 (updBuf (List.replicate 2048 0) pvd) 158 = le24 pvd 158 := by
    rw [hb0]
    unfold le24
    rw [getD_append_lt _ _ _ _ (by omega), getD_append_lt _ _ _ _ (by omega),
        getD_append_lt _ _ _ _ (by omega)]
  have hbD : updBuf (updBuf (List.replicate 2048 0) pvd) dir = dir := by
    rw [hb0]
    unfold updBuf
    rw [hdl,
        List.drop_eq_nil_of_le (by rw [List.length_append, hpl, List.length_replicate]),
        List.append_nil]
  have hpvdP : rc_cd_read_sector env track 16 256
      = (pvd, (rc_cd_read_sector env track 16 256).2) := by rw [← hpvd]
  have htrP : rc_cd_absolute_sector_to_track_sector env track (le24 pvd 158)
      = (tsec, (rc_cd_absolute_sector_to_track_sector env track (le24 pvd 158)).2) := by
    rw [← htr]
  have hdirP : rc_cd_read_sector env track tsec 2048
      = (dir, (rc_cd_read_sector env track tsec 2048).2) := by rw [← hdir]
  conv_lhs => unfold rc_cd_find_file_sector
  rw [if_neg ht, hbs]
  dsimp only
  rw [hpvdP]
  dsimp only
  rw [if_neg (by rw [hpl]; norm_num), h158, htrP]
  dsimp only
  rw [hdirP]
  dsimp only
  rw [if_neg (by rw [hdl]; norm_num), hbD,
      findInDir_eq_spec name dir (fun c hc => ⟨(hn c hc).1, (hn c hc).2.1⟩)]
  cases hsp : specFindInDir name dir 2048 0 <;> rfl

/-- C4: the ISO-9660 locator reads the PVD at sector 16, takes the
little-endian root-directory LBA from bytes 158..160, reads one directory
sector there, and returns the matched record's extent (bytes 2..4,
untranslated) exactly when the given leaf name case-insensitively equals a
record's name trimmed at ';' or NUL, 0 on a miss or a zero record-length
byte. -/
theorem c4_iso_locator (env : HashEnv) (track f tsec : Nat) (name pvd dir : Bytes)
    (ht : track ≠ 0)
    (hn : ∀ c ∈ name, c ≠ 59 ∧ c ≠ 0 ∧ c ≠ 92)
    (hpvd : (rc_cd_read_sector env track 16 256).1 = pvd)
    (hpl : pvd.length = 256)
    (htr : (rc_cd_absolute_sector_to_track_sector env track (le24 pvd 158)).1 = tsec)
    (hdir : (rc_cd_read_sector env track tsec 2048).1 = dir)
    (hdl : dir.length = 2048) :
    (rc_cd_find_file_sector env track (f + 1) name false).1
      = match specFindInDir name dir 2048 0 with
        | some p => (le24 dir (p + 2), none)
        | none => (0, none) := by
  rw [find_file_sector_eval env track f tsec name pvd dir false ht hn hpvd hpl htr hdir hdl]
  cases hsp : specFindInDir name dir 2048 0 <;> rfl

theorem len_natFun2list (n : Nat) (f : Nat → Nat) : (natFun2list n f).length = n := by
  simp [natFun2list]

theorem getD_natFun2list (n : Nat) (f : Nat → Nat) (i d : Nat) (h : i < n) :
    (natFun2list n f).getD i d = f i := by
  simp [natFun2list, List.getD_eq_getElem?_getD, List.getElem?_map, List.getElem?_range, h]

theorem drop_range'_eq : ∀ (m s n : Nat), (List.range' s n).drop m = List.range' (s + m) (n - m) := by
  intro m
  induction m with
  | zero => intro s n; simp
  | succ m ih =>
    intro s n
    cases n with
    | zero => simp [List.range']
    | succ n =>
      rw [show List.range' s (n + 1) = s :: List.range' (s + 1) n from rfl,
          List.drop_succ_cons, ih]
      congr 1 <;> omega

theorem takeWhile_stop (p : Nat → Bool) (pre : Bytes) (x : Nat) (tail : Bytes)
    (hpre : ∀ c ∈ pre, p c = true) (hx : p x = false) :
    (pre ++ x :: tail).takeWhile p = pre := by
  induction pre with
  | nil => simp [List.takeWhile_cons, hx]
  | cons a as ih =>
    simp [List.takeWhile_cons, hpre a (List.mem_cons_self _ _),
      ih (fun c hc => hpre c (List.mem_cons_of_mem _ hc))]

/-- Witness for `c4_iso_locator` at a concrete one-record disc. -/
theorem c4_iso_locator_witness :
    (rc_cd_find_file_sector c4Env 1 1 (strB "A.BIN") false).1 = (77, none) := by
  have h50 : le24 (mkPVD 50) 158 = 50 := by
    unfold le24
    rw [show mkPVD 50 = natFun2list 256 (pvdByte 50) from rfl,
        getD_natFun2list _ _ _ _ (by norm_num), getD_natFun2list _ _ _ _ (by norm_num),
        getD_natFun2list _ _ _ _ (by norm_num)]
    decide
  have hpvd : (rc_cd_read_sector c4Env 1 16 256).1 = mkPVD 50 := by
    simp only [rc_cd_read_sector, c4Env]
    norm_num
    exact le_of_eq (len_natFun2list 256 _)
  have htr : (rc_cd_absolute_sector_to_track_sector c4Env 1 (le24 (mkPVD 50) 158)).1 = 50 := by
    rw [h50]
    simp only [rc_cd_absolute_sector_to_track_sector, c4Env]
  have hdir : (rc_cd_read_sector c4Env 1 50 2048).1 = mkDirSector (strB "A.BIN") 77 123 := by
    simp only [rc_cd_read_sector, c4Env]
    norm_num
    exact le_of_eq (len_natFun2list 2048 _)
  have h := c4_iso_locator c4Env 1 0 50 (strB "A.BIN") (mkPVD 50)
    (mkDirSector (strB "A.BIN") 77 123)
    (by decide) (by decide) hpvd (len_natFun2list 256 _) htr hdir (len_natFun2list 2048 _)
  rw [h]
  have hdrop : (mkDirSector (strB "A.BIN") 77 123).drop 33
      = (List.range' 33 2015).map (dirByte (strB "A.BIN") 77 123) := by
    rw [show mkDirSector (strB "A.BIN") 77 123
        = (List.range 2048).map (dirByte (strB "A.BIN") 77 123) from rfl]
    rw [← List.map_drop, List.range_eq_range', drop_range'_eq]
  have hmatch : specMatchAt (strB "A.BIN") (mkDirSector (strB "A.BIN") 77 123) 0 = true := by
    unfold specMatchAt trimNameAt
    rw [show (0 : Nat) + 33 = 33 from rfl, hdrop]
    rw [show List.range' 33 2015
        = 33 :: 34 :: 35 :: 36 :: 37 :: 38 :: List.range' 39 2009 from rfl]
    simp only [List.map_cons]
    rw [show dirByte (strB "A.BIN") 77 123 33 = 65 from by decide,
        show dirByte (strB "A.BIN") 77 123 34 = 46 from by decide,
        show dirByte (strB "A.BIN") 77 123 35 = 66 from by decide,
        show dirByte (strB "A.BIN") 77 123 36 = 73 from by decide,
        show dirByte (strB "A.BIN") 77 123 37 = 78 from by decide,
        show dirByte (strB "A.BIN") 77 123 38 = 59 from by decide]
    rw [show (65 : Nat) :: 46 :: 66 :: 73 :: 78 :: 59
          :: (List.range' 39 2009).map (dirByte (strB "A.BIN") 77 123)
        = [65, 46, 66, 73, 78]
          ++ 59 :: (List.range' 39 2009).map (dirByte (strB "A.BIN") 77 123) from rfl,
        takeWhile_stop _ _ _ _ (by decide) (by decide)]
    decide
  have hrl : (mkDirSector (strB "A.BIN") 77 123).getD 0 0 = 48 := by
    rw [show mkDirSector (strB "A.BIN") 77 123
        = natFun2list 2048 (dirByte (strB "A.BIN") 77 123) from rfl,
        getD_natFun2list _ _ _ _ (by norm_num)]
    decide
  have hfind : specFindInDir (strB "A.BIN") (mkDirSector (strB "A.BIN") 77 123) 2048 0
      = some 0 := by
    rw [show (2048 : Nat) = 2047 + 1 from rfl]
    conv_lhs => unfold specFindInDir
    rw [if_neg (by norm_num)]
    dsimp only
    rw [hrl, if_neg (by norm_num), if_pos hmatch]
  rw [hfind]
  dsimp only
  have hle : le24 (mkDirSector (strB "A.BIN") 77 123) 2 = 77 := by
    unfold le24
    rw [show mkDirSector (strB "A.BIN") 77 123
        = natFun2list 2048 (dirByte (strB "A.BIN") 77 123) from rfl,
        getD_natFun2list _ _ _ _ (by norm_num), getD_natFun2list _ _ _ _ (by norm_num),
        getD_natFun2list _ _ _ _ (by norm_num)]
    decide
  rw [show (0 : Nat) + 2 = 2 from rfl, hle]

theorem dirByte_val_0 (name : Bytes) (e s : Nat) : dirByte name e s 0 = 48 := by
  unfold dirByte; norm_num

theorem dirByte_val_2 (name : Bytes) (e s : Nat) : dirByte name e s 2 = e % 256 := by
  unfold dirByte; norm_num

theorem dirByte_val_3 (name : Bytes) (e s : Nat) : dirByte name e s 3 = e / 256 % 256 := by
  unfold dirByte; norm_num

theorem dirByte_val_4 (name : Bytes) (e s : Nat) : dirByte name e s 4 = e / 65536 % 256 := by
  unfold dirByte; norm_num

theorem dirByte_val_10 (name : Bytes) (e s : Nat) : dirByte name e s 10 = s % 256 := by
  unfold dirByte; norm_num

theorem dirByte_val_11 (name : Bytes) (e s : Nat) : dirByte name e s 11 = s / 256 % 256 := by
  unfold dirByte; norm_num

theorem dirByte_val_12 (name : Bytes) (e s : Nat) : dirByte name e s 12 = s / 65536 % 256 := by
  unfold dirByte; norm_num

theorem dirByte_val_13 (name : Bytes) (e s : Nat) :
    dirByte name e s 13 = s / 16777216 % 256 := by
  unfold dirByte; norm_num

theorem dirByte_val_name (name : Bytes) (e s j : Nat) (hj : j < name.length) :
    dirByte name e s (33 + j) = name.getD j 0 := by
  unfold dirByte
  have hne : ∀ k, k < 14 → ¬(33 + j = k) := fun k hk => by omega
  rw [if_neg (hne 0 (by norm_num)), if_neg (hne 2 (by norm_num)),
      if_neg (hne 3 (by norm_num)), if_neg (hne 4 (by norm_num)),
      if_neg (hne 10 (by norm_num)), if_neg (hne 11 (by norm_num)),
      if_neg (hne 12 (by norm_num)), if_neg (hne 13 (by norm_num)),
      if_pos (by omega), show 33 + j - 33 = j from by omega]

theorem dirByte_val_stop (name : Bytes) (e s : Nat) :
    dirByte name e s (33 + name.length) = 59 := by
  unfold dirByte
  have hne : ∀ k, k < 14 → ¬(33 + name.length = k) := fun k hk => by omega
  rw [if_neg (hne 0 (by norm_num)), if_neg (hne 2 (by norm_num)),
      if_neg (hne 3 (by norm_num)), if_neg (hne 4 (by norm_num)),
      if_neg (hne 10 (by norm_num)), if_neg (hne 11 (by norm_num)),
      if_neg (hne 12 (by norm_num)), if_neg (hne 13 (by norm_num)),
      if_neg (by omega), if_pos rfl]

theorem dirByte_val_48 (name : Bytes) (e s : Nat) (h : name.length ≤ 13) :
    dirByte name e s 48 = 0 := by
  unfold dirByte
  have hne : ∀ k, k < 14 → ¬(48 = k) := fun k hk => by omega
  rw [if_neg (hne 0 (by norm_num)), if_neg (hne 2 (by norm_num)),
      if_neg (hne 3 (by norm_num)), if_neg (hne 4 (by norm_num)),
      if_neg (hne 10 (by norm_num)), if_neg (hne 11 (by norm_num)),
      if_neg (hne 12 (by norm_num)), if_neg (hne 13 (by norm_num)),
      if_neg (by omega), if_neg (by omega), if_neg (by omega)]

theorem le24_mkDirSector (name : Bytes) (e s : Nat) (he : e < 16777216) :
    le24 (mkDirSector name e s) 2 = e := by
  unfold le24
  rw [show mkDirSector name e s = natFun2list 2048 (dirByte name e s) from rfl,
      getD_natFun2list _ _ _ _ (by norm_num), getD_natFun2list _ _ _ _ (by norm_num),
      getD_natFun2list _ _ _ _ (by norm_num),
      show (2 : Nat) + 1 = 3 from rfl, show (2 : Nat) + 2 = 4 from rfl,
      dirByte_val_2, dirByte_val_3, dirByte_val_4]
  omega

theorem le32_mkDirSector (name : Bytes) (e s : Nat) (hs : s < 4294967296) :
    le32 (mkDirSector name e s) 10 = s := by
  unfold le32
  rw [show mkDirSector name e s = natFun2list 2048 (dirByte name e s) from rfl,
      getD_natFun2list _ _ _ _ (by norm_num), getD_natFun2list _ _ _ _ (by norm_num),
      getD_natFun2list _ _ _ _ (by norm_num), getD_natFun2list _ _ _ _ (by norm_num),
      show (10 : Nat) + 1 = 11 from rfl, show (10 : Nat) + 2 = 12 from rfl,
      show (10 : Nat) + 3 = 13 from rfl,
      dirByte_val_10, dirByte_val_11, dirByte_val_12, dirByte_val_13]
  omega

theorem pvdByte_158 (r : Nat) : pvdByte r 158 = r % 256 := by
  unfold pvdByte; norm_num

theorem pvdByte_159 (r : Nat) : pvdByte r 159 = r / 256 % 256 := by
  unfold pvdByte; norm_num

theorem pvdByte_160 (r : Nat) : pvdByte r 160 = r / 65536 % 256 := by
  unfold pvdByte; norm_num

theorem le24_mkPVD (r : Nat) (hr : r < 16777216) : le24 (mkPVD r) 158 = r := by
  unfold le24
  rw [show mkPVD r = natFun2list 256 (pvdByte r) from rfl,
      getD_natFun2list _ _ _ _ (by norm_num), getD_natFun2list _ _ _ _ (by norm_num),
      getD_natFun2list _ _ _ _ (by norm_num),
      show (158 : Nat) + 1 = 159 from rfl, show (158 : Nat) + 2 = 160 from rfl,
      pvdByte_158, pvdByte_159, pvdByte_160]
  omega

theorem drop33_mkDirSector (name : Bytes) (e s : Nat) :
    (mkDirSector name e s).drop 33
      = (List.range' 33 2015).map (dirByte name e s) := by
  rw [show mkDirSector name e s = (List.range 2048).map (dirByte name e s) from rfl]
  rw [← List.map_drop, List.range_eq_range', drop_range'_eq]

theorem map_range'_pre : ∀ (pre : Bytes) (f : Nat → Nat) (st k : Nat),
    (∀ j, j < pre.length → f (st + j) = pre.getD j 0) →
    (List.range' st (pre.length + k)).map f
      = pre ++ (List.range' (st + pre.length) k).map f := by
  intro pre
  induction pre with
  | nil => intro f st k _; simp
  | cons a as ih =>
    intro f st k hf
    rw [show (a :: as).length + k = (as.length + k) + 1 from by simp; omega,
        show List.range' st (as.length + k + 1)
          = st :: List.range' (st + 1) (as.length + k) from rfl,
        List.map_cons]
    rw [show f st = a from by
      have := hf 0 (by simp)
      rwa [Nat.add_zero] at this]
    rw [ih f (st + 1) k (fun j hj => by
      have := hf (j + 1) (by simp; omega)
      rwa [show st + (j + 1) = st + 1 + j from by omega,
           List.getD_cons_succ] at this)]
    rw [show st + 1 + as.length = st + (a :: as).length from by simp; omega]
    rfl

theorem trimNameAt_mkDirSector (name : Bytes) (e s : Nat)
    (hlen : name.length ≤ 13) (hname : ∀ c ∈ name, c ≠ 59 ∧ c ≠ 0) :
    trimNameAt (mkDirSector name e s) 0 = name := by
  unfold trimNameAt
  rw [show (0 : Nat) + 33 = 33 from rfl, drop33_mkDirSector,
      show (2015 : Nat) = name.length + (2015 - name.length) from by omega,
      map_range'_pre name (dirByte name e s) 33 _
        (fun j hj => dirByte_val_name name e s j hj),
      show (2015 - name.length) = (2014 - name.length) + 1 from by omega,
      show List.range' (33 + name.length) ((2014 - name.length) + 1)
        = (33 + name.length) :: List.range' (33 + name.length + 1) (2014 - name.length)
        from rfl,
      List.map_cons, dirByte_val_stop]
  exact takeWhile_stop _ _ _ _
    (fun c hc => by
      have := hname c hc
      simp [this.1, this.2])
    (by decide)

theorem getD0_mkDirSector (name : Bytes) (e s : Nat) :
    (mkDirSector name e s).getD 0 0 = 48 := by
  rw [show mkDirSector name e s = natFun2list 2048 (dirByte name e s) from rfl,
      getD_natFun2list _ _ _ _ (by norm_num), dirByte_val_0]

theorem getD48_mkDirSector (name : Bytes) (e s : Nat) (hlen : name.length ≤ 13) :
    (mkDirSector name e s).getD 48 0 = 0 := by
  rw [show mkDirSector name e s = natFun2list 2048 (dirByte name e s) from rfl,
      getD_natFun2list _ _ _ _ (by norm_num), dirByte_val_48 name e s hlen]

theorem specFindInDir_mkDirSector (q name : Bytes) (e s : Nat)
    (hlen : name.length ≤ 13) (hname : ∀ c ∈ name, c ≠ 59 ∧ c ≠ 0) :
    specFindInDir q (mkDirSector name e s) 2048 0
      = if caseEqB q name = true then some 0 else none := by
  have hm : specMatchAt q (mkDirSector name e s) 0 = caseEqB q name := by
    unfold specMatchAt; rw [trimNameAt_mkDirSector name e s hlen hname]
  rw [show (2048 : Nat) = 2047 + 1 from rfl]
  conv_lhs => unfold specFindInDir
  rw [if_neg (by norm_num)]
  dsimp only
  rw [getD0_mkDirSector, if_neg (by norm_num)]
  by_cases hq : caseEqB q name = true
  · rw [if_pos (by rw [hm]; exact hq), if_pos hq]
  · rw [if_neg (by rw [hm]; exact hq ∘ id), if_neg hq]
    rw [show (0 : Nat) + 48 = 48 from rfl, show (2047 : Nat) = 2046 + 1 from rfl]
    conv_lhs => unfold specFindInDir
    rw [if_neg (by norm_num)]
    dsimp only
    rw [getD48_mkDirSector name e s hlen, if_pos rfl]

theorem cd_file_loop_len (env : HashEnv) (track : Nat) (b : Bytes) (hb : b.length = 2048)
    (hread : ∀ sec req, 100 ≤ sec → (rc_cd_read_sector env track sec req).1 = b.take req) :
    ∀ fuel size sector md5, 1 ≤ size → size < fuel → size < 4294967296 → 100 ≤ sector →
      ∃ rest, (rc_hash_cd_file_loop env track fuel md5 sector size
          (b.take (min size 2048))).1 = some (md5 ++ rest) ∧ rest.length = size := by
  intro fuel
  induction fuel with
  | zero => intro size sector md5 h1 h2 _ _; exact absurd h2 (by omega)
  | succ fuel ih =>
    intro size sector md5 h1 h2 h32 hsec
    by_cases hs : size ≤ 2048
    · refine ⟨b.take size, ?_, by rw [List.length_take, hb]; omega⟩
      have hmin : min size 2048 = size := by omega
      conv_lhs => unfold rc_hash_cd_file_loop
      rw [hmin]
      dsimp only
      rw [show (size + 4294967296 - (b.take size).length) % 4294967296 = 0 from by
            rw [List.length_take, hb]; omega,
          if_pos rfl]
      rfl
    · push_neg at hs
      obtain ⟨rest', hres', hlen'⟩ := ih (size - 2048) (sector + 1)
        (md5_append md5 (b.take 2048)) (by omega) (by omega) (by omega) (by omega)
      refine ⟨b.take 2048 ++ rest', ?_,
        by rw [List.length_append, List.length_take, hb]; omega⟩
      have hr1 : (rc_cd_read_sector env track (sector + 1) (min (size - 2048) 2048)).1
          = b.take (min (size - 2048) 2048) := hread (sector + 1) _ (by omega)
      have hr : rc_cd_read_sector env track (sector + 1) (min (size - 2048) 2048)
          = (b.take (min (size - 2048) 2048),
             (rc_cd_read_sector env track (sector + 1) (min (size - 2048) 2048)).2) := by
        rw [← hr1]
      have hloop : rc_hash_cd_file_loop env track fuel (md5_append md5 (b.take 2048))
          (sector + 1) (size - 2048) (b.take (min (size - 2048) 2048))
          = (some (md5_append md5 (b.take 2048) ++ rest'),
             (rc_hash_cd_file_loop env track fuel (md5_append md5 (b.take 2048))
               (sector + 1) (size - 2048) (b.take (min (size - 2048) 2048))).2) := by
        rw [← hres']
      have hmin : min size 2048 = 2048 := by omega
      conv_lhs => unfold rc_hash_cd_file_loop
      rw [hmin]
      dsimp only
      rw [show (size + 4294967296 - (b.take 2048).length) % 4294967296 = size - 2048 from by
            rw [List.length_take, hb]; omega,
          if_neg (by omega)]
      rw [show (if size - 2048 ≥ 2048
            then rc_cd_read_sector env track (sector + 1) 2048
            else rc_cd_read_sector env track (sector + 1) (size - 2048))
          = rc_cd_read_sector env track (sector + 1) (min (size - 2048) 2048) from by
        split
        · rw [show min (size - 2048) 2048 = 2048 from by omega]
        · rw [show min (size - 2048) 2048 = size - 2048 from by omega]]
      rw [hr]
      dsimp only
      rw [if_pos (by rw [List.length_take, hb]; omega)]
      rw [hloop]
      dsimp only
      simp [md5_append, List.append_assoc]

theorem cd_file_full (env : HashEnv) (track : Nat) (b : Bytes) (hb : b.length = 2048)
    (hread : ∀ sec req, 100 ≤ sec → (rc_cd_read_sector env track sec req).1 = b.take req)
    (md5 : Bytes) (size : Nat) (h1 : 2048 ≤ size) (h2 : size ≤ MAX_BUFFER_SIZE) :
    ∃ rest, (rc_hash_cd_file env md5 track 100 none size "primary executable").1
        = some (1, md5 ++ rest) ∧ rest.length = size := by
  have h2' : size ≤ 67108864 := by
    have := h2
    rw [show MAX_BUFFER_SIZE = 67108864 from rfl] at this
    exact this
  obtain ⟨rest, hres, hlen⟩ := cd_file_loop_len env track b hb hread (size + 2) size 100 md5
    (by omega) (by omega) (by omega) (by omega)
  rw [show min size 2048 = 2048 from by omega, List.take_of_length_le (le_of_eq hb)] at hres
  refine ⟨rest, ?_, hlen⟩
  have hr1 : (rc_cd_read_sector env track 100 2048).1 = b := by
    rw [hread 100 2048 (by omega)]
    exact List.take_of_length_le (le_of_eq hb)
  have hr0 : rc_cd_read_sector env track 100 2048
      = (b, (rc_cd_read_sector env track 100 2048).2) := by rw [← hr1]
  have hloop : rc_hash_cd_file_loop env track (size + 2) md5 100 size b
      = (some (md5 ++ rest),
         (rc_hash_cd_file_loop env track (size + 2) md5 100 size b).2) := by
    rw [← hres]
  unfold rc_hash_cd_file
  rw [hr0]
  dsimp only
  rw [if_neg (by rw [hb]; omega),
      show (if size > MAX_BUFFER_SIZE then MAX_BUFFER_SIZE else size) = size from by
        split <;> omega,
      hloop]

theorem getD_take (l : Bytes) (n i d : Nat) (h : i < n) :
    (l.take n).getD i d = l.getD i d := by
  simp [List.getD_eq_getElem?_getD, List.getElem?_take, h]

theorem le32_take32 (b : Bytes) : le32 (b.take 32) 28 = le32 b 28 := by
  unfold le32
  rw [getD_take _ _ _ _ (by norm_num), getD_take _ _ _ _ (by norm_num),
      getD_take _ _ _ _ (by norm_num), getD_take _ _ _ _ (by norm_num)]

theorem pair_eta_fst {α β : Type} (x : α × β) (a : α) (h : x.1 = a) : x = (a, x.2) :=
  Prod.ext h rfl

theorem psx_read_eval (dg : Bytes → Bytes) (b : Bytes) (extSize : Nat) :
    ∀ sec req, 100 ≤ sec →
      (rc_cd_read_sector (psxEnv dg b extSize) 1 sec req).1 = b.take req := by
  intro sec req hsec
  simp only [rc_cd_read_sector, psxEnv, psxDisc]
  rw [if_pos trivial, if_neg (show ¬sec = 16 from by omega),
      if_neg (show ¬sec = 50 from by omega), if_pos hsec]

theorem psx_flow (dg : Bytes → Bytes) (b : Bytes) (extSize szUsed : Nat)
    (hb : b.length = 2048)
    (hdef : szUsed = if b.take 7 = strB "PS-X EX"
        then (le32 b 28 + 2048) % 4294967296 else extSize)
    (hlo : 2048 ≤ szUsed) (hhi : szUsed ≤ MAX_BUFFER_SIZE)
    (hext : extSize < 4294967296) :
    ∃ (rest : Bytes) (eff : Eff),
      rc_hash_psx (psxEnv dg b extSize) "game" = (some 1, eff)
      ∧ eff.wrote = some (hexRender (dg (strB "PSX.EXE" ++ rest)))
      ∧ rest.length = szUsed := by
  obtain ⟨rest, hcd, hlen⟩ := cd_file_full (psxEnv dg b extSize) 1 b hb
    (psx_read_eval dg b extSize) (strB "PSX.EXE") szUsed hlo hhi
  have hopen1 : (rc_cd_open_track (psxEnv dg b extSize) "game" 1).1 = 1 := by
    simp [rc_cd_open_track, psxEnv]
  have hopen : rc_cd_open_track (psxEnv dg b extSize) "game" 1
      = (1, (rc_cd_open_track (psxEnv dg b extSize) "game" 1).2) :=
    pair_eta_fst _ _ hopen1
  have hpvd1 : (rc_cd_read_sector (psxEnv dg b extSize) 1 16 256).1 = mkPVD 50 := by
    simp only [rc_cd_read_sector, psxEnv, psxDisc]
    rw [if_pos trivial, if_pos trivial]
    exact List.take_of_length_le (le_of_eq (len_natFun2list 256 _))
  have htr1 : (rc_cd_absolute_sector_to_track_sector (psxEnv dg b extSize) 1
      (le24 (mkPVD 50) 158)).1 = 50 := by
    rw [le24_mkPVD 50 (by norm_num)]
    simp [rc_cd_absolute_sector_to_track_sector, psxEnv]
  have hdir1 : (rc_cd_read_sector (psxEnv dg b extSize) 1 50 2048).1
      = mkDirSector (strB "PSX.EXE") 100 extSize := by
    simp only [rc_cd_read_sector, psxEnv, psxDisc]
    rw [if_pos trivial, if_neg (show ¬(50 : Nat) = 16 from by omega), if_pos trivial]
    exact List.take_of_length_le (le_of_eq (len_natFun2list 2048 _))
  have hfindS : (rc_cd_find_file_sector (psxEnv dg b extSize) 1 16
      (strB "SYSTEM.CNF") false).1 = (0, none) := by
    rw [show (16 : Nat) = 15 + 1 from rfl]
    rw [find_file_sector_eval (psxEnv dg b extSize) 1 15 50 (strB "SYSTEM.CNF")
      (mkPVD 50) (mkDirSector (strB "PSX.EXE") 100 extSize) false (by norm_num)
      (by decide) hpvd1 (len_natFun2list 256 _) htr1 hdir1 (len_natFun2list 2048 _)]
    rw [specFindInDir_mkDirSector _ _ _ _ (by decide) (by decide), if_neg (by decide)]
  have hfindP : (rc_cd_find_file_sector (psxEnv dg b extSize) 1 16
      (strB "PSX.EXE") true).1 = (100, some extSize) := by
    rw [show (16 : Nat) = 15 + 1 from rfl]
    rw [find_file_sector_eval (psxEnv dg b extSize) 1 15 50 (strB "PSX.EXE")
      (mkPVD 50) (mkDirSector (strB "PSX.EXE") 100 extSize) true (by norm_num)
      (by decide) hpvd1 (len_natFun2list 256 _) htr1 hdir1 (len_natFun2list 2048 _)]
    rw [specFindInDir_mkDirSector _ _ _ _ (by decide) (by decide), if_pos (by decide)]
    dsimp only
    rw [show (0 : Nat) + 2 = 2 from rfl, show (0 : Nat) + 10 = 10 from rfl,
        le24_mkDirSector _ _ _ (by norm_num), le32_mkDirSector _ _ _ hext]
    rfl
  have hSpair : rc_cd_find_file_sector (psxEnv dg b extSize) 1 16 (strB "SYSTEM.CNF") false
      = ((0, none), (rc_cd_find_file_sector (psxEnv dg b extSize) 1 16
          (strB "SYSTEM.CNF") false).2) := pair_eta_fst _ _ hfindS
  have hPpair : rc_cd_find_file_sector (psxEnv dg b extSize) 1 16 (strB "PSX.EXE") true
      = ((100, some extSize), (rc_cd_find_file_sector (psxEnv dg b extSize) 1 16
          (strB "PSX.EXE") true).2) := pair_eta_fst _ _ hfindP
  have hfpe : (rc_hash_find_playstation_executable (psxEnv dg b extSize) 1
      (strB "BOOT") (strB "cdrom:") 64).1 = (0, [], none) := by
    unfold rc_hash_find_playstation_executable
    rw [hSpair]
    dsimp only
    rw [if_pos rfl]
  have hfpeP : rc_hash_find_playstation_executable (psxEnv dg b extSize) 1
      (strB "BOOT") (strB "cdrom:") 64
      = ((0, [], none), (rc_hash_find_playstation_executable (psxEnv dg b extSize) 1
          (strB "BOOT") (strB "cdrom:") 64).2) := pair_eta_fst _ _ hfpe
  have hb32 : (rc_cd_read_sector (psxEnv dg b extSize) 1 100 32).1 = b.take 32 :=
    psx_read_eval dg b extSize 100 32 (by omega)
  have hb32P : rc_cd_read_sector (psxEnv dg b extSize) 1 100 32
      = (b.take 32, (rc_cd_read_sector (psxEnv dg b extSize) 1 100 32).2) :=
    pair_eta_fst _ _ hb32
  have hbuf : updBuf (List.replicate 32 0) (b.take 32) = b.take 32 := by
    unfold updBuf
    rw [List.length_take, hb, show min 32 2048 = 32 from rfl, List.drop_replicate,
        show 32 - 32 = 0 from rfl, List.replicate_zero, List.append_nil]
  have hcdP : rc_hash_cd_file (psxEnv dg b extSize) (strB "PSX.EXE") 1 100 none szUsed
      "primary executable"
      = (some (1, strB "PSX.EXE" ++ rest),
         (rc_hash_cd_file (psxEnv dg b extSize) (strB "PSX.EXE") 1 100 none szUsed
           "primary executable").2) := pair_eta_fst _ _ hcd
  refine ⟨rest, ?_⟩
  unfold rc_hash_psx
  rw [hopen]
  dsimp only
  rw [if_neg (by norm_num)]
  rw [hfpeP]
  dsimp only
  rw [if_pos (show (0 : Nat) = 0 from rfl)]
  rw [hPpair]
  dsimp only
  rw [if_neg (show ¬(100 : Nat) = 0 from by norm_num)]
  rw [hb32]
  rw [if_neg (show ¬(b.take 32).length < 32 from by rw [List.length_take, hb]; norm_num)]
  rw [hbuf, List.take_take, show min 7 32 = 7 from rfl, le32_take32,
      if_pos (show (100 : Nat) ≠ 0 from by norm_num)]
  rw [show (if (some extSize).isSome = true then some extSize else none).getD 0
      = extSize from rfl]
  rw [← hdef]
  rw [show md5_append md5_init (strB "PSX.EXE") = strB "PSX.EXE" from by
    simp [md5_append, md5_init]]
  rw [hcd]
  dsimp only [rc_hash_finalize]
  refine ⟨_, rfl, ?_, hlen⟩
  rw [seq_wrote_none _ _ (by simp [rc_cd_close_track, psxEnv, Eff.one]),
      seq_wrote_some _ _ _ rfl]
  rfl

theorem take_natFun2list (n m : Nat) (f : Nat → Nat) (h : m ≤ n) :
    (natFun2list n f).take m = natFun2list m f := by
  unfold natFun2list
  rw [← List.map_take, List.take_range, show min m n = m from by omega]

/-- C3 (amended): in the PSX recipe, after locating the primary
executable, the code compares only the first SEVEN bytes of the first
sector against "PS-X EXE" (`memcmp(buffer, "PS-X EXE", 7)`); when they
match ("PS-X EX"), the number of bytes streamed into the digest is the
32-bit little-endian value at offset 28 plus 2048 (reduced mod 2^32),
otherwise the ISO-reported extent size; the digest is seeded with the
executable name before the executable bytes. -/
theorem c3_psx_exec_size (dg : Bytes → Bytes) (b : Bytes) (extSize szUsed : Nat)
    (hb : b.length = 2048)
    (hdef : szUsed = if b.take 7 = strB "PS-X EX"
        then (le32 b 28 + 2048) % 4294967296 else extSize)
    (hlo : 2048 ≤ szUsed) (hhi : szUsed ≤ MAX_BUFFER_SIZE)
    (hext : extSize < 4294967296) :
    ∃ (rest : Bytes) (eff : Eff),
      rc_hash_psx (psxEnv dg b extSize) "game" = (some 1, eff)
      ∧ eff.wrote = some (hexRender (dg (strB "PSX.EXE" ++ rest)))
      ∧ rest.length = szUsed :=
  psx_flow dg b extSize szUsed hb hdef hlo hhi hext

/-- C3 counterexample to the original 8-byte reading: on a disc whose
executable's first 8 bytes are "PS-X EXF" (so not "PS-X EXE") with header
size field 2048 and ISO extent size 2048, the code still takes the header
branch (it compares only 7 bytes) and hashes 4096 bytes, not the
extent size. -/
theorem c3_psx_marker_cex :
    psxCexSector.take 8 ≠ strB "PS-X EXE"
    ∧ ∃ (rest : Bytes) (eff : Eff),
        rc_hash_psx (psxEnv lenDigest psxCexSector 2048) "game" = (some 1, eff)
        ∧ eff.wrote = some (hexRender (lenDigest (strB "PSX.EXE" ++ rest)))
        ∧ rest.length = 4096 ∧ rest.length ≠ 2048 := by
  constructor
  · rw [show psxCexSector.take 8
        = natFun2list 8 (fun i =>
            if i < 8 then (strB "PS-X EXF").getD i 0
            else if i = 29 then 8
            else if 28 ≤ i ∧ i ≤ 31 then 0
            else 7)
      from take_natFun2list 2048 8 _ (by norm_num)]
    decide
  · obtain ⟨rest, eff, h1, h2, hlen⟩ :=
      psx_flow lenDigest psxCexSector 2048 4096 (len_natFun2list 2048 _)
        (by
          rw [show psxCexSector.take 7
              = natFun2list 7 (fun i =>
                  if i < 8 then (strB "PS-X EXF").getD i 0
                  else if i = 29 then 8
                  else if 28 ≤ i ∧ i ≤ 31 then 0
                  else 7)
            from take_natFun2list 2048 7 _ (by norm_num)]
          rw [if_pos (by decide)]
          rw [show le32 psxCexSector 28 = 2048 from by
            unfold le32
            rw [show psxCexSector = natFun2list 2048 (fun i =>
                  if i < 8 then (strB "PS-X EXF").getD i 0
                  else if i = 29 then 8
                  else if 28 ≤ i ∧ i ≤ 31 then 0
                  else 7) from rfl,
                getD_natFun2list _ _ _ _ (by norm_num),
                getD_natFun2list _ _ _ _ (by norm_num),
                getD_natFun2list _ _ _ _ (by norm_num),
                getD_natFun2list _ _ _ _ (by norm_num)]
            norm_num])
        (by norm_num)
        (by rw [show MAX_BUFFER_SIZE = 67108864 from rfl]; norm_num)
        (by norm_num)
    exact ⟨rest, eff, h1, h2, hlen, by omega⟩

/-- Witness for `c3_psx_exec_size` on a disc whose executable carries the
full "PS-X EXE" marker and a header size field of 2048. -/
theorem c3_psx_exec_size_witness :
    ∃ (rest : Bytes) (eff : Eff),
      rc_hash_psx (psxEnv lenDigest psxOkSector 2048) "game" = (some 1, eff)
      ∧ eff.wrote = some (hexRender (lenDigest (strB "PSX.EXE" ++ rest)))
      ∧ rest.length = 4096 :=
  c3_psx_exec_size lenDigest psxOkSector 2048 4096 (len_natFun2list 2048 _)
    (by
      rw [show psxOkSector.take 7
          = natFun2list 7 (fun i =>
              if i < 8 then (strB "PS-X EXE").getD i 0
              else if i = 29 then 8
              else if 28 ≤ i ∧ i ≤ 31 then 0
              else 3)
        from take_natFun2list 2048 7 _ (by norm_num)]
      rw [if_pos (by decide)]
      rw [show le32 psxOkSector 28 = 2048 from by
        unfold le32
        rw [show psxOkSector = natFun2list 2048 (fun i =>
              if i < 8 then (strB "PS-X EXE").getD i 0
              else if i = 29 then 8
              else if 28 ≤ i ∧ i ≤ 31 then 0
              else 3) from rfl,
            getD_natFun2list _ _ _ _ (by norm_num),
            getD_natFun2list _ _ _ _ (by norm_num),
            getD_natFun2list _ _ _ _ (by norm_num),
            getD_natFun2list _ _ _ _ (by norm_num)]
        norm_num])
    (by norm_num)
    (by rw [show MAX_BUFFER_SIZE = 67108864 from rfl]; norm_num)
    (by norm_num)

theorem dropWhile_all (p : Nat → Bool) : ∀ (l : Bytes), (∀ c ∈ l, p c = true) →
    l.dropWhile p = [] := by
  intro l h
  induction l with
  | nil => rfl
  | cons a as ih =>
    rw [List.dropWhile_cons, if_pos (h a (List.mem_cons_self _ _))]
    exact ih (fun c hc => h c (List.mem_cons_of_mem _ hc))

theorem takeWhile_all (p : Nat → Bool) : ∀ (l : Bytes), (∀ c ∈ l, p c = true) →
    l.takeWhile p = l := by
  intro l h
  induction l with
  | nil => rfl
  | cons a as ih =>
    rw [List.takeWhile_cons, if_pos (h a (List.mem_cons_self _ _))]
    rw [ih (fun c hc => h c (List.mem_cons_of_mem _ hc))]

theorem rtrimB_all_space (l : Bytes) (h : ∀ c ∈ l, isSpaceB c = true) : rtrimB l = [] := by
  unfold rtrimB
  rw [dropWhile_all _ _ (fun c hc => h c (List.mem_reverse.mp hc))]
  rfl

theorem dropWhile_len (p : Nat → Bool) (l : Bytes) : (l.dropWhile p).length ≤ l.length := by
  induction l with
  | nil => simp
  | cons a as ih =>
    rw [List.dropWhile_cons]
    split
    · exact le_trans ih (by simp)
    · exact le_refl _

theorem skip_len : ∀ (f : Nat) (l : Bytes), (playlistSkip f l).length ≤ l.length := by
  intro f
  induction f with
  | zero => intro l; exact le_refl _
  | succ f ih =>
    intro l
    cases l with
    | nil => exact le_refl _
    | cons c tl =>
      unfold playlistSkip
      dsimp only
      by_cases hc : c = 35 ∨ c = 13 ∨ c = 10
      · rw [if_pos hc]
        cases hrest : (c :: tl).dropWhile (fun c2 => c2 != 10) with
        | nil => simp
        | cons r tl2 =>
          have h1 : (r :: tl2).length ≤ (c :: tl).length := by
            rw [← hrest]; exact dropWhile_len _ _
          calc (playlistSkip f tl2).length ≤ tl2.length := ih tl2
            _ ≤ (c :: tl).length := by simp at h1 ⊢; omega
      · rw [if_neg hc]

theorem skip_mono : ∀ (f : Nat) (l : Bytes) (g : Nat), l.length < f → l.length < g →
    playlistSkip f l = playlistSkip g l := by
  intro f
  induction f with
  | zero => intro l g hf _; exact absurd hf (by omega)
  | succ f ih =>
    intro l g hf hg
    cases g with
    | zero => exact absurd hg (by omega)
    | succ g =>
      cases l with
      | nil => rfl
      | cons c tl =>
        unfold playlistSkip
        dsimp only
        by_cases hc : c = 35 ∨ c = 13 ∨ c = 10
        · rw [if_pos hc, if_pos hc]
          cases hrest : (c :: tl).dropWhile (fun c2 => c2 != 10) with
          | nil => rfl
          | cons r tl2 =>
            dsimp only
            have h1 : (r :: tl2).length ≤ (c :: tl).length := by
              rw [← hrest]; exact dropWhile_len _ _
            simp only [List.length_cons] at h1 hf hg
            exact ih tl2 g (by omega) (by omega)
        · rw [if_neg hc, if_neg hc]

theorem spec_mono : ∀ (f : Nat) (l : Bytes) (g : Nat), l.length < f → l.length < g →
    specFirstItem f l = specFirstItem g l := by
  intro f
  induction f with
  | zero => intro l g hf _; exact absurd hf (by omega)
  | succ f ih =>
    intro l g hf hg
    cases g with
    | zero => exact absurd hg (by omega)
    | succ g =>
      unfold specFirstItem
      dsimp only
      by_cases hb : (l.takeWhile (fun c => c != 10)).headD 0 = 35
          ∨ (rtrimB (l.takeWhile (fun c => c != 10))).length = 0
      · rw [if_pos hb, if_pos hb]
        by_cases hend : l.length ≤ (l.takeWhile (fun c => c != 10)).length
        · rw [if_pos hend, if_pos hend]
        · rw [if_neg hend, if_neg hend]
          exact ih _ g (by rw [List.length_drop]; omega) (by rw [List.length_drop]; omega)
      · rw [if_neg hb, if_neg hb]

theorem first_mono : ∀ (f : Nat) (l : Bytes) (g : Nat), l.length < f → l.length < g →
    playlistFirstLine f l = playlistFirstLine g l := by
  intro f
  induction f with
  | zero => intro l g hf _; exact absurd hf (by omega)
  | succ f ih =>
    intro l g hf hg
    cases g with
    | zero => exact absurd hg (by omega)
    | succ g =>
      unfold playlistFirstLine
      dsimp only
      by_cases htok :
        ((((playlistSkip (l.length + 1) l).takeWhile (fun c => c != 10)).reverse.dropWhile
          (fun c => isSpaceB c)).reverse).length ≠ 0
      · rw [if_pos htok, if_pos htok]
      · rw [if_neg htok, if_neg htok]
        cases hnext : (playlistSkip (l.length + 1) l).drop
            ((playlistSkip (l.length + 1) l).takeWhile (fun c => c != 10)).length with
        | nil => rfl
        | cons x tl2 =>
          dsimp only
          have h1 : (x :: tl2).length ≤ (playlistSkip (l.length + 1) l).length := by
            rw [← hnext, List.length_drop]; omega
          have h2 := skip_len (l.length + 1) l
          simp only [List.length_cons] at h1
          exact ih tl2 g (by omega) (by omega)

theorem line_all_CR (l : Bytes) (hcr : CRok l) (hhead : l.getD 0 0 = 13) :
    ∀ c ∈ l.takeWhile (fun c => c != 10), c = 13 := by
  obtain ⟨t, ht⟩ := List.takeWhile_prefix (l := l) (fun c => c != 10)
  have hgd : ∀ i, i < (l.takeWhile (fun c => c != 10)).length →
      (l.takeWhile (fun c => c != 10)).getD i 0 = l.getD i 0 := by
    intro i hi
    conv_rhs => rw [← ht]
    rw [getD_append_lt _ _ _ _ hi]
  have htwlen : (l.takeWhile (fun c => c != 10)).length ≤ l.length :=
    (List.takeWhile_prefix _).length_le
  have haux : ∀ i, i < (l.takeWhile (fun c => c != 10)).length → l.getD i 0 = 13 := by
    intro i
    induction i with
    | zero => intro _; exact hhead
    | succ i ih =>
      intro hi
      rcases hcr i (ih (by omega)) with h13 | h10 | hend
      · exact h13
      · exfalso
        have hmem : (l.takeWhile (fun c => c != 10)).getD (i + 1) 0
            ∈ l.takeWhile (fun c => c != 10) := by
          rw [List.getD_eq_getElem _ 0 hi]
          exact List.getElem_mem hi
        have hp := List.mem_takeWhile_imp hmem
        rw [hgd (i + 1) hi, h10] at hp
        simp at hp
      · omega
  intro c hc
  obtain ⟨i, hi, hci⟩ := List.mem_iff_getElem.mp hc
  rw [← hci, ← List.getD_eq_getElem _ 0 hi, hgd i hi]
  exact haux i hi

theorem CRok_drop (l : Bytes) (k : Nat) (h : CRok l) : CRok (l.drop k) := by
  intro i hi
  have hg : ∀ j, (l.drop k).getD j 0 = l.getD (k + j) 0 := fun j => by
    simp [List.getD_eq_getElem?_getD, List.getElem?_drop]
  rw [hg] at hi
  rcases h (k + i) hi with h1 | h1 | h1
  · left
    rw [hg, show k + (i + 1) = k + i + 1 from by omega]
    exact h1
  · right; left
    rw [hg, show k + (i + 1) = k + i + 1 from by omega]
    exact h1
  · right; right
    rw [List.length_drop]
    omega

theorem dropWhile_eq_drop (p : Nat → Bool) (l : Bytes) :
    l.dropWhile p = l.drop (l.takeWhile p).length := by
  induction l with
  | nil => rfl
  | cons a as ih =>
    rw [List.dropWhile_cons, List.takeWhile_cons]
    by_cases hp : p a = true
    · rw [if_pos hp, if_pos hp, List.length_cons, ih]
      rfl
    · rw [if_neg hp, if_neg hp]
      rfl

theorem firstLine_eq_spec : ∀ (n : Nat) (l : Bytes), l.length ≤ n → CRok l →
    playlistFirstLine (l.length + 1) l = specFirstItem (l.length + 1) l := by
  intro n
  induction n with
  | zero =>
    intro l h _
    have h0 : l = [] := List.length_eq_zero.mp (by omega)
    subst h0
    rfl
  | succ n ih =>
    intro l hlen hcr
    cases l with
    | nil => rfl
    | cons c tl =>
      by_cases hc : c = 35 ∨ c = 13 ∨ c = 10
      · -- the C skip loop and the spec line conditions both discard this line
        have hspec_cond : ((c :: tl).takeWhile (fun c2 => c2 != 10)).headD 0 = 35
            ∨ (rtrimB ((c :: tl).takeWhile (fun c2 => c2 != 10))).length = 0 := by
          rcases hc with h35 | h13 | h10
          · left
            subst h35
            rw [List.takeWhile_cons, if_pos (by norm_num)]
            rfl
          · right
            subst h13
            rw [rtrimB_all_space _ (fun x hx => by
              rw [line_all_CR (13 :: tl) hcr (by rfl) x hx]
              decide)]
            rfl
          · right
            subst h10
            rw [List.takeWhile_cons, if_neg (by norm_num)]
            rfl
        have skipEq : playlistSkip ((c :: tl).length + 1) (c :: tl)
            = match (c :: tl).dropWhile (fun c2 => c2 != 10) with
              | [] => []
              | _ :: tl2 => playlistSkip ((c :: tl).length) tl2 := by
          conv_lhs => unfold playlistSkip
          dsimp only
          rw [if_pos hc]
        cases hrest : (c :: tl).dropWhile (fun c2 => c2 != 10) with
        | nil =>
          have hsplit : (c :: tl).takeWhile (fun c2 => c2 != 10) = c :: tl := by
            conv_rhs => rw [← List.takeWhile_append_dropWhile (fun c2 => c2 != 10) (c :: tl)]
            rw [hrest, List.append_nil]
          have skipNil : playlistSkip ((c :: tl).length + 1) (c :: tl) = [] := by
            rw [skipEq, hrest]
          conv_rhs => unfold specFirstItem
          dsimp only
          rw [if_pos hspec_cond, if_pos (by rw [hsplit])]
          conv_lhs => unfold playlistFirstLine
          dsimp only
          rw [skipNil]
          simp
        | cons r tl2 =>
          have hsplit : (c :: tl).takeWhile (fun c2 => c2 != 10) ++ r :: tl2 = c :: tl := by
            conv_rhs => rw [← List.takeWhile_append_dropWhile (fun c2 => c2 != 10) (c :: tl)]
            rw [hrest]
          have hlensplit : (c :: tl).length
              = ((c :: tl).takeWhile (fun c2 => c2 != 10)).length + tl2.length + 1 := by
            conv_lhs => rw [← hsplit]
            rw [List.length_append, List.length_cons]
            omega
          have skipEq2 : playlistSkip ((c :: tl).length + 1) (c :: tl)
              = playlistSkip (tl2.length + 1) tl2 := by
            rw [skipEq, hrest]
            exact skip_mono _ tl2 _ (by omega) (by omega)
          have h1 : (c :: tl).drop
              (((c :: tl).takeWhile (fun c2 => c2 != 10)).length) = r :: tl2 := by
            rw [← dropWhile_eq_drop]
            exact hrest
          have hdrop2 : (c :: tl).drop
              (((c :: tl).takeWhile (fun c2 => c2 != 10)).length + 1) = tl2 := by
            rw [← List.drop_drop 1 (((c :: tl).takeWhile (fun c2 => c2 != 10)).length)
                  (c :: tl), h1]
            rfl
          have hstep : playlistFirstLine ((c :: tl).length + 1) (c :: tl)
              = playlistFirstLine ((c :: tl).length + 1) tl2 := by
            conv_lhs => unfold playlistFirstLine
            conv_rhs => unfold playlistFirstLine
            dsimp only
            rw [skipEq2]
          have htl2 : CRok tl2 := by
            rw [← hdrop2]
            exact CRok_drop _ _ hcr
          rw [hstep,
              first_mono _ tl2 (tl2.length + 1) (by omega) (by omega),
              ih tl2 (by omega) htl2,
              spec_mono (tl2.length + 1) tl2 ((c :: tl).length) (by omega) (by omega)]
          conv_rhs => unfold specFirstItem
          dsimp only
          rw [if_pos hspec_cond, if_neg (by omega), hdrop2]
      · push_neg at hc
        obtain ⟨hc35, hc13, hc10⟩ := hc
        have skipId : playlistSkip ((c :: tl).length + 1) (c :: tl) = c :: tl := by
          conv_lhs => unfold playlistSkip
          dsimp only
          rw [if_neg (by tauto)]
        have hline : (c :: tl).takeWhile (fun c2 => c2 != 10)
            = c :: tl.takeWhile (fun c2 => c2 != 10) := by
          rw [List.takeWhile_cons, if_pos (by simpa using hc10)]
        conv_lhs => unfold playlistFirstLine
        dsimp only
        rw [skipId]
        conv_rhs => unfold specFirstItem
        dsimp only
        by_cases htok : (rtrimB ((c :: tl).takeWhile (fun c2 => c2 != 10))).length = 0
        · have htokC : ¬(((((c :: tl).takeWhile (fun c2 => c2 != 10)).reverse.dropWhile
              (fun c2 => isSpaceB c2)).reverse).length ≠ 0) := by
            rw [show (((((c :: tl).takeWhile (fun c2 => c2 != 10)).reverse.dropWhile
                (fun c2 => isSpaceB c2)).reverse).length)
                = (rtrimB ((c :: tl).takeWhile (fun c2 => c2 != 10))).length from rfl, htok]
            norm_num
          rw [if_neg htokC, if_pos (Or.inr htok)]
          cases hnext : (c :: tl).drop ((c :: tl).takeWhile (fun c2 => c2 != 10)).length with
          | nil =>
            dsimp only
            rw [if_pos (by
              by_contra hlt
              rw [List.drop_eq_nil_iff] at hnext
              omega)]
          | cons x tl2 =>
            have hlen2 : (x :: tl2).length ≤ (c :: tl).length := by
              rw [← hnext, List.length_drop]
              omega
            have hdrop2 : (c :: tl).drop
                (((c :: tl).takeWhile (fun c2 => c2 != 10)).length + 1) = tl2 := by
              rw [← List.drop_drop 1 (((c :: tl).takeWhile (fun c2 => c2 != 10)).length)
                    (c :: tl), hnext]
              rfl
            have htl2 : CRok tl2 := by
              rw [← hdrop2]
              exact CRok_drop _ _ hcr
            have hlt : tl2.length < (c :: tl).length := by
              simp only [List.length_cons] at hlen2 ⊢
              omega
            dsimp only
            rw [if_neg (by
              intro hle
              rw [List.drop_eq_nil_of_le hle] at hnext
              exact List.noConfusion hnext)]
            rw [hdrop2,
                first_mono _ tl2 (tl2.length + 1) (by omega) (by omega),
                ih tl2 (by omega) htl2,
                spec_mono (tl2.length + 1) tl2 ((c :: tl).length) (by omega) (by omega)]
        · have htokC : ((((c :: tl).takeWhile (fun c2 => c2 != 10)).reverse.dropWhile
              (fun c2 => isSpaceB c2)).reverse).length ≠ 0 := by
            rw [show (((((c :: tl).takeWhile (fun c2 => c2 != 10)).reverse.dropWhile
                (fun c2 => isSpaceB c2)).reverse).length)
                = (rtrimB ((c :: tl).takeWhile (fun c2 => c2 != 10))).length from rfl]
            exact htok
          rw [if_pos htokC, if_neg (by
            push_neg
            constructor
            · rw [hline]
              simpa using hc35
            · exact htok)]
          rfl

theorem compare_m3u_lower (path : String) (h : rc_path_compare_extension path "m3u" = true) :
    (path.data.drop (path.data.length - 3)).map tolowerC = ['m', '3', 'u'] := by
  unfold rc_path_compare_extension at h
  rw [show ("m3u" : String).data = ['m', '3', 'u'] from rfl] at h
  simp only [List.length_cons, List.length_nil] at h
  norm_num at h
  obtain ⟨hlen, hdot, hsuf⟩ := h
  rcases hsuf with h1 | h1
  · rw [show path.length = path.data.length from rfl] at h1
    rw [h1]
    decide
  · rw [show path.length = path.data.length from rfl, ← List.map_drop] at h1
    exact h1

theorem compare_cue_lower (path : String) (h : rc_path_compare_extension path "cue" = true) :
    (path.data.drop (path.data.length - 3)).map tolowerC = ['c', 'u', 'e'] := by
  unfold rc_path_compare_extension at h
  rw [show ("cue" : String).data = ['c', 'u', 'e'] from rfl] at h
  simp only [List.length_cons, List.length_nil] at h
  norm_num at h
  obtain ⟨hlen, hdot, hsuf⟩ := h
  rcases hsuf with h1 | h1
  · rw [show path.length = path.data.length from rfl] at h1
    rw [h1]
    decide
  · rw [show path.length = path.data.length from rfl, ← List.map_drop] at h1
    exact h1

theorem compare_chd_lower (path : String) (h : rc_path_compare_extension path "chd" = true) :
    (path.data.drop (path.data.length - 3)).map tolowerC = ['c', 'h', 'd'] := by
  unfold rc_path_compare_extension at h
  rw [show ("chd" : String).data = ['c', 'h', 'd'] from rfl] at h
  simp only [List.length_cons, List.length_nil] at h
  norm_num at h
  obtain ⟨hlen, hdot, hsuf⟩ := h
  rcases hsuf with h1 | h1
  · rw [show path.length = path.data.length from rfl] at h1
    rw [h1]
    decide
  · rw [show path.length = path.data.length from rfl, ← List.map_drop] at h1
    exact h1

theorem m3u_not_cue (path : String) (h : rc_path_compare_extension path "m3u" = true) :
    rc_path_compare_extension path "cue" = false := by
  cases hc : rc_path_compare_extension path "cue"
  · rfl
  · have h1 := compare_m3u_lower path h
    have h2 := compare_cue_lower path hc
    rw [h1] at h2
    exact absurd h2 (by decide)

theorem m3u_not_chd (path : String) (h : rc_path_compare_extension path "m3u" = true) :
    rc_path_compare_extension path "chd" = false := by
  cases hc : rc_path_compare_extension path "chd"
  · rfl
  · have h1 := compare_m3u_lower path h
    have h2 := compare_chd_lower path hc
    rw [h1] at h2
    exact absurd h2 (by decide)

theorem dispatch_m3u (env : HashEnv) (fuel console : Nat) (path : String)
    (hc : console ∈ playlistConsoles)
    (hm3u : rc_path_compare_extension path "m3u" = true) :
    rc_hash_generate_from_file env (fuel + 1) console path
      = rc_hash_generate_from_playlist_with env
          (fun p => rc_hash_generate_from_file env fuel console p) path := by
  have hcue := m3u_not_cue path hm3u
  have hchd := m3u_not_chd path hm3u
  simp only [playlistConsoles, List.mem_cons, List.not_mem_nil, or_false] at hc
  rcases hc with rfl | rfl | rfl | rfl | rfl | rfl | rfl | rfl | rfl | rfl <;>
    (conv_lhs => unfold rc_hash_generate_from_file) <;>
    simp +decide [hm3u, hcue, hchd, wholeFileConsoles,
      RC_CONSOLE_3DO, RC_CONSOLE_APPLE_II, RC_CONSOLE_ARCADE, RC_CONSOLE_ATARI_2600,
      RC_CONSOLE_ATARI_7800, RC_CONSOLE_ATARI_JAGUAR, RC_CONSOLE_ATARI_LYNX,
      RC_CONSOLE_COLECOVISION, RC_CONSOLE_DREAMCAST, RC_CONSOLE_GAMEBOY,
      RC_CONSOLE_GAMEBOY_ADVANCE, RC_CONSOLE_GAMEBOY_COLOR, RC_CONSOLE_GAME_GEAR,
      RC_CONSOLE_INTELLIVISION, RC_CONSOLE_MAGNAVOX_ODYSSEY2, RC_CONSOLE_MASTER_SYSTEM,
      RC_CONSOLE_MEGA_DRIVE, RC_CONSOLE_MSX, RC_CONSOLE_NEOGEO_POCKET, RC_CONSOLE_NINTENDO,
      RC_CONSOLE_NINTENDO_64, RC_CONSOLE_NINTENDO_DS, RC_CONSOLE_ORIC, RC_CONSOLE_PC8800,
      RC_CONSOLE_PCFX, RC_CONSOLE_PC_ENGINE, RC_CONSOLE_PLAYSTATION, RC_CONSOLE_PLAYSTATION_2,
      RC_CONSOLE_POKEMON_MINI, RC_CONSOLE_SATURN, RC_CONSOLE_SEGA_32X, RC_CONSOLE_SEGA_CD,
      RC_CONSOLE_SG1000, RC_CONSOLE_SHARPX1, RC_CONSOLE_SUPERVISION,
      RC_CONSOLE_SUPER_NINTENDO, RC_CONSOLE_THOMSONTO8, RC_CONSOLE_TIC80, RC_CONSOLE_VECTREX,
      RC_CONSOLE_VIRTUAL_BOY, RC_CONSOLE_WONDERSWAN]

theorem seq_wrote_left (a b : Eff) (h : a.wrote = none) : (a.seq b).wrote = b.wrote := by
  cases hb : b.wrote <;> simp [Eff.seq, hb, h]

theorem playlist_item_eval (env : HashEnv) (path : String) (content entry : Bytes)
    (hfs : env.fs path = some content)
    (hlen : content.length ≤ 1023)
    (hnul : ∀ c ∈ content, c ≠ 0)
    (hcr : CRok content)
    (hfirst : specFirstItem (content.length + 1) content = some entry) :
    ∃ e0 : Eff,
      rc_hash_get_first_item_from_playlist env path
        = (some (if rc_hash_path_is_absolute (String.mk (entry.map Char.ofNat))
              then String.mk (entry.map Char.ofNat)
              else String.mk (path.data.take
                  (path.data.length - (rc_path_get_filename path).data.length))
                ++ String.mk (entry.map Char.ofNat)),
           e0)
      ∧ e0.wrote = none := by
  have hread1 : (rc_file_read ⟨content, 0⟩ 1023).1 = content := by
    unfold rc_file_read
    dsimp only
    rw [List.drop_zero]
    exact List.take_of_length_le hlen
  have hreadP := pair_eta_fst _ _ hread1
  unfold rc_hash_get_first_item_from_playlist
  rw [show rc_file_open env path = (some ⟨content, 0⟩, { Eff.one with fileOpens := 1 }) from by
    unfold rc_file_open
    rw [hfs]]
  dsimp only
  rw [hreadP]
  dsimp only
  rw [takeWhile_all _ content (fun c hc => by simpa using hnul c hc)]
  rw [show playlistFirstLine (content.length + 1) content = some entry from by
    rw [firstLine_eq_spec content.length content (le_refl _) hcr]
    exact hfirst]
  dsimp only
  by_cases habs : rc_hash_path_is_absolute (String.mk (entry.map Char.ofNat)) = true
  · rw [if_pos habs, if_pos habs]
    exact ⟨_, rfl, rfl⟩
  · rw [if_neg habs, if_neg habs]
    exact ⟨_, rfl, rfl⟩

/-- C5: for every console whose dispatcher supports playlists and every
m3u file whose first non-blank non-comment line (trailing whitespace
stripped, resolved against the playlist's directory when not absolute)
names image X, hashing the m3u yields the same result and the same
fingerprint output as hashing X directly (one dispatcher level deeper). -/
theorem c5_playlist_transparent (env : HashEnv) (fuel console : Nat) (path : String)
    (content entry : Bytes) (X : String)
    (hc : console ∈ playlistConsoles)
    (hm3u : rc_path_compare_extension path "m3u" = true)
    (hfs : env.fs path = some content)
    (hlen : content.length ≤ 1023)
    (hnul : ∀ c ∈ content, c ≠ 0)
    (hcr : CRok content)
    (hfirst : specFirstItem (content.length + 1) content = some entry)
    (hX : X = if rc_hash_path_is_absolute (String.mk (entry.map Char.ofNat))
        then String.mk (entry.map Char.ofNat)
        else String.mk (path.data.take
            (path.data.length - (rc_path_get_filename path).data.length))
          ++ String.mk (entry.map Char.ofNat)) :
    (rc_hash_generate_from_file env (fuel + 1) console path).1
      = (rc_hash_generate_from_file env fuel console X).1
    ∧ (rc_hash_generate_from_file env (fuel + 1) console path).2.wrote
      = (rc_hash_generate_from_file env fuel console X).2.wrote := by
  obtain ⟨e0, hitem, hw0⟩ := playlist_item_eval env path content entry hfs hlen hnul hcr hfirst
  rw [dispatch_m3u env fuel console path hc hm3u]
  unfold rc_hash_generate_from_playlist_with
  rw [hitem]
  dsimp only
  rw [← hX]
  exact ⟨rfl, seq_wrote_left _ _ hw0⟩

theorem CRok_of_bounded (l : Bytes)
    (h : ∀ i, i < l.length → l.getD i 0 = 13 →
      l.getD (i + 1) 0 = 13 ∨ l.getD (i + 1) 0 = 10 ∨ l.length ≤ i + 1) : CRok l := by
  intro i hi
  by_cases hlt : i < l.length
  · exact h i hlt hi
  · exfalso
    rw [List.getD_eq_default _ _ (by omega)] at hi
    exact absurd hi (by norm_num)

/-- Witness for `c5_playlist_transparent` on a playlist whose first
usable line is "game.cue". -/
theorem c5_playlist_transparent_witness :
    (rc_hash_generate_from_file c5Env 2 RC_CONSOLE_PLAYSTATION "/dir/game.m3u").1
      = (rc_hash_generate_from_file c5Env 1 RC_CONSOLE_PLAYSTATION "/dir/game.cue").1
    ∧ (rc_hash_generate_from_file c5Env 2 RC_CONSOLE_PLAYSTATION "/dir/game.m3u").2.wrote
      = (rc_hash_generate_from_file c5Env 1 RC_CONSOLE_PLAYSTATION "/dir/game.cue").2.wrote :=
  c5_playlist_transparent c5Env 1 RC_CONSOLE_PLAYSTATION "/dir/game.m3u"
    (strB "# c\r\n  \r\ngame.cue\r\nother.cue\n") (strB "game.cue") "/dir/game.cue"
    (by decide) (by decide) (by decide) (by decide) (by decide)
    (CRok_of_bounded _ (by decide)) (by decide) (by decide)

theorem wrote_open_track (env : HashEnv) (p : String) (t : Nat) :
    (rc_cd_open_track env p t).2.wrote = none := by
  unfold rc_cd_open_track
  cases henv : env.cdreader with
  | none => simp [errEff, Eff.one]
  | some cd =>
    cases hook : cd.open_track with
    | none => simp [hook, errEff, Eff.one]
    | some f => simp [hook, Eff.one]

theorem wrote_read_sector (env : HashEnv) (h s r : Nat) :
    (rc_cd_read_sector env h s r).2.wrote = none := by
  unfold rc_cd_read_sector
  cases henv : env.cdreader with
  | none => simp [errEff, Eff.one]
  | some cd =>
    cases hook : cd.read_sector with
    | none => simp [hook, errEff, Eff.one]
    | some f => simp [hook, Eff.one]

theorem wrote_abs_sector (env : HashEnv) (h s : Nat) :
    (rc_cd_absolute_sector_to_track_sector env h s).2.wrote = none := by
  unfold rc_cd_absolute_sector_to_track_sector
  cases henv : env.cdreader with
  | none => simp [errEff, Eff.one]
  | some cd =>
    cases hook : cd.absolute_sector_to_track_sector with
    | none => simp [hook, errEff, Eff.one]
    | some f => simp [hook, Eff.one]

theorem wrote_close_track (env : HashEnv) (h : Nat) :
    (rc_cd_close_track env h).wrote = none := by
  unfold rc_cd_close_track
  cases henv : env.cdreader with
  | none => simp [errEff, Eff.one]
  | some cd =>
    by_cases hc : cd.close_track = true
    · simp [hc, Eff.one]
    · simp [hc, errEff, Eff.one]

theorem wrote_file_open (env : HashEnv) (p : String) :
    (rc_file_open env p).2.wrote = none := by
  unfold rc_file_open
  cases henv : env.fs p <;> simp [Eff.one]

theorem wrote_file_close (fh : FileH) : (rc_file_close fh).wrote = none := rfl

theorem wrote_error (m : String) : (rc_hash_error m).2.wrote = none := rfl

theorem wrote_one : Eff.one.wrote = none := rfl

theorem seq_wrote_none_of (a b : Eff) (ha : a.wrote = none) (hb : b.wrote = none) :
    (a.seq b).wrote = none := by
  rw [seq_wrote_none a b hb]
  exact ha

set_option maxRecDepth 4000 in
theorem wrote_find_file (env : HashEnv) (track : Nat) :
    ∀ fuel path ws, (rc_cd_find_file_sector env track fuel path ws).2.wrote = none := by
  intro fuel
  induction fuel with
  | zero => intro _ _; rfl
  | succ fuel ih =>
    intro path ws
    unfold rc_cd_find_file_sector
    dsimp only
    repeat' split
    all_goals
      simp only [seq_wrote, wrote_read_sector, wrote_abs_sector, ih, wrote_one, wrote_error, errEff, Eff.seq]

theorem wrote_cd_file_loop (env : HashEnv) (track : Nat) :
    ∀ fuel md5 sector size chunk,
      (rc_hash_cd_file_loop env track fuel md5 sector size chunk).2.wrote = none := by
  intro fuel
  induction fuel with
  | zero => intro _ _ _ _; rfl
  | succ fuel ih =>
    intro md5 sector size chunk
    unfold rc_hash_cd_file_loop
    dsimp only
    repeat' split
    all_goals
      simp only [seq_wrote, wrote_read_sector, ih, wrote_one, wrote_error, errEff, Eff.seq]

theorem wrote_cd_file (env : HashEnv) (md5 : Bytes) (track sector : Nat)
    (nm : Option String) (size : Nat) (d : String) :
    (rc_hash_cd_file env md5 track sector nm size d).2.wrote = none := by
  unfold rc_hash_cd_file
  dsimp only
  repeat' split
  all_goals
    simp only [seq_wrote, wrote_read_sector, wrote_cd_file_loop, wrote_error,
      errEff, Eff.one]

theorem wrote_find_psx_exe (env : HashEnv) (track : Nat) (bk cp : Bytes) (sz : Nat) :
    (rc_hash_find_playstation_executable env track bk cp sz).2.wrote = none := by
  unfold rc_hash_find_playstation_executable
  dsimp only
  repeat' split
  all_goals
    simp only [seq_wrote, wrote_read_sector, wrote_find_file, wrote_one, wrote_error, errEff, Eff.seq]

theorem wrote_pce_sectors (env : HashEnv) (track : Nat) :
    ∀ n sector buf md5, (rc_hash_pce_sectors env track n sector buf md5).2.wrote = none := by
  intro n
  induction n with
  | zero => intro _ _ _; rfl
  | succ n ih =>
    intro sector buf md5
    unfold rc_hash_pce_sectors
    dsimp only
    simp only [seq_wrote, wrote_read_sector, ih]

theorem wrote_pce_bootbin (env : HashEnv) (track : Nat) :
    ∀ fuel sector size buf md5,
      (rc_hash_pce_bootbin env track fuel sector size buf md5).2.wrote = none := by
  intro fuel
  induction fuel with
  | zero => intro _ _ _ _; rfl
  | succ fuel ih =>
    intro sector size buf md5
    unfold rc_hash_pce_bootbin
    dsimp only
    repeat' split
    all_goals
      simp only [seq_wrote, wrote_read_sector, ih, wrote_one, wrote_error, errEff, Eff.seq]

theorem wrote_pcfx_sectors (env : HashEnv) (track : Nat) :
    ∀ n sector buf md5, (rc_hash_pcfx_sectors env track n sector buf md5).2.wrote = none := by
  intro n
  induction n with
  | zero => intro _ _ _; rfl
  | succ n ih =>
    intro sector buf md5
    unfold rc_hash_pcfx_sectors
    dsimp only
    simp only [seq_wrote, wrote_read_sector, ih]

theorem wrote_3do_walk (env : HashEnv) (track : Nat) :
    ∀ fuel bs bl sector buf,
      (rc_hash_3do_walk env track fuel bs bl sector buf).2.wrote = none := by
  intro fuel
  induction fuel with
  | zero => intro _ _ _ _; rfl
  | succ fuel ih =>
    intro bs bl sector buf
    unfold rc_hash_3do_walk
    dsimp only
    repeat' split
    all_goals
      simp only [seq_wrote, wrote_read_sector, ih, wrote_one, wrote_error, errEff, Eff.seq]

theorem wrote_3do_content (env : HashEnv) (track : Nat) :
    ∀ fuel sector size buf md5,
      (rc_hash_3do_content env track fuel sector size buf md5).2.wrote = none := by
  intro fuel
  induction fuel with
  | zero => intro _ _ _ _; rfl
  | succ fuel ih =>
    intro sector size buf md5
    unfold rc_hash_3do_content
    dsimp only
    repeat' split
    all_goals
      simp only [seq_wrote, wrote_read_sector, ih, wrote_one, wrote_error, errEff, Eff.seq]

theorem wrote_finalize (env : HashEnv) (m : Bytes) :
    (rc_hash_finalize env m).2.wrote = some (hexRender (env.digestFn m)) := rfl

theorem c1_buf_core (env : HashEnv) (hwf : digestWF env) (b : Bytes) :
    specContractBuf (rc_hash_buffer env b) := by
  rw [rc_hash_buffer_eq]
  exact ⟨fun _ => ⟨_, rfl, hexRender_shape _ (hwf _)⟩, fun h => absurd h (by norm_num)⟩

theorem c1_7800 (env : HashEnv) (hwf : digestWF env) (b : Bytes) :
    specContractBuf (rc_hash_7800 env b) := by
  unfold rc_hash_7800
  split <;> exact c1_buf_core env hwf _

theorem c1_lynx (env : HashEnv) (hwf : digestWF env) (b : Bytes) :
    specContractBuf (rc_hash_lynx env b) := by
  unfold rc_hash_lynx
  split <;> exact c1_buf_core env hwf _

theorem c1_nes (env : HashEnv) (hwf : digestWF env) (b : Bytes) :
    specContractBuf (rc_hash_nes env b) := by
  unfold rc_hash_nes
  split
  · exact c1_buf_core env hwf _
  · split <;> exact c1_buf_core env hwf _

theorem c1_pce_buf (env : HashEnv) (hwf : digestWF env) (b : Bytes) :
    specContractBuf (rc_hash_pce env b) := by
  unfold rc_hash_pce
  dsimp only
  split <;> exact c1_buf_core env hwf _

theorem c1_snes (env : HashEnv) (hwf : digestWF env) (b : Bytes) :
    specContractBuf (rc_hash_snes env b) := by
  unfold rc_hash_snes
  dsimp only
  split <;> exact c1_buf_core env hwf _

theorem c1_gen_buffer (env : HashEnv) (hwf : digestWF env) (c : Nat) (buf : Bytes) :
    specContractBuf (rc_hash_generate_from_buffer env c buf) := by
  unfold rc_hash_generate_from_buffer
  repeat' split
  · exact c1_buf_core env hwf _
  · exact c1_7800 env hwf _
  · exact c1_lynx env hwf _
  · exact c1_nes env hwf _
  · exact c1_pce_buf env hwf _
  · exact c1_snes env hwf _
  · exact ⟨fun h => absurd rfl h, fun _ => rfl⟩

theorem c1_whole_file (env : HashEnv) (hwf : digestWF env) (path : String) :
    specContractDisc (rc_hash_whole_file env path) := by
  unfold rc_hash_whole_file specContractDisc
  dsimp only [rc_hash_error, rc_hash_finalize, errEff]
  repeat' split
  · refine ⟨?_, ?_⟩
    · intro k hk hk0
      exfalso
      simp at hk
      omega
    · intro _
      simp [seq_wrote, wrote_file_open, wrote_one, Eff.one]
  · refine ⟨?_, ?_⟩
    · intro k hk hk0
      exact Option.noConfusion hk
    · intro _
      simp [seq_wrote, wrote_file_close, wrote_file_open, wrote_one]
  · refine ⟨?_, ?_⟩
    · intro k hk hk0
      unfold specWroteHex
      rw [seq_wrote_none _ _ (wrote_file_close _), seq_wrote_some _ _ _ rfl]
      exact ⟨_, rfl, hexRender_shape _ (hwf _)⟩
    · intro h
      exfalso
      rcases h with h | h <;> simp at h

theorem c1_sega (env : HashEnv) (hwf : digestWF env) (path : String) :
    specContractDisc (rc_hash_sega_cd env path) := by
  unfold rc_hash_sega_cd specContractDisc
  dsimp only [rc_hash_error, errEff]
  repeat' split
  · refine ⟨?_, ?_⟩
    · intro k hk hk0
      exfalso
      simp at hk
      omega
    · intro _
      simp only [seq_wrote, wrote_open_track, wrote_one]
  · refine ⟨?_, ?_⟩
    · intro k hk hk0
      exfalso
      simp at hk
      omega
    · intro _
      simp only [seq_wrote, wrote_open_track, wrote_read_sector, wrote_close_track,
        wrote_one]
  · refine ⟨?_, ?_⟩
    · intro k hk hk0
      dsimp only at hk
      obtain ⟨s, hs, hhex⟩ := (c1_buf_core env hwf
        (updBuf (List.replicate 512 0) (rc_cd_read_sector env
          (rc_cd_open_track env path 1).1 0 512).1)).1 (by
            intro hz
            rw [Option.some.injEq] at hk
            omega)
      unfold specWroteHex
      rw [seq_wrote_some _ _ _ hs]
      exact ⟨s, rfl, hhex⟩
    · intro h
      rcases h with h | h
      · dsimp only at h
        rw [Option.some.injEq] at h
        rw [seq_wrote_none _ _ ((c1_buf_core env hwf _).2 h)]
        simp only [seq_wrote, wrote_open_track, wrote_read_sector, wrote_close_track,
          wrote_one]
      · dsimp only at h
        exact Option.noConfusion h

theorem c1_arcade (env : HashEnv) (hwf : digestWF env) (path : String) :
    specContractBuf (rc_hash_arcade env path) := by
  unfold rc_hash_arcade
  dsimp only
  repeat' split
  all_goals exact c1_buf_core env hwf _

theorem c1_buffered (env : HashEnv) (hwf : digestWF env) (c : Nat) (path : String) :
    specContractDisc (rc_hash_buffered_file env c path) := by
  unfold rc_hash_buffered_file specContractDisc
  dsimp only [rc_hash_error, errEff]
  repeat' split
  · refine ⟨?_, ?_⟩
    · intro k hk hk0
      exfalso
      simp at hk
      omega
    · intro _
      simp only [seq_wrote, wrote_file_open, wrote_one]
  all_goals refine ⟨?_, ?_⟩
  all_goals
    first
    | (intro k hk hk0
       dsimp only at hk
       rw [Option.some.injEq] at hk
       obtain ⟨s, hs, hhex⟩ := (c1_gen_buffer env hwf c _).1 (by
         intro hz
         rw [hz] at hk
         exact hk0 hk.symm)
       unfold specWroteHex
       rw [seq_wrote_none _ _ (wrote_file_close _), seq_wrote_some _ _ _ hs]
       exact ⟨s, rfl, hhex⟩)
    | (intro h
       rcases h with h | h
       · dsimp only at h
         rw [Option.some.injEq] at h
         rw [seq_wrote_none _ _ (wrote_file_close _),
             seq_wrote_none _ _ ((c1_gen_buffer env hwf c _).2 h), wrote_file_open]
       · dsimp only at h
         exact Option.noConfusion h)

theorem c1_ds (env : HashEnv) (hwf : digestWF env) (path : String) :
    specContractDisc (rc_hash_nintendo_ds env path) := by
  unfold rc_hash_nintendo_ds specContractDisc
  dsimp only [rc_hash_error, rc_hash_finalize, errEff]
  repeat' split
  all_goals refine ⟨?_, ?_⟩
  all_goals
    first
    | (intro k hk hk0
       exfalso
       dsimp only at hk
       rw [Option.some.injEq] at hk
       omega)
    | (intro k hk hk0
       unfold specWroteHex
       rw [seq_wrote_some _ _ _ rfl]
       exact ⟨_, rfl, hexRender_shape _ (hwf _)⟩)
    | (intro h
       first
       | (exfalso
          rcases h with h | h <;> (dsimp only at h; simp at h)
          done)
       | (simp only [seq_wrote, wrote_file_open, wrote_file_close, wrote_one]))

theorem c1_pce_track (env : HashEnv) (hwf : digestWF env) (track : Nat) :
    specContractDisc (rc_hash_pce_track env track) := by
  unfold rc_hash_pce_track specContractDisc
  dsimp only [rc_hash_error, rc_hash_finalize, errEff]
  repeat' split
  all_goals refine ⟨?_, ?_⟩
  all_goals
    first
    | (intro k hk hk0
       exfalso
       dsimp only at hk
       first
       | exact Option.noConfusion hk
       | (rw [Option.some.injEq] at hk; omega))
    | (intro k hk hk0
       unfold specWroteHex
       first
       | (rw [seq_wrote_some _ _ _ rfl]
          exact ⟨_, rfl, hexRender_shape _ (hwf _)⟩)
       | (rw [seq_wrote_none _ _ (wrote_close_track _ _), seq_wrote_some _ _ _ rfl]
          exact ⟨_, rfl, hexRender_shape _ (hwf _)⟩))
    | (intro h
       first
       | (exfalso
          rcases h with h | h <;> (dsimp only at h; simp at h)
          done)
       | (simp only [seq_wrote, wrote_open_track, wrote_read_sector, wrote_abs_sector,
            wrote_close_track, wrote_file_open, wrote_file_close, wrote_find_file,
            wrote_cd_file, wrote_cd_file_loop, wrote_find_psx_exe, wrote_pce_sectors,
            wrote_pce_bootbin, wrote_pcfx_sectors, wrote_3do_walk, wrote_3do_content,
            wrote_one, wrote_error, errEff, Eff.one]))

theorem c1_pce_cd (env : HashEnv) (hwf : digestWF env) (path : String) :
    specContractDisc (rc_hash_pce_cd env path) := by
  unfold rc_hash_pce_cd specContractDisc
  dsimp only [rc_hash_error, errEff]
  repeat' split
  · refine ⟨?_, ?_⟩
    · intro k hk hk0
      exfalso
      dsimp only at hk
      rw [Option.some.injEq] at hk
      omega
    · intro _
      simp only [seq_wrote, wrote_open_track, wrote_one, wrote_error, errEff, Eff.one]
  · have hc := c1_pce_track env hwf (rc_cd_open_track env path RC_HASH_CDTRACK_FIRST_DATA).1
    refine ⟨?_, ?_⟩
    · intro k hk hk0
      dsimp only at hk
      obtain ⟨s, hs, hhex⟩ := hc.1 k hk hk0
      unfold specWroteHex
      rw [seq_wrote_none _ _ (wrote_close_track _ _), seq_wrote_some _ _ _ hs]
      exact ⟨s, rfl, hhex⟩
    · intro h
      have hn := hc.2 (by
        rcases h with h | h
        · exact Or.inl h
        · exact Or.inr h)
      rw [seq_wrote_none _ _ (wrote_close_track _ _), seq_wrote_none _ _ hn,
          wrote_open_track]

theorem c1_pcfx_body (env : HashEnv) (hwf : digestWF env) (track : Nat) (buffer : Bytes)
    (e : Eff) (he : e.wrote = none) :
    specContractDisc (rc_hash_pcfx_body env track buffer e) := by
  unfold rc_hash_pcfx_body specContractDisc
  dsimp only [rc_hash_error, rc_hash_finalize, errEff]
  have hc := c1_pce_track env hwf track
  split
  · refine ⟨?_, ?_⟩
    · intro k hk hk0
      unfold specWroteHex
      rw [seq_wrote_some _ _ _ rfl]
      exact ⟨_, rfl, hexRender_shape _ (hwf _)⟩
    · intro h
      exfalso
      rcases h with h | h <;> (dsimp only at h; simp at h)
  · split
    · split
      · rename_i heqn
        refine ⟨?_, ?_⟩
        · intro k hk hk0
          dsimp only at hk
          exact Option.noConfusion hk
        · intro _
          rw [seq_wrote_none _ _ (wrote_close_track _ _),
              seq_wrote_none _ _ (hc.2 (Or.inr heqn)),
              seq_wrote_none _ _ (wrote_read_sector _ _ _ _), he]
      · rename_i r heqr
        split
        · rename_i hr0
          refine ⟨?_, ?_⟩
          · intro k hk hk0
            obtain ⟨s, hs, hhex⟩ := hc.1 r heqr hr0
            unfold specWroteHex
            rw [seq_wrote_none _ _ (wrote_close_track _ _), seq_wrote_some _ _ _ hs]
            exact ⟨s, rfl, hhex⟩
          · intro h
            exfalso
            dsimp only at h
            rcases h with h | h
            · rw [Option.some.injEq] at h
              exact hr0 h
            · exact Option.noConfusion h
        · rename_i hr0
          refine ⟨?_, ?_⟩
          · intro k hk hk0
            exfalso
            dsimp only at hk
            rw [Option.some.injEq] at hk
            omega
          · intro _
            have hr : r = 0 := by omega
            rw [seq_wrote_none _ _ rfl, seq_wrote_none _ _ (wrote_close_track _ _),
                seq_wrote_none _ _ (hc.2 (Or.inl (hr ▸ heqr))),
                seq_wrote_none _ _ (wrote_read_sector _ _ _ _), he]
    · refine ⟨?_, ?_⟩
      · intro k hk hk0
        exfalso
        dsimp only at hk
        rw [Option.some.injEq] at hk
        omega
      · intro _
        rw [seq_wrote_none _ _ rfl, seq_wrote_none _ _ (wrote_close_track _ _),
            seq_wrote_none _ _ (wrote_read_sector _ _ _ _), he]

theorem c1_pcfx_cd (env : HashEnv) (hwf : digestWF env) (path : String) :
    specContractDisc (rc_hash_pcfx_cd env path) := by
  unfold rc_hash_pcfx_cd specContractDisc
  dsimp only [rc_hash_error, errEff]
  repeat' split
  all_goals
    first
    | (exact c1_pcfx_body env hwf _ _ _ (by
        simp only [seq_wrote, wrote_open_track, wrote_read_sector, wrote_close_track,
          wrote_one]))
    | (refine ⟨fun k hk hk0 => ?_, fun _ => ?_⟩
       · exfalso
         dsimp only at hk
         rw [Option.some.injEq] at hk
         omega
       · simp only [seq_wrote, wrote_open_track, wrote_read_sector, wrote_close_track,
           wrote_one, wrote_error, errEff, Eff.one])

theorem c1_3do_after_walk (env : HashEnv) (hwf : digestWF env) (track : Nat)
    (md5 : Bytes) (e : Eff) (he : e.wrote = none)
    (wres : Option ((Nat × Nat) × Bytes)) :
    specContractDisc (rc_hash_3do_after_walk env track md5 e wres) := by
  unfold rc_hash_3do_after_walk specContractDisc
  dsimp only [rc_hash_error, rc_hash_finalize, errEff]
  split
  · exact ⟨fun k hk hk0 => absurd hk (by simp), fun _ => he⟩
  · split
    · refine ⟨fun k hk hk0 => ?_, fun _ => ?_⟩
      · exfalso
        dsimp only at hk
        rw [Option.some.injEq] at hk
        exact hk0 hk.symm
      · simp only [seq_wrote, wrote_close_track, wrote_one, Eff.one, errEff, he]
    · split
      · refine ⟨fun k hk hk0 => ?_, fun _ => ?_⟩
        · exfalso
          dsimp only at hk
          exact Option.noConfusion hk
        · simp only [seq_wrote, wrote_3do_content, he]
      · refine ⟨fun k hk hk0 => ?_, fun h => ?_⟩
        · unfold specWroteHex
          rw [seq_wrote_some _ _ _ rfl]
          exact ⟨_, rfl, hexRender_shape _ (hwf _)⟩
        · exfalso
          rcases h with h | h
          · dsimp only at h
            rw [Option.some.injEq] at h
            exact absurd h (by norm_num)
          · dsimp only at h
            exact Option.noConfusion h

theorem c1_3do_do_walk (env : HashEnv) (hwf : digestWF env)
    (track block_size block_location sector : Nat) (buffer md5 : Bytes) (e : Eff)
    (he : e.wrote = none) :
    specContractDisc (rc_hash_3do_do_walk env track block_size block_location sector
      buffer md5 e) := by
  unfold rc_hash_3do_do_walk
  dsimp only []
  exact c1_3do_after_walk env hwf _ _ _
    (seq_wrote_none_of _ _ he (wrote_3do_walk env track _ _ _ _ _)) _

theorem c1_3do (env : HashEnv) (hwf : digestWF env) (path : String) :
    specContractDisc (rc_hash_3do env path) := by
  unfold rc_hash_3do
  dsimp only [rc_hash_error, errEff]
  split
  · refine ⟨fun k hk hk0 => ?_, fun _ => ?_⟩
    · exfalso
      dsimp only at hk
      rw [Option.some.injEq] at hk
      exact hk0 hk.symm
    · simp only [seq_wrote, wrote_open_track, wrote_one, Eff.one, errEff]
  · split
    · exact c1_3do_do_walk env hwf _ _ _ _ _ _ _ (by
        simp only [seq_wrote, wrote_open_track, wrote_read_sector, wrote_one])
    · refine ⟨fun k hk hk0 => ?_, fun _ => ?_⟩
      · exfalso
        dsimp only at hk
        rw [Option.some.injEq] at hk
        exact hk0 hk.symm
      · simp only [seq_wrote, wrote_open_track, wrote_read_sector, wrote_close_track,
          wrote_one, Eff.one, errEff]

theorem mem_errors_seq_left (a b : Eff) (m : String) (h : m ∈ a.errors) :
    m ∈ (a.seq b).errors := by
  rw [seq_errors]; exact List.mem_append_left _ h

theorem mem_errors_seq_right (a b : Eff) (m : String) (h : m ∈ b.errors) :
    m ∈ (a.seq b).errors := by
  rw [seq_errors]; exact List.mem_append_right _ h

theorem cd_file_fail_error (env : HashEnv) (md5 : Bytes) (track sector : Nat)
    (nm : Option String) (size size2 : Nat) (d : String) {m : Bytes} :
    (rc_hash_cd_file env md5 track sector nm size d).1 = some (0, m) →
      ("Could not read " ++ d) ∈ (rc_hash_cd_file env md5 track sector nm size2 d).2.errors := by
  unfold rc_hash_cd_file
  dsimp only [rc_hash_error, errEff]
  split
  · intro _
    exact mem_errors_seq_right _ _ _ (by simp [errEff, Eff.one])
  · split
    · intro h
      exact Option.noConfusion h
    · intro h
      exfalso
      simp at h

theorem c1_dreamcast (env : HashEnv) (hwf : digestWF env) (path : String) :
    specContractDiscExc "Could not read boot executable" (rc_hash_dreamcast env path) := by
  unfold rc_hash_dreamcast specContractDiscExc
  dsimp only [rc_hash_error, rc_hash_finalize, errEff]
  repeat' split
  all_goals refine ⟨?_, ?_⟩
  all_goals
    first
    | (intro k hk hk0
       exfalso
       dsimp only at hk
       first
       | exact Option.noConfusion hk
       | (rw [Option.some.injEq] at hk; exact hk0 hk.symm))
    | (intro k hk hk0
       unfold specWroteHex
       first
       | (rw [seq_wrote_some _ _ _ rfl]
          exact ⟨_, rfl, hexRender_shape _ (hwf _)⟩)
       | (rw [seq_wrote_none _ _ (wrote_close_track _ _), seq_wrote_some _ _ _ rfl]
          exact ⟨_, rfl, hexRender_shape _ (hwf _)⟩))
    | (intro h
       refine Or.inl ?_
       simp only [seq_wrote, wrote_open_track, wrote_read_sector, wrote_close_track,
         wrote_abs_sector, wrote_find_file, wrote_cd_file, wrote_one, wrote_error,
         errEff, Eff.one]
       done)
    | (intro h
       rcases h with h | h
       · dsimp only at h
         rw [Option.some.injEq] at h
         subst h
         refine Or.inr ⟨?_, ?_⟩
         · apply mem_errors_seq_left
           apply mem_errors_seq_left
           apply mem_errors_seq_right
           apply cd_file_fail_error
           assumption
         · unfold specWroteHex
           first
           | (rw [seq_wrote_some _ _ _ rfl]
              exact ⟨_, rfl, hexRender_shape _ (hwf _)⟩)
           | (rw [seq_wrote_none _ _ (wrote_close_track _ _), seq_wrote_some _ _ _ rfl]
              exact ⟨_, rfl, hexRender_shape _ (hwf _)⟩)
       · dsimp only at h
         exact Option.noConfusion h)

set_option maxHeartbeats 3200000 in
set_option maxRecDepth 16000 in
theorem c1_psx_contract (env : HashEnv) (hwf : digestWF env) (path : String) :
    specContractDiscExc "Could not read primary executable" (rc_hash_psx env path) := by
  unfold rc_hash_psx
  dsimp only [rc_hash_error, rc_hash_finalize, errEff]
  repeat' split
  all_goals unfold specContractDiscExc
  all_goals refine ⟨?_, ?_⟩
  all_goals
    first
    | (intro k hk hk0
       exfalso
       dsimp only at hk
       first
       | exact Option.noConfusion hk
       | (rw [Option.some.injEq] at hk; exact hk0 hk.symm))
    | (intro k hk hk0
       unfold specWroteHex
       first
       | (rw [seq_wrote_some _ _ _ rfl]
          exact ⟨_, rfl, hexRender_shape _ (hwf _)⟩)
       | (rw [seq_wrote_none _ _ (wrote_close_track _ _), seq_wrote_some _ _ _ rfl]
          exact ⟨_, rfl, hexRender_shape _ (hwf _)⟩))
    | (intro h
       refine Or.inl ?_
       simp only [seq_wrote, wrote_open_track, wrote_read_sector, wrote_close_track,
         wrote_abs_sector, wrote_find_file, wrote_find_psx_exe, wrote_cd_file, wrote_one,
         wrote_error, errEff, Eff.one]
       done)
    | (intro h
       rcases h with h | h
       · dsimp only at h
         rw [Option.some.injEq] at h
         subst h
         refine Or.inr ⟨?_, ?_⟩
         · apply mem_errors_seq_left
           apply mem_errors_seq_left
           apply mem_errors_seq_right
           apply cd_file_fail_error
           assumption
         · unfold specWroteHex
           first
           | (rw [seq_wrote_some _ _ _ rfl]
              exact ⟨_, rfl, hexRender_shape _ (hwf _)⟩)
           | (rw [seq_wrote_none _ _ (wrote_close_track _ _), seq_wrote_some _ _ _ rfl]
              exact ⟨_, rfl, hexRender_shape _ (hwf _)⟩)
       · dsimp only at h
         exact Option.noConfusion h)

theorem c1_ps2_contract (env : HashEnv) (hwf : digestWF env) (path : String) :
    specContractDiscExc "Could not read primary executable" (rc_hash_ps2 env path) := by
  unfold rc_hash_ps2 specContractDiscExc
  dsimp only [rc_hash_error, rc_hash_finalize, errEff]
  repeat' split
  all_goals refine ⟨?_, ?_⟩
  all_goals
    first
    | (intro k hk hk0
       exfalso
       dsimp only at hk
       first
       | exact Option.noConfusion hk
       | (rw [Option.some.injEq] at hk; exact hk0 hk.symm))
    | (intro k hk hk0
       unfold specWroteHex
       first
       | (rw [seq_wrote_some _ _ _ rfl]
          exact ⟨_, rfl, hexRender_shape _ (hwf _)⟩)
       | (rw [seq_wrote_none _ _ (wrote_close_track _ _), seq_wrote_some _ _ _ rfl]
          exact ⟨_, rfl, hexRender_shape _ (hwf _)⟩))
    | (intro h
       refine Or.inl ?_
       simp only [seq_wrote, wrote_open_track, wrote_read_sector, wrote_close_track,
         wrote_abs_sector, wrote_find_file, wrote_find_psx_exe, wrote_cd_file, wrote_one,
         wrote_error, errEff, Eff.one]
       done)
    | (intro h
       rcases h with h | h
       · dsimp only at h
         rw [Option.some.injEq] at h
         subst h
         refine Or.inr ⟨?_, ?_⟩
         · apply mem_errors_seq_left
           apply mem_errors_seq_left
           apply mem_errors_seq_right
           apply cd_file_fail_error
           assumption
         · unfold specWroteHex
           first
           | (rw [seq_wrote_some _ _ _ rfl]
              exact ⟨_, rfl, hexRender_shape _ (hwf _)⟩)
           | (rw [seq_wrote_none _ _ (wrote_close_track _ _), seq_wrote_some _ _ _ rfl]
              exact ⟨_, rfl, hexRender_shape _ (hwf _)⟩)
       · dsimp only at h
         exact Option.noConfusion h)

theorem dc_sig_take16 : dcIpBin.take 16 = strB "SEGA SEGAKATANA " := by
  unfold dcIpBin
  rw [take_natFun2list _ _ _ (by norm_num)]
  decide

theorem dc_take256 : dcIpBin.take 256 = dcIpBin :=
  List.take_of_length_le (le_of_eq (len_natFun2list 256 _))

theorem dc_updBuf : updBuf (List.replicate 256 0) dcIpBin = dcIpBin := by
  unfold updBuf
  rw [show dcIpBin.length = 256 from len_natFun2list 256 _, List.drop_replicate,
      show 256 - 256 = 0 from rfl, List.replicate_zero, List.append_nil]

theorem dc_boot_len :
    (((dcIpBin.drop 96).take 16).takeWhile (fun c => !(isSpaceB c))).length = 5 := by
  decide

theorem dc_boot_name : (dcIpBin.drop 96).take 5 = strB "A.BIN" := by
  decide

theorem dc_cex_eval :
    ∃ eff, rc_hash_dreamcast dcEnv "game" = (some 0, eff)
      ∧ eff.wrote = some (hexRender (lenDigest dcIpBin)) := by
  have hopen3 : (rc_cd_open_track dcEnv "game" 3).1 = 1 := by
    simp [rc_cd_open_track, dcEnv]
  have hopen3P := pair_eta_fst _ _ hopen3
  have hip1 : (rc_cd_read_sector dcEnv 1 0 256).1 = dcIpBin := by
    simp only [rc_cd_read_sector, dcEnv]
    norm_num
    exact le_of_eq (len_natFun2list 256 _)
  have hipP := pair_eta_fst _ _ hip1
  have hpvd1 : (rc_cd_read_sector dcEnv 1 16 256).1 = mkPVD 50 := by
    simp only [rc_cd_read_sector, dcEnv]
    norm_num
    exact le_of_eq (len_natFun2list 256 _)
  have htr1 : (rc_cd_absolute_sector_to_track_sector dcEnv 1 (le24 (mkPVD 50) 158)).1
      = 50 := by
    rw [le24_mkPVD 50 (by norm_num)]
    simp [rc_cd_absolute_sector_to_track_sector, dcEnv]
  have hdir1 : (rc_cd_read_sector dcEnv 1 50 2048).1
      = mkDirSector (strB "A.BIN") 100 4096 := by
    simp only [rc_cd_read_sector, dcEnv]
    norm_num
    exact le_of_eq (len_natFun2list 2048 _)
  have hfind : (rc_cd_find_file_sector dcEnv 1 16 (strB "A.BIN") true).1
      = (100, some 4096) := by
    rw [show (16 : Nat) = 15 + 1 from rfl]
    rw [find_file_sector_eval dcEnv 1 15 50 (strB "A.BIN") (mkPVD 50)
      (mkDirSector (strB "A.BIN") 100 4096) true (by norm_num)
      (by decide) hpvd1 (len_natFun2list 256 _) htr1 hdir1 (len_natFun2list 2048 _)]
    rw [specFindInDir_mkDirSector _ _ _ _ (by decide) (by decide), if_pos (by decide)]
    dsimp only
    rw [show (0 : Nat) + 2 = 2 from rfl, show (0 : Nat) + 10 = 10 from rfl,
        le24_mkDirSector _ _ _ (by norm_num), le32_mkDirSector _ _ _ (by norm_num)]
    rfl
  have hfindP := pair_eta_fst _ _ hfind
  have hopenL : (rc_cd_open_track dcEnv "game" RC_HASH_CDTRACK_LAST).1 = 2 := by
    simp [rc_cd_open_track, dcEnv, RC_HASH_CDTRACK_LAST]
  have hopenLP := pair_eta_fst _ _ hopenL
  have hts : (rc_cd_absolute_sector_to_track_sector dcEnv 2 100).1 = 100 := by
    simp [rc_cd_absolute_sector_to_track_sector, dcEnv]
  have htsP := pair_eta_fst _ _ hts
  have hread2 : (rc_cd_read_sector dcEnv 2 100 2048).1 = [] := by
    simp [rc_cd_read_sector, dcEnv]
  have hread2P := pair_eta_fst _ _ hread2
  have hcd : (rc_hash_cd_file dcEnv dcIpBin 2 100 none 4096 "boot executable").1
      = some (0, dcIpBin) := by
    unfold rc_hash_cd_file
    rw [hread2P]
    dsimp only
    rw [if_pos (by decide)]
    rfl
  have hcdP := pair_eta_fst _ _ hcd
  have hmd5 : md5_append md5_init dcIpBin = dcIpBin := by
    simp [md5_append, md5_init]
  unfold rc_hash_dreamcast
  rw [hopen3P]
  dsimp only
  rw [if_neg (by norm_num)]
  rw [hipP]
  dsimp only
  rw [dc_updBuf, dc_sig_take16]
  rw [if_neg (by simp)]
  rw [dc_boot_len, if_neg (by norm_num), dc_boot_name]
  rw [hfindP]
  dsimp only
  rw [show (some (4096 : Nat)).getD 0 = 4096 from rfl,
      if_neg (show ¬(100 : Nat) = 0 from by norm_num)]
  rw [hopenLP]
  dsimp only
  rw [htsP]
  dsimp only
  rw [if_neg (by norm_num)]
  rw [dc_take256, hmd5, hcdP]
  dsimp only
  refine ⟨_, rfl, ?_⟩
  rw [seq_wrote_some _ _ _ rfl]
  rfl

/-- C1 (counterexample to the universal no-write-on-failure clause): on
the `dcEnv` disc the Dreamcast recipe's metadata checks pass and the boot
executable is located, but reading its contents fails; the recipe then
returns failure (0) AND still writes a 32-hex fingerprint of the
partially-seeded digest into the caller-supplied output. -/
theorem c1_dreamcast_write_on_fail :
    (rc_hash_dreamcast dcEnv "game").1 = some 0
    ∧ (rc_hash_dreamcast dcEnv "game").2.wrote = some (hexRender (lenDigest dcIpBin))
    ∧ isHex32 (hexRender (lenDigest dcIpBin)) = true := by
  obtain ⟨eff, heq, hw⟩ := dc_cex_eval
  exact ⟨by rw [heq], by rw [heq]; exact hw,
    hexRender_shape _ (by simp [lenDigest])⟩

/-- C1 (amended): with a caller-supplied digest that always renders 16
bytes, every recipe either writes exactly 32 lowercase hex digits into the
caller-supplied output and returns success, or returns failure with the
output untouched — except the Dreamcast, PlayStation and PlayStation 2
recipes, which may also write a fingerprint on a failure return when the
located executable's contents could not be read (the corresponding message
having been sent to the error sink). -/
theorem c1_output_contract (env : HashEnv) (hwf : digestWF env) :
    (∀ b, specContractBuf (rc_hash_buffer env b))
    ∧ (∀ b, specContractBuf (rc_hash_7800 env b))
    ∧ (∀ b, specContractBuf (rc_hash_lynx env b))
    ∧ (∀ b, specContractBuf (rc_hash_nes env b))
    ∧ (∀ b, specContractBuf (rc_hash_pce env b))
    ∧ (∀ b, specContractBuf (rc_hash_snes env b))
    ∧ (∀ c b, specContractBuf (rc_hash_generate_from_buffer env c b))
    ∧ (∀ p, specContractDisc (rc_hash_whole_file env p))
    ∧ (∀ c p, specContractDisc (rc_hash_buffered_file env c p))
    ∧ (∀ p, specContractBuf (rc_hash_arcade env p))
    ∧ (∀ p, specContractDisc (rc_hash_nintendo_ds env p))
    ∧ (∀ t, specContractDisc (rc_hash_pce_track env t))
    ∧ (∀ p, specContractDisc (rc_hash_pce_cd env p))
    ∧ (∀ p, specContractDisc (rc_hash_pcfx_cd env p))
    ∧ (∀ p, specContractDisc (rc_hash_sega_cd env p))
    ∧ (∀ p, specContractDisc (rc_hash_3do env p))
    ∧ (∀ p, specContractDiscExc "Could not read boot executable" (rc_hash_dreamcast env p))
    ∧ (∀ p, specContractDiscExc "Could not read primary executable" (rc_hash_psx env p))
    ∧ (∀ p, specContractDiscExc "Could not read primary executable" (rc_hash_ps2 env p)) :=
  ⟨fun b => c1_buf_core env hwf b,
   fun b => c1_7800 env hwf b,
   fun b => c1_lynx env hwf b,
   fun b => c1_nes env hwf b,
   fun b => c1_pce_buf env hwf b,
   fun b => c1_snes env hwf b,
   fun c b => c1_gen_buffer env hwf c b,
   fun p => c1_whole_file env hwf p,
   fun c p => c1_buffered env hwf c p,
   fun p => c1_arcade env hwf p,
   fun p => c1_ds env hwf p,
   fun t => c1_pce_track env hwf t,
   fun p => c1_pce_cd env hwf p,
   fun p => c1_pcfx_cd env hwf p,
   fun p => c1_sega env hwf p,
   fun p => c1_3do env hwf p,
   fun p => c1_dreamcast env hwf p,
   fun p => c1_psx_contract env hwf p,
   fun p => c1_ps2_contract env hwf p⟩

/-- Witness: the contract instantiated at the hookless environment with
the 16-byte length digest, specialised to the plain buffer recipe on the
empty buffer. -/
theorem c1_output_contract_witness :
    digestWF noCdEnv ∧ specContractBuf (rc_hash_buffer noCdEnv []) :=
  ⟨fun m => by simp [noCdEnv, lenDigest],
   (c1_output_contract noCdEnv (fun m => by simp [noCdEnv, lenDigest])).1 []⟩
